import Mathlib

/-!
# Top-down tile renderer of Mapcrafter

A shallow embedding of `TopdownTileRenderer::renderChunk`, `renderTile` and
`getTileSize` (`mapcraftercore/renderer/renderviews/topdown/tilerenderer.cpp`)
and theorems about the column scan, the water handling and the compositing.

Conventions of the embedding:

* `uint16_t` block ids and data values are natural numbers, `int` values are
  integers; where a statement ranges over all texture sizes and tile widths,
  the `int` arithmetic of the pixel offsets is computed with the wrap-around
  of 32 bits (`int32`, `chunkOffset`, `columnOffset`), and it agrees with the
  integers as long as the tile side `texture_size*16*tile_width` fits an `int`;
* the collaborators of the renderer (block images, render mode, overlays,
  world cache, image operations, block handler) are not part of the translated
  file: they are fields of the structures below, so every theorem holds for
  all of them;
* calls that only have an effect outside of the renderer, or whose order
  matters, are recorded in an event log (`Event`);
* a `while` loop over the height `localpos.y >= 0` is a structural recursion on
  `localpos.y + 1`.
-/

namespace Mapcrafter

/-! ## Positions -/

/-- Position of a chunk, `mc::ChunkPos(x, z)`. -/
structure ChunkPos where
  x : Int
  z : Int
deriving DecidableEq, Repr

/-- Position of a block inside of a chunk, `mc::LocalBlockPos(x, z, y)`. -/
structure LocalBlockPos where
  x : Int
  z : Int
  y : Int
deriving DecidableEq, Repr

/-- Position of a block in the world, `mc::BlockPos(x, z, y)`. -/
structure BlockPos where
  x : Int
  z : Int
  y : Int
deriving DecidableEq, Repr

/-- Position of a tile, read with `getX()` and `getY()`. -/
structure TilePos where
  x : Int
  y : Int
deriving DecidableEq, Repr

/-- Modelled from the spec: `LocalBlockPos::toGlobalPos` (declared in `mc/pos.h`,
which is not among the sources). A global position is derived from a chunk
coordinate plus a local coordinate; chunks are 16 columns wide and the height
is kept. -/
def LocalBlockPos.toGlobalPos (p : LocalBlockPos) (chunk : ChunkPos) : BlockPos :=
  { x := p.x + chunk.x * 16, z := p.z + chunk.z * 16, y := p.y }

/-! ## Images -/

/-- One RGBA pixel (`uint32_t` in the program). -/
abbrev RGBAPixel := Nat

/-- Modelled from the spec: the alpha channel of a pixel (`image.h` is not among
the sources); the pixel is read as `0xAABBGGRR`. -/
def rgba_alpha (p : RGBAPixel) : Nat := (p / 2 ^ 24) % 256

/-- Modelled from the spec: `RGBAImage` (`image.h` is not among the sources), a
raster of RGBA pixels with a width and a height. -/
structure RGBAImage where
  width : Int
  height : Int
  pixel : Int → Int → RGBAPixel

/-- Pixel of an image at a coordinate. -/
def RGBAImage.getPixel (img : RGBAImage) (x y : Int) : RGBAPixel := img.pixel x y

/-- The methods of `RGBAImage` the renderer calls. The first argument is the
image the method is called on, the result is that image after the call. -/
structure ImageOps where
  /-- Method `setSize(width, height)`. -/
  setSize : RGBAImage → Int → Int → RGBAImage
  /-- Method `emptyCopy()`. -/
  emptyCopy : RGBAImage → RGBAImage
  /-- Method `applyMask(mask)`. -/
  applyMask : RGBAImage → RGBAImage → RGBAImage
  /-- Method `alphaBlit(image, x, y)`, called on the tile. -/
  alphaBlit : RGBAImage → RGBAImage → Int → Int → RGBAImage
  /-- Method `alphablit(image, x, y)`, called on an overlay tile. -/
  alphablit : RGBAImage → RGBAImage → Int → Int → RGBAImage
  /-- Method `alphablit(image, x, y, mask)`, called on an overlay tile. -/
  alphablitMask : RGBAImage → RGBAImage → Int → Int → RGBAImage → RGBAImage
  /-- Method `blit(image, x, y, mask)`, called on an overlay tile. -/
  blitMask : RGBAImage → RGBAImage → Int → Int → RGBAImage → RGBAImage

/-! ## Collaborators -/

/-- Biome of a block, as far as the renderer is concerned a plain value. -/
abbrev Biome := Nat

/-- Interface of `mc::Chunk` the renderer reads. -/
structure Chunk where
  getPos : ChunkPos
  getBlockID : LocalBlockPos → Nat
  getBlockData : LocalBlockPos → Nat

/-- Interface of `BlockImages` the renderer reads. -/
structure BlockImages where
  getTextureSize : Int
  getBlockSize : Int
  getMaxWaterPreblit : Int
  getBlock : Nat → Nat → RGBAImage
  getBiomeBlock : Nat → Nat → Biome → RGBAImage
  isBlockTransparent : Nat → Nat → Bool

/-- Interface of `RenderMode`. -/
structure RenderMode where
  isHidden : BlockPos → Nat → Nat → Bool

/-- Interface of `OverlayRenderMode`: `drawOverlay(block, overlay, pos, id, data)`
returns the overlay image after the call. -/
structure OverlayRenderMode where
  drawOverlay : RGBAImage → RGBAImage → BlockPos → Nat → Nat → RGBAImage
  isBase : Bool

/-- The renderer object: the members of `TopdownTileRenderer` together with the
constants and static helpers `renderChunk` refers to. -/
structure TopdownTileRenderer where
  images : BlockImages
  tile_width : Int
  /-- Call `world->getChunk(pos)`, `none` for the null pointer. -/
  world : ChunkPos → Option Chunk
  render_mode : RenderMode
  /-- Method `drawHardcodeOverlay(block, pos, id, data)`, returns the block image. -/
  drawHardcodeOverlay : RGBAImage → BlockPos → Nat → Nat → RGBAImage
  overlays : List OverlayRenderMode
  use_preblit_water : Bool
  /-- Constant `mc::CHUNK_HEIGHT`, the number of 16 block sections of a chunk. -/
  CHUNK_HEIGHT : Nat
  /-- Constant `OPAQUE_WATER`, the data value of the deep water block image. -/
  OPAQUE_WATER : Nat
  /-- Static `Biome::isBiomeBlock(id, data)`. -/
  isBiomeBlock : Nat → Nat → Bool
  /-- Method `getBiomeOfBlock(pos, chunk)`. -/
  getBiomeOfBlock : BlockPos → Chunk → Biome
  /-- The image operations. -/
  img : ImageOps

/-! ## Samples, events and states -/

/-- The local struct `RenderBlock`. -/
structure RenderBlock where
  pos : BlockPos
  id : Nat
  data : Nat
  has_full_water : Bool
  block : RGBAImage
  block_overlays : List RGBAImage

/-- Calls of the renderer that are observable from outside, in program order. -/
inductive Event where
  /-- Read `chunk.getBlockID(localpos)`. -/
  | getBlockID (pos : LocalBlockPos)
  /-- Read `chunk.getBlockData(localpos)`. -/
  | getBlockData (pos : LocalBlockPos)
  /-- Call `block_handler->handleBlock(pos, id, data)`. -/
  | handleBlock (pos : BlockPos) (id data : Nat)
  /-- Call `render_mode->isHidden(pos, id, data)`. -/
  | isHidden (pos : BlockPos) (id data : Nat)
  /-- Call `tile.alphaBlit(image, x, y)`. -/
  | tileAlphaBlit (image : RGBAImage) (x y : Int)
  /-- Call `overlay_tiles[i].alphablit(image, x, y)`. -/
  | overlayAlphablit (i : Nat) (image : RGBAImage) (x y : Int)
  /-- Call `overlay_tiles[i].alphablit(image, x, y, mask)`. -/
  | overlayAlphablitMask (i : Nat) (image : RGBAImage) (x y : Int) (mask : RGBAImage)
  /-- Call `overlay_tiles[i].blit(image, x, y, mask)`. -/
  | overlayBlitMask (i : Nat) (image : RGBAImage) (x y : Int) (mask : RGBAImage)
  /-- Call `tile.setSize(width, height)`. -/
  | tileSetSize (width height : Int)
  /-- Call `overlay_tiles[i].setSize(width, height)`. -/
  | overlaySetSize (i : Nat) (width height : Int)
  /-- Call `world->getChunk(pos)`. -/
  | getChunk (pos : ChunkPos)
  /-- Call `renderChunk(chunk, tile, overlay_tiles, dx, dz)` for the chunk fetched at `pos`. -/
  | renderChunk (pos : ChunkPos) (dx dz : Int)

/-- An event that draws onto the tile or onto an overlay tile. -/
def Event.isBlit : Event → Bool
  | .tileAlphaBlit _ _ _ => true
  | .overlayAlphablit _ _ _ _ => true
  | .overlayAlphablitMask _ _ _ _ _ => true
  | .overlayBlitMask _ _ _ _ _ => true
  | _ => false

/-- The arguments of a `tile.alphaBlit` call, nothing for other events. -/
def Event.tileBlit? : Event → Option (RGBAImage × Int × Int)
  | .tileAlphaBlit image x y => some (image, x, y)
  | _ => none

/-- Height of the voxel an event of the column scan is about. -/
def Event.height? : Event → Option Int
  | .getBlockID pos => some pos.y
  | .getBlockData pos => some pos.y
  | .handleBlock pos _ _ => some pos.y
  | .isHidden pos _ _ => some pos.y
  | _ => none

/-- The local variables of one column of `renderChunk` plus the event log. -/
structure ScanState where
  blocks : List RenderBlock
  in_water : Bool
  has_full_water : Bool
  water : Int
  log : List Event

/-- How the scan loop of a column was left. -/
inductive Exit where
  /-- The loop condition `localpos.y >= 0` failed. -/
  | floor
  /-- The `break` after the water counter exceeded the maximum, at height `y`. -/
  | truncated (y : Nat)
  /-- The `break` after a block that is not transparent, at height `y`. -/
  | occluded (y : Nat)
  /-- The `continue` taken when the start height is negative. -/
  | skipped
deriving DecidableEq, Repr

/-- The tile, the overlay tiles and the event log. -/
structure RenderState where
  tile : RGBAImage
  overlay_tiles : List RGBAImage
  log : List Event

/-! ## The column scan (lines 72 to 173 of `renderChunk`) -/

/-- The test `(id == 8 || id == 9) && (data & 0xf) == 0` of line 107. -/
def isFullWater (id data : Nat) : Bool :=
  (id == 8 || id == 9) && (data &&& 0xf == 0)

/-- The test `it->id != 8 && it->id != 9` of line 130, negated. -/
def isWaterId (id : Nat) : Bool := id == 8 || id == 9

/-- The start height of lines 82 to 84: `localpos.y = -1`, replaced by the
topmost height when it is out of range. -/
def startHeight (r : TopdownTileRenderer) : Int :=
  let y : Int := -1
  if y ≥ (r.CHUNK_HEIGHT : Int) * 16 ∨ y < 0 then (r.CHUNK_HEIGHT : Int) * 16 - 1 else y

/-- The loop of lines 89 to 92, started at height `y` with the id read there:
`while (id == 0 && localpos.y > 0) { localpos.y--; id = chunk.getBlockID(localpos); }`.
Returns the height the loop stops at and the reads it made. -/
def skipAir (chunk : Chunk) (x z : Int) : Nat → Nat → List Event → Nat × List Event
  | 0, _, log => (0, log)
  | y + 1, id, log =>
    if id = 0 then
      skipAir chunk x z y (chunk.getBlockID ⟨x, z, y⟩) (log ++ [Event.getBlockID ⟨x, z, y⟩])
    else (y + 1, log)

/-- The block image of a sample, lines 147 to 152: the plain or the biome image
with the hardcode overlay drawn onto it. -/
def blockImage (r : TopdownTileRenderer) (chunk : Chunk) (globalpos : BlockPos)
    (id data : Nat) : RGBAImage :=
  let block := r.images.getBlock id data
  let block :=
    if r.isBiomeBlock id data then
      r.images.getBiomeBlock id data (r.getBiomeOfBlock globalpos chunk)
    else block
  r.drawHardcodeOverlay block globalpos id data

/-- The overlay images of a sample, lines 161 to 166. -/
def blockOverlays (r : TopdownTileRenderer) (block : RGBAImage) (globalpos : BlockPos)
    (id data : Nat) : List RGBAImage :=
  r.overlays.map fun overlay =>
    r.img.applyMask (overlay.drawOverlay block (r.img.emptyCopy block) globalpos id data) block

/-- The sample built in lines 147 to 166. -/
def makeRenderBlock (r : TopdownTileRenderer) (chunk : Chunk) (globalpos : BlockPos)
    (id data : Nat) (has_full_water : Bool) : RenderBlock :=
  let block := blockImage r chunk globalpos id data
  { pos := globalpos, id := id, data := data, has_full_water := has_full_water,
    block := block, block_overlays := blockOverlays r block globalpos id data }

/-- Lines 147 to 172: build the sample, append it, and leave the loop when the
block is not transparent. The result `none` stands for `localpos.y--` and the
next iteration. -/
def appendSample (r : TopdownTileRenderer) (chunk : Chunk) (globalpos : BlockPos)
    (id data : Nat) (y : Nat) (st : ScanState) : ScanState × Option Exit :=
  let render_block := makeRenderBlock r chunk globalpos id data st.has_full_water
  let st := { st with blocks := st.blocks ++ [render_block] }
  if !r.images.isBlockTransparent id data then (st, some (Exit.occluded y)) else (st, none)

/-- The deep water sample lines 133 to 136 turn a sample into. -/
def deepWater (r : TopdownTileRenderer) (top : RenderBlock) : RenderBlock :=
  { top with
    id := 8
    data := r.OPAQUE_WATER
    block := r.drawHardcodeOverlay (r.images.getBlock 8 r.OPAQUE_WATER) top.pos 8 r.OPAQUE_WATER }

/-- The loop of lines 127 to 141 over the deque, from `blocks.begin()`: a sample
whose successor is a water sample is erased; the first sample that is the last
one, or whose successor is no water sample, is turned into deep water, and the
loop ends. -/
def truncateWater (r : TopdownTileRenderer) : List RenderBlock → List RenderBlock
  | [] => []
  | [current] => [deepWater r current]
  | current :: next :: rest =>
    if next.id ≠ 8 ∧ next.id ≠ 9 then deepWater r current :: next :: rest
    else truncateWater r (next :: rest)

/-- One iteration of the loop of lines 96 to 173, at height `y`. The result
`none` stands for `localpos.y--` followed by the next test of the loop condition
(also through `continue`), `some e` for a `break`. -/
def scanStep (r : TopdownTileRenderer) (chunk : Chunk) (x z : Int) (y : Nat)
    (st : ScanState) : ScanState × Option Exit :=
  let localpos : LocalBlockPos := ⟨x, z, y⟩
  let globalpos := localpos.toGlobalPos chunk.getPos
  let id := chunk.getBlockID localpos
  let data := chunk.getBlockData localpos
  let st := { st with log := st.log ++
    [Event.getBlockID localpos, Event.getBlockData localpos, Event.handleBlock globalpos id data] }
  if id = 0 then
    ({ st with in_water := false }, none)
  else
    let is_water := isFullWater id data
    let st := { st with log := st.log ++ [Event.isHidden globalpos id data] }
    if r.render_mode.isHidden globalpos id data then
      (st, none)
    else if is_water && !r.use_preblit_water then
      let st := { st with has_full_water := true }
      if is_water == st.in_water then
        (st, none)
      else
        appendSample r chunk globalpos id data y { st with in_water := is_water }
    else if r.use_preblit_water then
      if !is_water then
        appendSample r chunk globalpos id data y { st with water := 0 }
      else
        let st := { st with water := st.water + 1 }
        if st.water > r.images.getMaxWaterPreblit then
          ({ st with blocks := truncateWater r st.blocks }, some (Exit.truncated y))
        else
          appendSample r chunk globalpos id data y st
    else
      appendSample r chunk globalpos id data y st

/-- The loop `while (localpos.y >= 0)` of lines 96 to 173, entered with
`localpos.y + 1 = n`. -/
def scanLoop (r : TopdownTileRenderer) (chunk : Chunk) (x z : Int) :
    Nat → ScanState → ScanState × Exit
  | 0, st => (st, Exit.floor)
  | y + 1, st =>
    match scanStep r chunk x z y st with
    | (st', none) => scanLoop r chunk x z y st'
    | (st', some e) => (st', e)

/-- The variables of a column as declared in lines 72 to 77, with the log of the
reads and the notification of lines 86 to 88. -/
def initialScan (chunk : Chunk) (x z : Int) (top : Int) : ScanState :=
  let localpos : LocalBlockPos := ⟨x, z, top⟩
  { blocks := [], in_water := false, has_full_water := false, water := 0,
    log := [Event.getBlockID localpos, Event.getBlockData localpos,
      Event.handleBlock (localpos.toGlobalPos chunk.getPos)
        (chunk.getBlockID localpos) (chunk.getBlockData localpos)] }

/-- Lines 72 to 173 for the column `(x, z)` of a chunk: the samples of the
column, the final values of the water variables, the events, and the way the
scan ended. The test `localpos.y < 0` of line 93 is made before the loop of
lines 89 to 92, which leaves a negative height as it is. -/
def scanColumn (r : TopdownTileRenderer) (chunk : Chunk) (x z : Int) : ScanState × Exit :=
  let top := startHeight r
  let st := initialScan chunk x z top
  if top < 0 then (st, Exit.skipped)
  else
    let air := skipAir chunk x z top.toNat (chunk.getBlockID ⟨x, z, top⟩) st.log
    scanLoop r chunk x z (air.1 + 1) { st with log := air.2 }

/-! ## Compositing a column (lines 175 to 191 of `renderChunk`) -/

/-- Replace element `i` of a list by its image under `f`, as the assignment
through `overlay_tiles[i]` does. -/
def modifyAt (f : RGBAImage → RGBAImage) : List RGBAImage → Nat → List RGBAImage
  | [], _ => []
  | a :: as, 0 => f a :: as
  | a :: as, i + 1 => a :: modifyAt f as i

/-- The image without pixels, the value read for an index outside of a list. -/
def noImage : RGBAImage := { width := 0, height := 0, pixel := fun _ _ => 0 }

/-- Body of the loop over the overlays, lines 183 to 188, for overlay `i`. -/
def drawOverlayOf (r : TopdownTileRenderer) (render_block : RenderBlock) (image_x image_y : Int)
    (overlay : OverlayRenderMode) (i : Nat) (st : RenderState) : RenderState :=
  let block_overlay := render_block.block_overlays.getD i noImage
  if render_block.has_full_water && overlay.isBase then
    { st with
      overlay_tiles := modifyAt
        (fun t => r.img.alphablitMask (r.img.alphablit t render_block.block image_x image_y)
          block_overlay image_x image_y render_block.block) st.overlay_tiles i
      log := st.log ++
        [Event.overlayAlphablit i render_block.block image_x image_y,
         Event.overlayAlphablitMask i block_overlay image_x image_y render_block.block] }
  else
    { st with
      overlay_tiles := modifyAt
        (fun t => r.img.blitMask t block_overlay image_x image_y render_block.block)
        st.overlay_tiles i
      log := st.log ++ [Event.overlayBlitMask i block_overlay image_x image_y render_block.block] }

/-- The loop `for (size_t i = 0; i < overlays.size(); i++)` of lines 180 to 189,
over the overlays that are left, the first of them having index `i`. -/
def drawOverlays (r : TopdownTileRenderer) (render_block : RenderBlock) (image_x image_y : Int) :
    List OverlayRenderMode → Nat → RenderState → RenderState
  | [], _, st => st
  | overlay :: rest, i, st =>
    drawOverlays r render_block image_x image_y rest (i + 1)
      (drawOverlayOf r render_block image_x image_y overlay i st)

/-- Lines 176 to 189: draw one sample of the column `(x, z)`. -/
def drawRenderBlock (r : TopdownTileRenderer) (texture_size dx dz x z : Int)
    (render_block : RenderBlock) (st : RenderState) : RenderState :=
  let image_x := dx + x * texture_size
  let image_y := dz + z * texture_size
  let st := { st with
    tile := r.img.alphaBlit st.tile render_block.block image_x image_y
    log := st.log ++ [Event.tileAlphaBlit render_block.block image_x image_y] }
  drawOverlays r render_block image_x image_y r.overlays 0 st

/-- The loop `while (blocks.size() > 0)` of lines 175 to 191, which draws
`blocks.back()` and removes it with `blocks.pop_back()`; `n` bounds the number
of iterations. -/
def compositeLoop (r : TopdownTileRenderer) (texture_size dx dz x z : Int) :
    Nat → List RenderBlock → RenderState → RenderState
  | 0, _, st => st
  | n + 1, blocks, st =>
    match blocks.getLast? with
    | none => st
    | some render_block =>
      compositeLoop r texture_size dx dz x z n blocks.dropLast
        (drawRenderBlock r texture_size dx dz x z render_block st)

/-- The loop of lines 175 to 191 for the samples of a column. -/
def compositeColumn (r : TopdownTileRenderer) (texture_size dx dz x z : Int)
    (blocks : List RenderBlock) (st : RenderState) : RenderState :=
  compositeLoop r texture_size dx dz x z blocks.length blocks st

/-! ## `renderChunk`, `getTileSize` and `renderTile` -/

/-- Body of the two loops of `renderChunk` (lines 72 to 191) for the column
`(x, z)`: scan the column, then draw its samples. -/
def renderColumn (r : TopdownTileRenderer) (chunk : Chunk) (texture_size dx dz x z : Int)
    (st : RenderState) : RenderState :=
  let scan := scanColumn r chunk x z
  compositeColumn r texture_size dx dz x z scan.1.blocks { st with log := st.log ++ scan.1.log }

/-- The function `renderChunk(chunk, tile, overlay_tiles, dx, dz)`. -/
def renderChunk (r : TopdownTileRenderer) (chunk : Chunk) (dx dz : Int)
    (st : RenderState) : RenderState :=
  let texture_size := r.images.getTextureSize
  (List.range 16).foldl
    (fun st (x : Nat) => (List.range 16).foldl
      (fun st (z : Nat) => renderColumn r chunk texture_size dx dz (x : Int) (z : Int) st) st)
    st

/-- The function `getTileSize()`. -/
def getTileSize (r : TopdownTileRenderer) : Int :=
  r.images.getBlockSize * 16 * r.tile_width

/-- The chunk position of line 206. -/
def chunkPosOf (r : TopdownTileRenderer) (tile_pos : TilePos) (x z : Int) : ChunkPos :=
  ⟨tile_pos.x * r.tile_width + x, tile_pos.y * r.tile_width + z⟩

/-- Body of the two loops of `renderTile`, lines 206 to 209. -/
def renderTileChunk (r : TopdownTileRenderer) (tile_pos : TilePos) (texture_size x z : Int)
    (st : RenderState) : RenderState :=
  let chunkpos := chunkPosOf r tile_pos x z
  let st := { st with log := st.log ++ [Event.getChunk chunkpos] }
  match r.world chunkpos with
  | some current_chunk =>
    renderChunk r current_chunk (texture_size * 16 * x) (texture_size * 16 * z)
      { st with log := st.log ++
        [Event.renderChunk chunkpos (texture_size * 16 * x) (texture_size * 16 * z)] }
  | none => st

/-- The loop of lines 201 and 202 over the overlay tiles that are left, the
first of them having index `i`; `n` counts the overlays that are left. -/
def sizeOverlays (r : TopdownTileRenderer) : Nat → Nat → RenderState → RenderState
  | 0, _, st => st
  | n + 1, i, st =>
    sizeOverlays r n (i + 1)
      { st with
        overlay_tiles := modifyAt (fun t => r.img.setSize t (getTileSize r) (getTileSize r))
          st.overlay_tiles i
        log := st.log ++ [Event.overlaySetSize i (getTileSize r) (getTileSize r)] }

/-- Lines 199 to 202 of `renderTile`: size the tile and the overlay tiles. -/
def sizeTiles (r : TopdownTileRenderer) (st : RenderState) : RenderState :=
  sizeOverlays r r.overlays.length 0
    { st with
      tile := r.img.setSize st.tile (getTileSize r) (getTileSize r)
      log := st.log ++ [Event.tileSetSize (getTileSize r) (getTileSize r)] }

/-- The chunk loops of `renderTile`, lines 204 to 211. -/
def renderChunks (r : TopdownTileRenderer) (tile_pos : TilePos) (st : RenderState) :
    RenderState :=
  let texture_size := r.images.getTextureSize
  (List.range r.tile_width.toNat).foldl
    (fun st (x : Nat) => (List.range r.tile_width.toNat).foldl
      (fun st (z : Nat) => renderTileChunk r tile_pos texture_size (x : Int) (z : Int) st) st)
    st

/-- The function `renderTile(tile_pos, tile, overlay_tiles)`. A failed `assert`
ends the program: the result is then `Except.error` with the state at that
point. -/
def renderTile (r : TopdownTileRenderer) (tile_pos : TilePos) (st : RenderState) :
    Except RenderState RenderState :=
  if r.overlays.length ≠ st.overlay_tiles.length then Except.error st
  else Except.ok (renderChunks r tile_pos (sizeTiles r st))

end Mapcrafter

namespace Mapcrafter

/-! ## Definitions used to state the theorems -/

/-- The events of one iteration of the scan loop at height `y`: they depend on
the voxel only. -/
def stepEvents (chunk : Chunk) (x z : Int) (y : Nat) : List Event :=
  let localpos : LocalBlockPos := ⟨x, z, y⟩
  let globalpos := localpos.toGlobalPos chunk.getPos
  let id := chunk.getBlockID localpos
  let data := chunk.getBlockData localpos
  [Event.getBlockID localpos, Event.getBlockData localpos, Event.handleBlock globalpos id data] ++
    if id = 0 then [] else [Event.isHidden globalpos id data]

/-- The events of the iterations of the scan loop from height `n - 1` down to
height `m`. -/
def loopEvents (chunk : Chunk) (x z : Int) (m : Nat) : Nat → List Event
  | 0 => []
  | y + 1 => if y < m then [] else stepEvents chunk x z y ++ loopEvents chunk x z m y

/-- The height the scan loop stops at: the height of the `break`, or `0` when
the loop runs down to the floor. -/
def Exit.stopHeight : Exit → Nat
  | Exit.truncated y => y
  | Exit.occluded y => y
  | _ => 0

/-- The position asked for by a `getChunk` event, nothing for other events. -/
def Event.getChunk? : Event → Option ChunkPos
  | .getChunk pos => some pos
  | _ => none

/-- The arguments of a `renderChunk` event, nothing for other events. -/
def Event.renderChunk? : Event → Option (ChunkPos × Int × Int)
  | .renderChunk pos dx dz => some (pos, dx, dz)
  | _ => none

/-- An event that sizes the tile or an overlay tile. -/
def Event.isSetSize : Event → Bool
  | .tileSetSize _ _ => true
  | .overlaySetSize _ _ _ => true
  | _ => false

/-- The arguments of a `setSize` event: the index of the overlay tile (`none` for
the tile), the width and the height; nothing for other events. -/
def Event.setSize? : Event → Option (Option Nat × Int × Int)
  | .tileSetSize width height => some (none, width, height)
  | .overlaySetSize i width height => some (some i, width, height)
  | _ => none

/-- An event made inside of `renderChunk`: a read of the chunk, a notification, a
query of the render mode or a blit. -/
def Event.inChunk (e : Event) : Bool := e.isBlit || e.height?.isSome

/-- The pairs `(x, z)` with `0 <= x, z < tile_width`, in the order in which the
loops of `renderTile` (lines 204 and 205) visit them. -/
def tileChunks (r : TopdownTileRenderer) : List (Int × Int) :=
  (List.range r.tile_width.toNat).flatMap fun (x : Nat) =>
    (List.range r.tile_width.toNat).map fun (z : Nat) => ((x : Int), (z : Int))

/-! ## Concrete collaborators, used to evaluate the renderer -/

/-- A square block image of one colour; pixels outside of the square are clear. -/
def sprite (size : Int) (c : RGBAPixel) : RGBAImage :=
  { width := size, height := size,
    pixel := fun x y => if 0 ≤ x ∧ x < size ∧ 0 ≤ y ∧ y < size then c else 0 }

/-- A pixel blend for the examples: a clear source pixel keeps the destination,
any other source pixel covers it. -/
def coverPixel (dest source : RGBAPixel) : RGBAPixel :=
  if rgba_alpha source = 0 then dest else source

/-- Image operations for the examples. -/
def exampleOps : ImageOps :=
  { setSize := fun _ w h => { width := w, height := h, pixel := fun _ _ => 0 }
    emptyCopy := fun img => { img with pixel := fun _ _ => 0 }
    applyMask := fun img mask =>
      { img with pixel := fun x y => if rgba_alpha (mask.pixel x y) = 0 then 0 else img.pixel x y }
    alphaBlit := fun dest src x y =>
      { dest with pixel := fun px py => coverPixel (dest.pixel px py) (src.pixel (px - x) (py - y)) }
    alphablit := fun dest src x y =>
      { dest with pixel := fun px py => coverPixel (dest.pixel px py) (src.pixel (px - x) (py - y)) }
    alphablitMask := fun dest src x y mask =>
      { dest with pixel := fun px py =>
          if rgba_alpha (mask.pixel (px - x) (py - y)) = 0 then dest.pixel px py
          else coverPixel (dest.pixel px py) (src.pixel (px - x) (py - y)) }
    blitMask := fun dest src x y mask =>
      { dest with pixel := fun px py =>
          if rgba_alpha (mask.pixel (px - x) (py - y)) = 0 then dest.pixel px py
          else src.pixel (px - x) (py - y) } }

/-- Block images for the examples: texture size 1; water (ids 8 and 9) and
glass (id 20) are transparent, every other block is not. -/
def exampleImages (max_water : Int) : BlockImages :=
  { getTextureSize := 1
    getBlockSize := 1
    getMaxWaterPreblit := max_water
    getBlock := fun id data => sprite 1 (0xff000000 + id * 256 + data % 256)
    getBiomeBlock := fun id data biome => sprite 1 (0xff000000 + id * 256 + data % 256 + biome * 65536)
    isBlockTransparent := fun id _ => id == 8 || id == 9 || id == 20 }

/-- A renderer for the examples: nothing is hidden, no biome blocks, chunks of
16 sections (256 blocks high), a tile of one chunk, no overlays. -/
def exampleRenderer (preblit : Bool) (max_water : Int) (world : ChunkPos → Option Chunk) :
    TopdownTileRenderer :=
  { images := exampleImages max_water
    tile_width := 1
    world := world
    render_mode := { isHidden := fun _ _ _ => false }
    drawHardcodeOverlay := fun block _ _ _ => block
    overlays := []
    use_preblit_water := preblit
    CHUNK_HEIGHT := 16
    OPAQUE_WATER := 4096
    isBiomeBlock := fun _ _ => false
    getBiomeOfBlock := fun _ _ => 0
    img := exampleOps }

/-- A renderer for the examples whose block images report the block size 2 and
the texture size 1. -/
def exampleRendererBlockSize2 : TopdownTileRenderer :=
  { exampleRenderer false 1 (fun _ => none) with
    images := { exampleImages 1 with getBlockSize := 2 } }

/-- A chunk for the examples, all of whose columns hold the blocks `column`,
listed from the top of the chunk (height `16 * 16 - 1`) downwards; the rest is air. -/
def exampleChunk (column : List (Nat × Nat)) : Chunk :=
  { getPos := ⟨0, 0⟩
    getBlockID := fun pos => (column.getD (255 - pos.y).toNat (0, 0)).1
    getBlockData := fun pos => (column.getD (255 - pos.y).toNat (0, 0)).2 }

end Mapcrafter

namespace Mapcrafter

/-! ## Further definitions used to state the theorems -/

/-- The arguments of a `handleBlock` event, nothing for other events. -/
def Event.handleBlock? : Event → Option (BlockPos × Nat × Nat)
  | .handleBlock pos id data => some (pos, id, data)
  | _ => none

/-- The local position read by a `getBlockID` event, nothing for other events. -/
def Event.getBlockID? : Event → Option LocalBlockPos
  | .getBlockID pos => some pos
  | _ => none

/-- An event of the branch of lines 184 and 185, taken for a sample with
`has_full_water` and an overlay with `isBase()`. -/
def Event.isBasePath : Event → Bool
  | .overlayAlphablit _ _ _ _ => true
  | .overlayAlphablitMask _ _ _ _ _ => true
  | _ => false

/-- The sample that lines 147 to 166 build for the voxel at height `y` of the
column `(x, z)` when the flag `has_full_water` of the column is `hfw`. -/
def voxelSample (r : TopdownTileRenderer) (chunk : Chunk) (x z : Int) (y : Nat) (hfw : Bool) :
    RenderBlock :=
  makeRenderBlock r chunk ((⟨x, z, y⟩ : LocalBlockPos).toGlobalPos chunk.getPos)
    (chunk.getBlockID ⟨x, z, y⟩) (chunk.getBlockData ⟨x, z, y⟩) hfw

/-- What the overlay loop of lines 180 to 189 does to overlay tile `i` for the
overlay `overlay`: two `alphablit` calls for a sample with `has_full_water` and
an overlay with `isBase()`, one `blit` call otherwise. -/
def overlayTileAfter (r : TopdownTileRenderer) (render_block : RenderBlock)
    (image_x image_y : Int) (overlay : OverlayRenderMode) (i : Nat) (t : RGBAImage) : RGBAImage :=
  if render_block.has_full_water && overlay.isBase then
    r.img.alphablitMask (r.img.alphablit t render_block.block image_x image_y)
      (render_block.block_overlays.getD i noImage) image_x image_y render_block.block
  else
    r.img.blitMask t (render_block.block_overlays.getD i noImage) image_x image_y
      render_block.block

/-- The events of the overlay loop of lines 180 to 189 for overlay `i`. -/
def overlayEventsOf (render_block : RenderBlock) (image_x image_y : Int)
    (overlay : OverlayRenderMode) (i : Nat) : List Event :=
  if render_block.has_full_water && overlay.isBase then
    [Event.overlayAlphablit i render_block.block image_x image_y,
     Event.overlayAlphablitMask i (render_block.block_overlays.getD i noImage) image_x image_y
       render_block.block]
  else
    [Event.overlayBlitMask i (render_block.block_overlays.getD i noImage) image_x image_y
      render_block.block]

/-- The events of the overlay loop for the overlays `overlays`, the first of
them having index `i`. -/
def overlayEvents (render_block : RenderBlock) (image_x image_y : Int) :
    List OverlayRenderMode → Nat → List Event
  | [], _ => []
  | overlay :: rest, i =>
    overlayEventsOf render_block image_x image_y overlay i ++
      overlayEvents render_block image_x image_y rest (i + 1)

/-- The topmost height at or below `y` whose voxel is not air, `0` when there is
none: the height at which the loop of lines 89 to 92 stops. -/
def topNonAir (chunk : Chunk) (x z : Int) : Nat → Nat
  | 0 => 0
  | y + 1 => if chunk.getBlockID ⟨x, z, ((y + 1 : Nat) : Int)⟩ = 0 then topNonAir chunk x z y else y + 1

/-- The heights `n - 1, n - 2, ..., m`, in this order. -/
def heightsDown (m : Nat) : Nat → List Nat
  | 0 => []
  | y + 1 => if y < m then [] else y :: heightsDown m y

/-- The arguments `handleBlock` is called with for the voxel at height `y` of the
column `(x, z)`: global position, id and data. -/
def voxelAt (chunk : Chunk) (x z : Int) (y : Nat) : BlockPos × Nat × Nat :=
  ((⟨x, z, y⟩ : LocalBlockPos).toGlobalPos chunk.getPos, chunk.getBlockID ⟨x, z, y⟩,
    chunk.getBlockData ⟨x, z, y⟩)

/-- The columns `(x, z)` of a chunk in the order in which the loops of
`renderChunk` (lines 70 and 71) visit them. -/
def gridColumns : List (Nat × Nat) :=
  (List.range 16).flatMap fun (x : Nat) => (List.range 16).map fun (z : Nat) => (x, z)

/-- The voxel at height `y` of the column `(x, z)` is full water and not hidden. -/
def visibleFullWater (r : TopdownTileRenderer) (chunk : Chunk) (x z : Int) (y : Nat) : Bool :=
  isFullWater (chunk.getBlockID ⟨x, z, y⟩) (chunk.getBlockData ⟨x, z, y⟩) &&
    !r.render_mode.isHidden ((⟨x, z, y⟩ : LocalBlockPos).toGlobalPos chunk.getPos)
      (chunk.getBlockID ⟨x, z, y⟩) (chunk.getBlockData ⟨x, z, y⟩)

/-! ## Further concrete collaborators -/

/-- The example renderer with a render mode that hides the blocks with the id
`hidden_id`. -/
def exampleRendererHiding (preblit : Bool) (max_water : Int) (hidden_id : Nat) :
    TopdownTileRenderer :=
  { exampleRenderer preblit max_water (fun _ => none) with
    render_mode := { isHidden := fun _ id _ => id == hidden_id } }

/-- The example renderer with block images for which the deep water block
(id 8, data `OPAQUE_WATER`) is not transparent. -/
def exampleRendererSolidDeep (preblit : Bool) (max_water : Int) : TopdownTileRenderer :=
  { exampleRenderer preblit max_water (fun _ => none) with
    images := { exampleImages max_water with
      isBlockTransparent := fun id data => (id == 8 || id == 9 || id == 20) && data != 4096 } }

/-- The example renderer with one overlay that fills the overlay image with the
pixel `c`. -/
def exampleRendererOverlay (preblit : Bool) (max_water : Int) (isBase : Bool) (c : RGBAPixel) :
    TopdownTileRenderer :=
  { exampleRenderer preblit max_water (fun _ => none) with
    overlays := [{ drawOverlay := fun _ dest _ _ _ => { dest with pixel := fun _ _ => c },
                   isBase := isBase }] }

/-- A square block image of one colour with a clear pixel at `(0, 0)`. -/
def spriteWithHole (size : Int) (c : RGBAPixel) : RGBAImage :=
  { width := size, height := size,
    pixel := fun x y =>
      if x = 0 ∧ y = 0 then 0 else if 0 ≤ x ∧ x < size ∧ 0 ≤ y ∧ y < size then c else 0 }

/-- The example renderer in the preblit water mode with block images of texture
size 2 whose deep water image (id 8, data `OPAQUE_WATER`) has a clear pixel at
`(0, 0)`, and with one overlay that fills the overlay image with `0x40ffffff`. -/
def exampleRendererHole (max_water : Int) : TopdownTileRenderer :=
  { exampleRenderer true max_water (fun _ => none) with
    images :=
      { getTextureSize := 2
        getBlockSize := 2
        getMaxWaterPreblit := max_water
        getBlock := fun id data =>
          if id = 8 ∧ data = 4096 then spriteWithHole 2 0xff804020
          else sprite 2 (0xff000000 + id * 256 + data % 256)
        getBiomeBlock := fun id data _ => sprite 2 (0xff000000 + id * 256 + data % 256)
        isBlockTransparent := fun id _ => id == 8 || id == 9 || id == 20 }
    overlays := [{ drawOverlay := fun _ dest _ _ _ => { dest with pixel := fun _ _ => 0x40ffffff },
                   isBase := false }] }

/-- The example renderer with a world that has the chunk `chunk` everywhere and
with a hardcode overlay that adds the `x` coordinate of the block to every
pixel of the block image. -/
def exampleRendererTint (chunk : Chunk) : TopdownTileRenderer :=
  { exampleRenderer false 1 (fun _ => some chunk) with
    drawHardcodeOverlay := fun block pos _ _ =>
      { block with pixel := fun px py => block.pixel px py + pos.x.toNat } }

end Mapcrafter

namespace Mapcrafter

/-! ## Lemmas about the column scan -/

theorem startHeight_eq (r : TopdownTileRenderer) :
    startHeight r = (r.CHUNK_HEIGHT : Int) * 16 - 1 := by
  simp [startHeight]

theorem appendSample_log (r : TopdownTileRenderer) (chunk : Chunk) (g : BlockPos)
    (id data y : Nat) (st : ScanState) :
    (appendSample r chunk g id data y st).1.log = st.log := by
  unfold appendSample
  split_ifs <;> rfl

theorem appendSample_blocks (r : TopdownTileRenderer) (chunk : Chunk) (g : BlockPos)
    (id data y : Nat) (st : ScanState) :
    (appendSample r chunk g id data y st).1.blocks =
      st.blocks ++ [makeRenderBlock r chunk g id data st.has_full_water] := by
  unfold appendSample
  split_ifs <;> rfl

theorem appendSample_exit (r : TopdownTileRenderer) (chunk : Chunk) (g : BlockPos)
    (id data y : Nat) (st : ScanState) :
    (appendSample r chunk g id data y st).2 =
      if r.images.isBlockTransparent id data then none else some (Exit.occluded y) := by
  unfold appendSample
  cases r.images.isBlockTransparent id data <;> simp

theorem scanStep_log (r : TopdownTileRenderer) (chunk : Chunk) (x z : Int) (y : Nat)
    (st : ScanState) :
    (scanStep r chunk x z y st).1.log = st.log ++ stepEvents chunk x z y := by
  unfold scanStep stepEvents
  simp only []
  split_ifs <;> simp [appendSample_log]

theorem stepEvents_spec (chunk : Chunk) (x z : Int) (y : Nat) :
    ∀ e ∈ stepEvents chunk x z y, e.isBlit = false ∧ e.height? = some (y : Int) := by
  unfold stepEvents
  simp only []
  split_ifs <;> simp [Event.isBlit, Event.height?, LocalBlockPos.toGlobalPos]

theorem loopEvents_spec (chunk : Chunk) (x z : Int) (m n : Nat) :
    ∀ e ∈ loopEvents chunk x z m n,
      e.isBlit = false ∧ ∃ h : Nat, e.height? = some (h : Int) ∧ m ≤ h ∧ h < n := by
  induction n with
  | zero => simp [loopEvents]
  | succ y ih =>
    intro e he
    unfold loopEvents at he
    split_ifs at he with hlt
    · simp at he
    · rcases List.mem_append.1 he with h | h
      · exact ⟨(stepEvents_spec chunk x z y e h).1, y, (stepEvents_spec chunk x z y e h).2,
          by omega, by omega⟩
      · obtain ⟨h1, k, h2, h3, h4⟩ := ih e h
        exact ⟨h1, k, h2, h3, by omega⟩

theorem scanStep_exit_height (r : TopdownTileRenderer) (chunk : Chunk) (x z : Int) (y : Nat)
    (st : ScanState) (e : Exit) (h : (scanStep r chunk x z y st).2 = some e) :
    e = Exit.truncated y ∨ e = Exit.occluded y := by
  unfold scanStep at h
  simp only [] at h
  split_ifs at h <;> simp [appendSample_exit] at h <;> first
    | (left; exact h.symm)
    | (right; exact h.2.symm)

theorem loopEvents_of_le (chunk : Chunk) (x z : Int) (m n : Nat) (h : n ≤ m) :
    loopEvents chunk x z m n = [] := by
  cases n with
  | zero => rfl
  | succ y => simp [loopEvents]; omega

theorem scanLoop_stopHeight_le (r : TopdownTileRenderer) (chunk : Chunk) (x z : Int) (n : Nat)
    (st : ScanState) : (scanLoop r chunk x z n st).2.stopHeight ≤ n - 1 := by
  induction n generalizing st with
  | zero => simp [scanLoop, Exit.stopHeight]
  | succ y ih =>
    unfold scanLoop
    have he := scanStep_exit_height r chunk x z y st
    rcases hstep : scanStep r chunk x z y st with ⟨st', _ | e⟩
    · simp only []
      have := ih st'
      omega
    · simp only [hstep] at he ⊢
      rcases he e rfl with h | h <;> subst h <;> simp [Exit.stopHeight]

theorem scanLoop_log (r : TopdownTileRenderer) (chunk : Chunk) (x z : Int) (n : Nat)
    (st : ScanState) :
    (scanLoop r chunk x z n st).1.log =
      st.log ++ loopEvents chunk x z (scanLoop r chunk x z n st).2.stopHeight n := by
  induction n generalizing st with
  | zero => simp [scanLoop, loopEvents]
  | succ y ih =>
    unfold scanLoop
    have hs := scanStep_log r chunk x z y st
    have he := scanStep_exit_height r chunk x z y st
    rcases hstep : scanStep r chunk x z y st with ⟨st', _ | e⟩
    · simp only [hstep] at hs ⊢
      rw [ih st', hs, loopEvents]
      have : ¬ y < (scanLoop r chunk x z y st').2.stopHeight := by
        have := scanLoop_stopHeight_le r chunk x z y st'
        omega
      simp [this]
    · simp only [hstep] at hs he ⊢
      rcases he e rfl with h | h <;> subst h <;>
        simp [hs, loopEvents, Exit.stopHeight, loopEvents_of_le]

theorem skipAir_le (chunk : Chunk) (x z : Int) (y id : Nat) (log : List Event) :
    (skipAir chunk x z y id log).1 ≤ y := by
  induction y generalizing id log with
  | zero => simp [skipAir]
  | succ y ih =>
    unfold skipAir
    split_ifs
    · have := ih (chunk.getBlockID ⟨x, z, y⟩) (log ++ [Event.getBlockID ⟨x, z, y⟩])
      omega
    · simp

theorem skipAir_log (chunk : Chunk) (x z : Int) (y id : Nat) (log : List Event) :
    ∃ ev, (skipAir chunk x z y id log).2 = log ++ ev ∧
      ∀ e ∈ ev, e.isBlit = false ∧
        ∃ h : Nat, e.height? = some (h : Int) ∧ (skipAir chunk x z y id log).1 ≤ h := by
  induction y generalizing id log with
  | zero => exact ⟨[], by simp [skipAir]⟩
  | succ y ih =>
    unfold skipAir
    split_ifs
    · obtain ⟨ev, h1, h2⟩ := ih (chunk.getBlockID ⟨x, z, y⟩) (log ++ [Event.getBlockID ⟨x, z, y⟩])
      refine ⟨Event.getBlockID ⟨x, z, y⟩ :: ev, by simp [h1], ?_⟩
      intro e he
      rcases List.mem_cons.1 he with h | h
      · subst h
        exact ⟨rfl, y, rfl, skipAir_le _ _ _ _ _ _⟩
      · exact h2 e h
    · exact ⟨[], by simp⟩

/-- All voxels below the start height being air, the loop of lines 89 to 92 runs
down to height 0. -/
theorem skipAir_air (chunk : Chunk) (x z : Int) (y : Nat) (log : List Event)
    (hair : ∀ y' : Nat, y' ≤ y → chunk.getBlockID ⟨x, z, y'⟩ = 0) :
    (skipAir chunk x z y (chunk.getBlockID ⟨x, z, y⟩) log).1 = 0 := by
  induction y generalizing log with
  | zero => simp [skipAir]
  | succ y ih =>
    unfold skipAir
    rw [if_pos (hair (y + 1) le_rfl)]
    exact ih _ (fun y' h => hair y' (by omega))

/-- The loop of lines 89 to 92 stops at the topmost voxel that is not air. -/
theorem skipAir_top (chunk : Chunk) (x z : Int) (y0 y : Nat) (log : List Event) (hle : y0 ≤ y)
    (hair : ∀ y' : Nat, y0 < y' → y' ≤ y → chunk.getBlockID ⟨x, z, y'⟩ = 0)
    (h0 : chunk.getBlockID ⟨x, z, y0⟩ ≠ 0) :
    (skipAir chunk x z y (chunk.getBlockID ⟨x, z, y⟩) log).1 = y0 := by
  induction y generalizing log with
  | zero =>
    have : y0 = 0 := by omega
    simp [skipAir, this]
  | succ y ih =>
    unfold skipAir
    by_cases hid : chunk.getBlockID ⟨x, z, ((y + 1 : Nat) : Int)⟩ = 0
    · rw [if_pos hid]
      have hne : y0 ≠ y + 1 := fun h => h0 (h ▸ hid)
      exact ih _ (by omega) (fun y' h1 h2 => hair y' h1 (by omega))
    · rw [if_neg hid]
      by_contra hne
      exact hid (hair (y + 1) (by simp at hne; omega) le_rfl)

/-- The scan of a column of a chunk with at least one section: the loop of lines
89 to 92 from the topmost height, then the scan loop. -/
theorem scanColumn_eq (r : TopdownTileRenderer) (chunk : Chunk) (x z : Int)
    (hH : 0 < r.CHUNK_HEIGHT) :
    scanColumn r chunk x z =
      scanLoop r chunk x z
        ((skipAir chunk x z (r.CHUNK_HEIGHT * 16 - 1)
          (chunk.getBlockID ⟨x, z, ((r.CHUNK_HEIGHT * 16 - 1 : Nat) : Int)⟩)
          (initialScan chunk x z ((r.CHUNK_HEIGHT * 16 - 1 : Nat) : Int)).log).1 + 1)
        { initialScan chunk x z ((r.CHUNK_HEIGHT * 16 - 1 : Nat) : Int) with
          log := (skipAir chunk x z (r.CHUNK_HEIGHT * 16 - 1)
            (chunk.getBlockID ⟨x, z, ((r.CHUNK_HEIGHT * 16 - 1 : Nat) : Int)⟩)
            (initialScan chunk x z ((r.CHUNK_HEIGHT * 16 - 1 : Nat) : Int)).log).2 } := by
  have h1 : startHeight r = ((r.CHUNK_HEIGHT * 16 - 1 : Nat) : Int) := by
    rw [startHeight_eq]; omega
  unfold scanColumn
  simp only [h1]
  rw [if_neg (by omega)]
  simp

/-- The scan of a column of a chunk without sections. -/
theorem scanColumn_of_no_section (r : TopdownTileRenderer) (chunk : Chunk) (x z : Int)
    (hH : r.CHUNK_HEIGHT = 0) :
    scanColumn r chunk x z = (initialScan chunk x z (-1), Exit.skipped) := by
  have h1 : startHeight r = -1 := by
    rw [startHeight_eq, hH]; simp
  unfold scanColumn
  simp [h1]

theorem initialScan_log_spec (chunk : Chunk) (x z top : Int) :
    ∀ e ∈ (initialScan chunk x z top).log, e.isBlit = false ∧ e.height? = some top := by
  simp [initialScan, Event.isBlit, Event.height?, LocalBlockPos.toGlobalPos]

/-- The events of the scan of a column are reads, notifications and queries, none
of them about a voxel below the height the scan stopped at. -/
theorem scanColumn_log_spec (r : TopdownTileRenderer) (chunk : Chunk) (x z : Int) :
    ∀ e ∈ (scanColumn r chunk x z).1.log, e.isBlit = false ∧
      ∃ h : Int, e.height? = some h ∧
        ((scanColumn r chunk x z).2 ≠ Exit.skipped →
          ((scanColumn r chunk x z).2.stopHeight : Int) ≤ h) := by
  rcases Nat.eq_zero_or_pos r.CHUNK_HEIGHT with hH | hH
  · rw [scanColumn_of_no_section r chunk x z hH]
    intro e he
    exact ⟨(initialScan_log_spec chunk x z _ e he).1, -1,
      (initialScan_log_spec chunk x z _ e he).2, fun h => absurd rfl h⟩
  · rw [scanColumn_eq r chunk x z hH]
    obtain ⟨ev, hev, hspec⟩ := skipAir_log chunk x z (r.CHUNK_HEIGHT * 16 - 1)
      (chunk.getBlockID ⟨x, z, ((r.CHUNK_HEIGHT * 16 - 1 : Nat) : Int)⟩)
      (initialScan chunk x z ((r.CHUNK_HEIGHT * 16 - 1 : Nat) : Int)).log
    have hle := skipAir_le chunk x z (r.CHUNK_HEIGHT * 16 - 1)
      (chunk.getBlockID ⟨x, z, ((r.CHUNK_HEIGHT * 16 - 1 : Nat) : Int)⟩)
      (initialScan chunk x z ((r.CHUNK_HEIGHT * 16 - 1 : Nat) : Int)).log
    have hinit := initialScan_log_spec chunk x z ((r.CHUNK_HEIGHT * 16 - 1 : Nat) : Int)
    generalize skipAir chunk x z (r.CHUNK_HEIGHT * 16 - 1)
      (chunk.getBlockID ⟨x, z, ((r.CHUNK_HEIGHT * 16 - 1 : Nat) : Int)⟩)
      (initialScan chunk x z ((r.CHUNK_HEIGHT * 16 - 1 : Nat) : Int)).log = air
      at hev hspec hle ⊢
    have key : ∀ st0 : ScanState, st0.log = air.2 →
        ∀ e ∈ (scanLoop r chunk x z (air.1 + 1) st0).1.log, e.isBlit = false ∧
          ∃ h : Int, e.height? = some h ∧
            ((scanLoop r chunk x z (air.1 + 1) st0).2 ≠ Exit.skipped →
              ((scanLoop r chunk x z (air.1 + 1) st0).2.stopHeight : Int) ≤ h) := by
      intro st0 hst0 e he
      have hstop := scanLoop_stopHeight_le r chunk x z (air.1 + 1) st0
      simp only [Nat.add_sub_cancel] at hstop
      rw [scanLoop_log, hst0, hev] at he
      simp only [List.mem_append] at he
      rcases he with (he | he) | he
      · exact ⟨(hinit e he).1, _, (hinit e he).2, fun _ => by omega⟩
      · obtain ⟨h1, k, h2, h3⟩ := hspec e he
        exact ⟨h1, k, h2, fun _ => by omega⟩
      · obtain ⟨h1, k, h2, h3, _⟩ := loopEvents_spec chunk x z _ _ e he
        exact ⟨h1, k, h2, fun _ => by omega⟩
    exact key _ rfl

end Mapcrafter

namespace Mapcrafter

/-! ## Lemmas about the compositing -/

theorem drawOverlays_tile (r : TopdownTileRenderer) (rb : RenderBlock) (ix iy : Int)
    (os : List OverlayRenderMode) (i : Nat) (st : RenderState) :
    (drawOverlays r rb ix iy os i st).tile = st.tile := by
  induction os generalizing i st with
  | nil => rfl
  | cons o os ih =>
    unfold drawOverlays
    rw [ih]
    unfold drawOverlayOf
    simp only []
    split_ifs <;> rfl

theorem drawOverlays_log (r : TopdownTileRenderer) (rb : RenderBlock) (ix iy : Int)
    (os : List OverlayRenderMode) (i : Nat) (st : RenderState) :
    ∃ ev, (drawOverlays r rb ix iy os i st).log = st.log ++ ev ∧
      ∀ e ∈ ev, e.isBlit = true ∧ e.tileBlit? = none := by
  induction os generalizing i st with
  | nil => exact ⟨[], by simp [drawOverlays]⟩
  | cons o os ih =>
    unfold drawOverlays
    obtain ⟨ev, h1, h2⟩ := ih (i + 1) (drawOverlayOf r rb ix iy o i st)
    rw [h1]
    unfold drawOverlayOf
    simp only []
    split_ifs
    · refine ⟨Event.overlayAlphablit i rb.block ix iy ::
        Event.overlayAlphablitMask i (rb.block_overlays.getD i noImage) ix iy rb.block :: ev,
        by simp, ?_⟩
      intro e he
      simp only [List.mem_cons] at he
      rcases he with h | h | h
      · subst h; exact ⟨rfl, rfl⟩
      · subst h; exact ⟨rfl, rfl⟩
      · exact h2 e h
    · refine ⟨Event.overlayBlitMask i (rb.block_overlays.getD i noImage) ix iy rb.block :: ev,
        by simp, ?_⟩
      intro e he
      simp only [List.mem_cons] at he
      rcases he with h | h
      · subst h; exact ⟨rfl, rfl⟩
      · exact h2 e h

theorem drawRenderBlock_tile (r : TopdownTileRenderer) (ts dx dz x z : Int) (rb : RenderBlock)
    (st : RenderState) :
    (drawRenderBlock r ts dx dz x z rb st).tile =
      r.img.alphaBlit st.tile rb.block (dx + x * ts) (dz + z * ts) := by
  unfold drawRenderBlock
  simp only []
  rw [drawOverlays_tile]

theorem drawRenderBlock_log (r : TopdownTileRenderer) (ts dx dz x z : Int) (rb : RenderBlock)
    (st : RenderState) :
    ∃ ev, (drawRenderBlock r ts dx dz x z rb st).log =
        st.log ++ Event.tileAlphaBlit rb.block (dx + x * ts) (dz + z * ts) :: ev ∧
      ∀ e ∈ ev, e.isBlit = true ∧ e.tileBlit? = none := by
  unfold drawRenderBlock
  simp only []
  obtain ⟨ev, h1, h2⟩ := drawOverlays_log r rb (dx + x * ts) (dz + z * ts) r.overlays 0
    { st with
      tile := r.img.alphaBlit st.tile rb.block (dx + x * ts) (dz + z * ts)
      log := st.log ++ [Event.tileAlphaBlit rb.block (dx + x * ts) (dz + z * ts)] }
  exact ⟨ev, by rw [h1]; simp, h2⟩

theorem filterMap_tileBlit_eq_nil (ev : List Event) (h : ∀ e ∈ ev, e.tileBlit? = none) :
    ev.filterMap Event.tileBlit? = [] := by
  induction ev with
  | nil => rfl
  | cons e ev ih =>
    rw [List.filterMap_cons, h e (List.mem_cons_self _ _)]
    exact ih (fun e' he' => h e' (List.mem_cons_of_mem _ he'))

theorem drawRenderBlock_tileBlits (r : TopdownTileRenderer) (ts dx dz x z : Int)
    (rb : RenderBlock) (st : RenderState) :
    (drawRenderBlock r ts dx dz x z rb st).log.filterMap Event.tileBlit? =
      st.log.filterMap Event.tileBlit? ++ [(rb.block, dx + x * ts, dz + z * ts)] := by
  obtain ⟨ev, h1, h2⟩ := drawRenderBlock_log r ts dx dz x z rb st
  rw [h1, List.filterMap_append, List.filterMap_cons]
  simp [Event.tileBlit?, filterMap_tileBlit_eq_nil ev (fun e he => (h2 e he).2)]

/-- The loop that draws `blocks.back()` and pops it draws the samples from the
last one to the first one. -/
theorem compositeLoop_eq_foldl (r : TopdownTileRenderer) (ts dx dz x z : Int) (n : Nat)
    (blocks : List RenderBlock) (st : RenderState) (hn : blocks.length ≤ n) :
    compositeLoop r ts dx dz x z n blocks st =
      blocks.reverse.foldl (fun st rb => drawRenderBlock r ts dx dz x z rb st) st := by
  induction n generalizing blocks st with
  | zero =>
    have : blocks = [] := List.length_eq_zero.1 (by omega)
    subst this
    rfl
  | succ n ih =>
    rcases List.eq_nil_or_concat blocks with h | ⟨front, last, h⟩
    · subst h
      simp [compositeLoop]
    · subst h
      unfold compositeLoop
      simp only [List.concat_eq_append, List.getLast?_append, List.getLast?_singleton,
        List.dropLast_concat, List.reverse_append, List.reverse_cons,
        List.reverse_nil, List.nil_append, List.singleton_append, List.foldl_cons]
      show compositeLoop r ts dx dz x z n front _ = _
      apply ih
      simp at hn
      omega

theorem compositeColumn_eq_foldl (r : TopdownTileRenderer) (ts dx dz x z : Int)
    (blocks : List RenderBlock) (st : RenderState) :
    compositeColumn r ts dx dz x z blocks st =
      blocks.reverse.foldl (fun st rb => drawRenderBlock r ts dx dz x z rb st) st :=
  compositeLoop_eq_foldl r ts dx dz x z blocks.length blocks st le_rfl

end Mapcrafter

namespace Mapcrafter

/-! ## Claims C1 and C2 -/

theorem compositeColumn_nil (r : TopdownTileRenderer) (ts dx dz x z : Int) (st : RenderState) :
    compositeColumn r ts dx dz x z [] st = st := rfl

/-- An iteration of the scan loop at an air voxel. -/
theorem scanStep_air (r : TopdownTileRenderer) (chunk : Chunk) (x z : Int) (y : Nat)
    (st : ScanState) (h0 : chunk.getBlockID ⟨x, z, y⟩ = 0) :
    scanStep r chunk x z y st =
      ({ st with log := st.log ++ stepEvents chunk x z y, in_water := false }, none) := by
  unfold scanStep stepEvents
  simp [h0]

/-- An iteration of the scan loop at a voxel that is not air, not hidden and not
full water: a sample is appended, in both water modes. -/
theorem scanStep_plain (r : TopdownTileRenderer) (chunk : Chunk) (x z : Int) (y : Nat)
    (st : ScanState) (h0 : chunk.getBlockID ⟨x, z, y⟩ ≠ 0)
    (hhidden : r.render_mode.isHidden ((⟨x, z, y⟩ : LocalBlockPos).toGlobalPos chunk.getPos)
      (chunk.getBlockID ⟨x, z, y⟩) (chunk.getBlockData ⟨x, z, y⟩) = false)
    (hwater : isFullWater (chunk.getBlockID ⟨x, z, y⟩) (chunk.getBlockData ⟨x, z, y⟩) = false) :
    scanStep r chunk x z y st =
      appendSample r chunk ((⟨x, z, y⟩ : LocalBlockPos).toGlobalPos chunk.getPos)
        (chunk.getBlockID ⟨x, z, y⟩) (chunk.getBlockData ⟨x, z, y⟩) y
        { st with log := st.log ++ stepEvents chunk x z y,
                  water := if r.use_preblit_water then 0 else st.water } := by
  unfold scanStep stepEvents
  simp only [h0, hhidden, hwater, if_false, Bool.false_and, Bool.false_eq_true, Bool.not_false,
    if_true, List.append_assoc]
  cases r.use_preblit_water <;> simp

/-- C1. A column whose voxels all have block id 0 yields no sample in either
water mode, and rendering the column draws nothing: the tile and the overlay
tiles are left as they were and no blit is among the events of the column. -/
theorem C1_air_column_no_sample_no_blit (r : TopdownTileRenderer) (chunk : Chunk) (x z : Int)
    (hair : ∀ y : Nat, y < r.CHUNK_HEIGHT * 16 → chunk.getBlockID ⟨x, z, y⟩ = 0) :
    (scanColumn r chunk x z).1.blocks = [] ∧
    ∀ (texture_size dx dz : Int) (st : RenderState),
      (renderColumn r chunk texture_size dx dz x z st).tile = st.tile ∧
      (renderColumn r chunk texture_size dx dz x z st).overlay_tiles = st.overlay_tiles ∧
      ∃ ev, (renderColumn r chunk texture_size dx dz x z st).log = st.log ++ ev ∧
        ∀ e ∈ ev, e.isBlit = false := by
  have hblocks : (scanColumn r chunk x z).1.blocks = [] := by
    rcases Nat.eq_zero_or_pos r.CHUNK_HEIGHT with hH | hH
    · rw [scanColumn_of_no_section r chunk x z hH]
      rfl
    · have h0 : chunk.getBlockID ⟨x, z, ((0 : Nat) : Int)⟩ = 0 := hair 0 (by omega)
      rw [scanColumn_eq r chunk x z hH,
        skipAir_air chunk x z _ _ (fun y' hy' => hair y' (by omega))]
      simp [scanLoop, scanStep_air r chunk x z 0 _ h0, initialScan]
  refine ⟨hblocks, fun texture_size dx dz st => ?_⟩
  have hcol : renderColumn r chunk texture_size dx dz x z st =
      { st with log := st.log ++ (scanColumn r chunk x z).1.log } := by
    unfold renderColumn
    simp only [hblocks, compositeColumn_nil]
  rw [hcol]
  exact ⟨rfl, rfl, _, rfl, fun e he => (scanColumn_log_spec r chunk x z e he).1⟩

/-- The scan loop entered at a voxel that is not air, not hidden, not full water
and not transparent appends the sample of that voxel and ends there. -/
theorem scanLoop_solid (r : TopdownTileRenderer) (chunk : Chunk) (x z : Int) (y : Nat)
    (st : ScanState) (h0 : chunk.getBlockID ⟨x, z, y⟩ ≠ 0)
    (hhidden : r.render_mode.isHidden ((⟨x, z, y⟩ : LocalBlockPos).toGlobalPos chunk.getPos)
      (chunk.getBlockID ⟨x, z, y⟩) (chunk.getBlockData ⟨x, z, y⟩) = false)
    (hwater : isFullWater (chunk.getBlockID ⟨x, z, y⟩) (chunk.getBlockData ⟨x, z, y⟩) = false)
    (hsolid : r.images.isBlockTransparent (chunk.getBlockID ⟨x, z, y⟩)
      (chunk.getBlockData ⟨x, z, y⟩) = false) :
    (scanLoop r chunk x z (y + 1) st).1.blocks =
      st.blocks ++ [makeRenderBlock r chunk ((⟨x, z, y⟩ : LocalBlockPos).toGlobalPos chunk.getPos)
        (chunk.getBlockID ⟨x, z, y⟩) (chunk.getBlockData ⟨x, z, y⟩) st.has_full_water] ∧
    (scanLoop r chunk x z (y + 1) st).2 = Exit.occluded y := by
  unfold scanLoop
  rw [scanStep_plain r chunk x z y st h0 hhidden hwater]
  unfold appendSample
  simp [hsolid]

/-- C2. When the topmost voxel of a column that is not air is not hidden, not
full water and not transparent, the scan yields exactly the sample of that
voxel and ends there in both water modes, no voxel below it is read, notified
or queried, and the tile receives exactly one `alphaBlit` for the column: the
plain or biome image of the voxel with the hardcode overlay, at
`(dx + x * texture_size, dz + z * texture_size)`. -/
theorem C2_solid_top_one_sample_one_blit (r : TopdownTileRenderer) (chunk : Chunk) (x z : Int)
    (y0 : Nat) (hy0 : y0 < r.CHUNK_HEIGHT * 16)
    (hair : ∀ y : Nat, y0 < y → y < r.CHUNK_HEIGHT * 16 → chunk.getBlockID ⟨x, z, y⟩ = 0)
    (h0 : chunk.getBlockID ⟨x, z, y0⟩ ≠ 0)
    (hhidden : r.render_mode.isHidden ((⟨x, z, y0⟩ : LocalBlockPos).toGlobalPos chunk.getPos)
      (chunk.getBlockID ⟨x, z, y0⟩) (chunk.getBlockData ⟨x, z, y0⟩) = false)
    (hwater : isFullWater (chunk.getBlockID ⟨x, z, y0⟩) (chunk.getBlockData ⟨x, z, y0⟩) = false)
    (hsolid : r.images.isBlockTransparent (chunk.getBlockID ⟨x, z, y0⟩)
      (chunk.getBlockData ⟨x, z, y0⟩) = false) :
    (scanColumn r chunk x z).1.blocks =
      [makeRenderBlock r chunk ((⟨x, z, y0⟩ : LocalBlockPos).toGlobalPos chunk.getPos)
        (chunk.getBlockID ⟨x, z, y0⟩) (chunk.getBlockData ⟨x, z, y0⟩) false] ∧
    (scanColumn r chunk x z).2 = Exit.occluded y0 ∧
    (∀ e ∈ (scanColumn r chunk x z).1.log, ∃ h : Int, e.height? = some h ∧ (y0 : Int) ≤ h) ∧
    ∀ (dx dz : Int) (st : RenderState),
      (renderColumn r chunk r.images.getTextureSize dx dz x z st).tile =
        r.img.alphaBlit st.tile
          (r.drawHardcodeOverlay
            (if r.isBiomeBlock (chunk.getBlockID ⟨x, z, y0⟩) (chunk.getBlockData ⟨x, z, y0⟩) then
              r.images.getBiomeBlock (chunk.getBlockID ⟨x, z, y0⟩) (chunk.getBlockData ⟨x, z, y0⟩)
                (r.getBiomeOfBlock ((⟨x, z, y0⟩ : LocalBlockPos).toGlobalPos chunk.getPos) chunk)
            else r.images.getBlock (chunk.getBlockID ⟨x, z, y0⟩) (chunk.getBlockData ⟨x, z, y0⟩))
            ((⟨x, z, y0⟩ : LocalBlockPos).toGlobalPos chunk.getPos)
            (chunk.getBlockID ⟨x, z, y0⟩) (chunk.getBlockData ⟨x, z, y0⟩))
          (dx + x * r.images.getTextureSize) (dz + z * r.images.getTextureSize) ∧
      (renderColumn r chunk r.images.getTextureSize dx dz x z st).log.filterMap Event.tileBlit? =
        st.log.filterMap Event.tileBlit? ++
          [(r.drawHardcodeOverlay
            (if r.isBiomeBlock (chunk.getBlockID ⟨x, z, y0⟩) (chunk.getBlockData ⟨x, z, y0⟩) then
              r.images.getBiomeBlock (chunk.getBlockID ⟨x, z, y0⟩) (chunk.getBlockData ⟨x, z, y0⟩)
                (r.getBiomeOfBlock ((⟨x, z, y0⟩ : LocalBlockPos).toGlobalPos chunk.getPos) chunk)
            else r.images.getBlock (chunk.getBlockID ⟨x, z, y0⟩) (chunk.getBlockData ⟨x, z, y0⟩))
            ((⟨x, z, y0⟩ : LocalBlockPos).toGlobalPos chunk.getPos)
            (chunk.getBlockID ⟨x, z, y0⟩) (chunk.getBlockData ⟨x, z, y0⟩),
            dx + x * r.images.getTextureSize, dz + z * r.images.getTextureSize)] := by
  have hH : 0 < r.CHUNK_HEIGHT := by omega
  have htop := fun log => skipAir_top chunk x z y0 (r.CHUNK_HEIGHT * 16 - 1) log (by omega)
    (fun y' h1 h2 => hair y' h1 (by omega)) h0
  have hscan := scanColumn_eq r chunk x z hH
  rw [htop] at hscan
  have hsolidLoop := scanLoop_solid r chunk x z y0
    { initialScan chunk x z ((r.CHUNK_HEIGHT * 16 - 1 : Nat) : Int) with
      log := (skipAir chunk x z (r.CHUNK_HEIGHT * 16 - 1)
        (chunk.getBlockID ⟨x, z, ((r.CHUNK_HEIGHT * 16 - 1 : Nat) : Int)⟩)
        (initialScan chunk x z ((r.CHUNK_HEIGHT * 16 - 1 : Nat) : Int)).log).2 }
    h0 hhidden hwater hsolid
  rw [← hscan] at hsolidLoop
  obtain ⟨hblocks, hexit⟩ := hsolidLoop
  have hblocks' : (scanColumn r chunk x z).1.blocks =
      [makeRenderBlock r chunk ((⟨x, z, y0⟩ : LocalBlockPos).toGlobalPos chunk.getPos)
        (chunk.getBlockID ⟨x, z, y0⟩) (chunk.getBlockData ⟨x, z, y0⟩) false] := by
    rw [hblocks]; rfl
  refine ⟨hblocks', hexit, ?_, fun dx dz st => ?_⟩
  · intro e he
    obtain ⟨_, h, h1, h2⟩ := scanColumn_log_spec r chunk x z e he
    refine ⟨h, h1, ?_⟩
    have := h2 (by rw [hexit]; simp)
    rw [hexit] at this
    exact this
  · unfold renderColumn
    simp only [hblocks', compositeColumn_eq_foldl, List.reverse_singleton, List.foldl_cons,
      List.foldl_nil, drawRenderBlock_tile, drawRenderBlock_tileBlits, List.filterMap_append]
    have hnone : (scanColumn r chunk x z).1.log.filterMap Event.tileBlit? = [] := by
      apply filterMap_tileBlit_eq_nil
      intro e he
      have := (scanColumn_log_spec r chunk x z e he).1
      cases e <;> simp_all [Event.isBlit, Event.tileBlit?]
    simp [hnone, makeRenderBlock, blockImage]

end Mapcrafter

namespace Mapcrafter

set_option maxRecDepth 100000 in
/-- Witness of C1: an empty chunk, column `(3, 5)`, legacy water mode. -/
theorem C1_air_column_no_sample_no_blit_witness :
    (∀ y : Nat, y < (exampleRenderer false 1 (fun _ => none)).CHUNK_HEIGHT * 16 →
      (exampleChunk []).getBlockID ⟨3, 5, y⟩ = 0) ∧
    (scanColumn (exampleRenderer false 1 (fun _ => none)) (exampleChunk []) 3 5).1.blocks = [] :=
  ⟨fun _ _ => rfl,
    (C1_air_column_no_sample_no_blit (exampleRenderer false 1 (fun _ => none)) (exampleChunk [])
      3 5 (fun _ _ => rfl)).1⟩

set_option maxRecDepth 100000 in
/-- Witness of C2: stone (id 1) below two air voxels, column `(3, 5)`, preblit
water mode; the scan ends at height 253. -/
theorem C2_solid_top_one_sample_one_blit_witness :
    (exampleChunk [(0, 0), (0, 0), (1, 0)]).getBlockID ⟨3, 5, 253⟩ = 1 ∧
    (scanColumn (exampleRenderer true 1 (fun _ => none))
      (exampleChunk [(0, 0), (0, 0), (1, 0)]) 3 5).2 = Exit.occluded 253 :=
  ⟨rfl,
    (C2_solid_top_one_sample_one_blit (exampleRenderer true 1 (fun _ => none))
      (exampleChunk [(0, 0), (0, 0), (1, 0)]) 3 5 253 (by decide)
      (fun y h1 h2 => by
        have h3 : y < 16 * 16 := h2
        interval_cases y <;> rfl)
      (by decide) rfl rfl rfl).2.1⟩

end Mapcrafter

namespace Mapcrafter

/-! ## Claim C3 -/

theorem scanColumn_no_tileBlit (r : TopdownTileRenderer) (chunk : Chunk) (x z : Int) :
    (scanColumn r chunk x z).1.log.filterMap Event.tileBlit? = [] := by
  apply filterMap_tileBlit_eq_nil
  intro e he
  have := (scanColumn_log_spec r chunk x z e he).1
  cases e <;> simp_all [Event.isBlit, Event.tileBlit?]

/-- The tile after the samples `blocks` were drawn from the first of the list to
the last. -/
theorem foldl_drawRenderBlock_tile (r : TopdownTileRenderer) (ts dx dz x z : Int)
    (blocks : List RenderBlock) (st : RenderState) :
    (blocks.foldl (fun st rb => drawRenderBlock r ts dx dz x z rb st) st).tile =
      blocks.foldl (fun t rb => r.img.alphaBlit t rb.block (dx + x * ts) (dz + z * ts))
        st.tile := by
  induction blocks generalizing st with
  | nil => rfl
  | cons b bs ih => simp only [List.foldl_cons, ih, drawRenderBlock_tile]

/-- The `tile.alphaBlit` calls made while the samples `blocks` are drawn from the
first of the list to the last. -/
theorem foldl_drawRenderBlock_tileBlits (r : TopdownTileRenderer) (ts dx dz x z : Int)
    (blocks : List RenderBlock) (st : RenderState) :
    (blocks.foldl (fun st rb => drawRenderBlock r ts dx dz x z rb st) st).log.filterMap
        Event.tileBlit? =
      st.log.filterMap Event.tileBlit? ++
        blocks.map (fun rb => (rb.block, dx + x * ts, dz + z * ts)) := by
  induction blocks generalizing st with
  | nil => simp
  | cons b bs ih => simp only [List.foldl_cons, ih, drawRenderBlock_tileBlits, List.map_cons,
      List.append_assoc, List.singleton_append]

/-- A pixel of a tile after a list of images was blitted at one offset, when
`alphaBlit` blends pixel by pixel. -/
theorem foldl_alphaBlit_pixel (ops : ImageOps) (blend : RGBAPixel → RGBAPixel → RGBAPixel)
    (hblend : ∀ (dest src : RGBAImage) (bx bz px py : Int),
      (ops.alphaBlit dest src bx bz).getPixel px py =
        blend (dest.getPixel px py) (src.getPixel (px - bx) (py - bz)))
    (blocks : List RenderBlock) (tile : RGBAImage) (ix iy px py : Int) :
    (blocks.foldl (fun t rb => ops.alphaBlit t rb.block ix iy) tile).getPixel px py =
      (blocks.map (fun rb => rb.block.getPixel (px - ix) (py - iy))).foldl blend
        (tile.getPixel px py) := by
  induction blocks generalizing tile with
  | nil => rfl
  | cons b bs ih => simp only [List.foldl_cons, List.map_cons, ih, hblend]

/-- C3. The samples `S0 ... Sk` of a column are drawn onto the tile with
`alphaBlit` in the order `Sk, ..., S0`, all at the offset of the column: the
`alphaBlit` calls of the column are the block images of the reversed sample
list, the tile is the left fold of `alphaBlit` over that list, and, when
`alphaBlit` blends pixel by pixel with a function `blend`, every pixel is the
left fold of `blend` over the pixels of that list. For a column of two samples
and a blend that returns a fully covering source pixel (alpha 255), a pixel at
which `S0` is fully covering has the colour of `S0`, whatever `S1` is. -/
theorem C3_samples_drawn_last_to_first (r : TopdownTileRenderer) (chunk : Chunk)
    (x z dx dz : Int) (st : RenderState) :
    (renderColumn r chunk r.images.getTextureSize dx dz x z st).log.filterMap Event.tileBlit? =
      st.log.filterMap Event.tileBlit? ++
        (scanColumn r chunk x z).1.blocks.reverse.map (fun rb =>
          (rb.block, dx + x * r.images.getTextureSize, dz + z * r.images.getTextureSize)) ∧
    (renderColumn r chunk r.images.getTextureSize dx dz x z st).tile =
      (scanColumn r chunk x z).1.blocks.reverse.foldl (fun t rb =>
        r.img.alphaBlit t rb.block (dx + x * r.images.getTextureSize)
          (dz + z * r.images.getTextureSize)) st.tile ∧
    ∀ blend : RGBAPixel → RGBAPixel → RGBAPixel,
      (∀ (dest src : RGBAImage) (bx bz px py : Int),
        (r.img.alphaBlit dest src bx bz).getPixel px py =
          blend (dest.getPixel px py) (src.getPixel (px - bx) (py - bz))) →
      (∀ px py : Int,
        (renderColumn r chunk r.images.getTextureSize dx dz x z st).tile.getPixel px py =
          ((scanColumn r chunk x z).1.blocks.reverse.map (fun rb =>
            rb.block.getPixel (px - (dx + x * r.images.getTextureSize))
              (py - (dz + z * r.images.getTextureSize)))).foldl blend (st.tile.getPixel px py)) ∧
      (∀ (s0 s1 : RenderBlock) (px py : Int),
        (scanColumn r chunk x z).1.blocks = [s0, s1] →
        (∀ d s : RGBAPixel, rgba_alpha s = 255 → blend d s = s) →
        rgba_alpha (s0.block.getPixel (px - (dx + x * r.images.getTextureSize))
          (py - (dz + z * r.images.getTextureSize))) = 255 →
        (renderColumn r chunk r.images.getTextureSize dx dz x z st).tile.getPixel px py =
          s0.block.getPixel (px - (dx + x * r.images.getTextureSize))
            (py - (dz + z * r.images.getTextureSize))) := by
  have hcol : renderColumn r chunk r.images.getTextureSize dx dz x z st =
      (scanColumn r chunk x z).1.blocks.reverse.foldl
        (fun st rb => drawRenderBlock r r.images.getTextureSize dx dz x z rb st)
        { st with log := st.log ++ (scanColumn r chunk x z).1.log } := by
    unfold renderColumn
    rw [compositeColumn_eq_foldl]
  have htile := foldl_drawRenderBlock_tile r r.images.getTextureSize dx dz x z
    (scanColumn r chunk x z).1.blocks.reverse
    { st with log := st.log ++ (scanColumn r chunk x z).1.log }
  have hlog := foldl_drawRenderBlock_tileBlits r r.images.getTextureSize dx dz x z
    (scanColumn r chunk x z).1.blocks.reverse
    { st with log := st.log ++ (scanColumn r chunk x z).1.log }
  rw [← hcol] at htile hlog
  have hpixel : ∀ blend : RGBAPixel → RGBAPixel → RGBAPixel,
      (∀ (dest src : RGBAImage) (bx bz px py : Int),
        (r.img.alphaBlit dest src bx bz).getPixel px py =
          blend (dest.getPixel px py) (src.getPixel (px - bx) (py - bz))) →
      ∀ px py : Int,
        (renderColumn r chunk r.images.getTextureSize dx dz x z st).tile.getPixel px py =
          ((scanColumn r chunk x z).1.blocks.reverse.map (fun rb =>
            rb.block.getPixel (px - (dx + x * r.images.getTextureSize))
              (py - (dz + z * r.images.getTextureSize)))).foldl blend (st.tile.getPixel px py) := by
    intro blend hblend px py
    rw [htile]
    exact foldl_alphaBlit_pixel r.img blend hblend _ _ _ _ _ _
  refine ⟨?_, htile, fun blend hblend => ⟨hpixel blend hblend, ?_⟩⟩
  · rw [hlog]
    simp [List.filterMap_append, scanColumn_no_tileBlit]
  · intro s0 s1 px py hblocks hcover halpha
    rw [hpixel blend hblend, hblocks]
    simp [hcover _ _ halpha]

set_option maxRecDepth 100000 in
/-- Witness of C3: glass (id 20) above stone (id 1); the pixel of column `(2, 3)`
has the colour of the glass image. -/
theorem C3_samples_drawn_last_to_first_witness :
    (renderColumn (exampleRenderer false 1 (fun _ => none)) (exampleChunk [(20, 0), (1, 0)])
      (exampleRenderer false 1 (fun _ => none)).images.getTextureSize 0 0 2 3
      ⟨noImage, [], []⟩).tile.getPixel 2 3 = 0xff001400 :=
  ((C3_samples_drawn_last_to_first (exampleRenderer false 1 (fun _ => none))
      (exampleChunk [(20, 0), (1, 0)]) 2 3 0 0 ⟨noImage, [], []⟩).2.2 coverPixel
      (fun _ _ _ _ _ _ => rfl)).2
    (makeRenderBlock (exampleRenderer false 1 (fun _ => none)) (exampleChunk [(20, 0), (1, 0)])
      ⟨2, 3, 255⟩ 20 0 false)
    (makeRenderBlock (exampleRenderer false 1 (fun _ => none)) (exampleChunk [(20, 0), (1, 0)])
      ⟨2, 3, 254⟩ 1 0 false)
    2 3 rfl
    (fun d s h => by
      unfold coverPixel
      rw [if_neg (by omega)])
    (by decide)

end Mapcrafter

namespace Mapcrafter

/-! ## Claim C4: runs of full water in the legacy water mode -/

/-- Legacy mode, a full water voxel that is not hidden while `in_water` is not
set: the flags are set and the sample is appended. -/
theorem scanStep_legacy_water_enter (r : TopdownTileRenderer) (chunk : Chunk) (x z : Int)
    (y : Nat) (st : ScanState) (hlegacy : r.use_preblit_water = false)
    (hwater : isFullWater (chunk.getBlockID ⟨x, z, y⟩) (chunk.getBlockData ⟨x, z, y⟩) = true)
    (hhidden : r.render_mode.isHidden ((⟨x, z, y⟩ : LocalBlockPos).toGlobalPos chunk.getPos)
      (chunk.getBlockID ⟨x, z, y⟩) (chunk.getBlockData ⟨x, z, y⟩) = false)
    (hin : st.in_water = false) :
    scanStep r chunk x z y st =
      appendSample r chunk ((⟨x, z, y⟩ : LocalBlockPos).toGlobalPos chunk.getPos)
        (chunk.getBlockID ⟨x, z, y⟩) (chunk.getBlockData ⟨x, z, y⟩) y
        { st with log := st.log ++ stepEvents chunk x z y,
                  has_full_water := true, in_water := true } := by
  have h0 : chunk.getBlockID ⟨x, z, y⟩ ≠ 0 := by
    intro h
    rw [h] at hwater
    simp [isFullWater] at hwater
  unfold scanStep stepEvents
  simp [h0, hhidden, hwater, hlegacy, hin]

/-- Legacy mode, a full water voxel that is not hidden while `in_water` is set:
no sample, the scan goes on. -/
theorem scanStep_legacy_water_skip (r : TopdownTileRenderer) (chunk : Chunk) (x z : Int)
    (y : Nat) (st : ScanState) (hlegacy : r.use_preblit_water = false)
    (hwater : isFullWater (chunk.getBlockID ⟨x, z, y⟩) (chunk.getBlockData ⟨x, z, y⟩) = true)
    (hhidden : r.render_mode.isHidden ((⟨x, z, y⟩ : LocalBlockPos).toGlobalPos chunk.getPos)
      (chunk.getBlockID ⟨x, z, y⟩) (chunk.getBlockData ⟨x, z, y⟩) = false)
    (hin : st.in_water = true) :
    scanStep r chunk x z y st =
      ({ st with log := st.log ++ stepEvents chunk x z y, has_full_water := true }, none) := by
  have h0 : chunk.getBlockID ⟨x, z, y⟩ ≠ 0 := by
    intro h
    rw [h] at hwater
    simp [isFullWater] at hwater
  unfold scanStep stepEvents
  simp [h0, hhidden, hwater, hlegacy, hin]

/-- The iteration of the scan loop in the legacy water mode. -/
theorem scanStep_legacy (r : TopdownTileRenderer) (chunk : Chunk) (x z : Int)
    (y : Nat) (st : ScanState) (hlegacy : r.use_preblit_water = false) :
    scanStep r chunk x z y st =
      if chunk.getBlockID ⟨x, z, y⟩ = 0 then
        ({ st with log := st.log ++ stepEvents chunk x z y, in_water := false }, none)
      else if r.render_mode.isHidden ((⟨x, z, y⟩ : LocalBlockPos).toGlobalPos chunk.getPos)
          (chunk.getBlockID ⟨x, z, y⟩) (chunk.getBlockData ⟨x, z, y⟩) = true then
        ({ st with log := st.log ++ stepEvents chunk x z y }, none)
      else if isFullWater (chunk.getBlockID ⟨x, z, y⟩) (chunk.getBlockData ⟨x, z, y⟩) = true then
        if st.in_water = true then
          ({ st with log := st.log ++ stepEvents chunk x z y, has_full_water := true }, none)
        else
          appendSample r chunk ((⟨x, z, y⟩ : LocalBlockPos).toGlobalPos chunk.getPos)
            (chunk.getBlockID ⟨x, z, y⟩) (chunk.getBlockData ⟨x, z, y⟩) y
            { st with log := st.log ++ stepEvents chunk x z y,
                      has_full_water := true, in_water := true }
      else
        appendSample r chunk ((⟨x, z, y⟩ : LocalBlockPos).toGlobalPos chunk.getPos)
          (chunk.getBlockID ⟨x, z, y⟩) (chunk.getBlockData ⟨x, z, y⟩) y
          { st with log := st.log ++ stepEvents chunk x z y } := by
  by_cases h0 : chunk.getBlockID ⟨x, z, y⟩ = 0
  · rw [if_pos h0]
    exact scanStep_air r chunk x z y st h0
  · rw [if_neg h0]
    by_cases hh : r.render_mode.isHidden ((⟨x, z, y⟩ : LocalBlockPos).toGlobalPos chunk.getPos)
        (chunk.getBlockID ⟨x, z, y⟩) (chunk.getBlockData ⟨x, z, y⟩) = true
    · rw [if_pos hh]
      unfold scanStep stepEvents
      simp [h0, hh]
    · rw [if_neg hh]
      have hh' := Bool.eq_false_iff.2 hh
      by_cases hw : isFullWater (chunk.getBlockID ⟨x, z, y⟩) (chunk.getBlockData ⟨x, z, y⟩) = true
      · rw [if_pos hw]
        by_cases hin : st.in_water = true
        · rw [if_pos hin]
          exact scanStep_legacy_water_skip r chunk x z y st hlegacy hw hh' hin
        · rw [if_neg hin]
          exact scanStep_legacy_water_enter r chunk x z y st hlegacy hw hh'
            (Bool.eq_false_iff.2 hin)
      · rw [if_neg hw]
        rw [scanStep_plain r chunk x z y st h0 hh' (Bool.eq_false_iff.2 hw)]
        simp [hlegacy]

/-- Legacy mode: an iteration keeps the samples and appends at most one, at the
height of the iteration and with the flag `has_full_water` of the state after
the iteration; the flag is never cleared. -/
theorem scanStep_legacy_blocks (r : TopdownTileRenderer) (chunk : Chunk) (x z : Int)
    (y : Nat) (st : ScanState) (hlegacy : r.use_preblit_water = false) :
    ∃ new, (scanStep r chunk x z y st).1.blocks = st.blocks ++ new ∧
      (st.has_full_water = true → (scanStep r chunk x z y st).1.has_full_water = true) ∧
      ∀ b ∈ new, b.pos.y = (y : Int) ∧
        b.has_full_water = (scanStep r chunk x z y st).1.has_full_water := by
  rw [scanStep_legacy r chunk x z y st hlegacy]
  split_ifs
  · exact ⟨[], by simp, fun h => h, by simp⟩
  · exact ⟨[], by simp, fun h => h, by simp⟩
  · exact ⟨[], by simp, fun _ => rfl, by simp⟩
  · refine ⟨[_], appendSample_blocks _ _ _ _ _ _ _, ?_, ?_⟩
    · intro _
      unfold appendSample
      split_ifs <;> rfl
    · unfold appendSample
      split_ifs <;> simp [makeRenderBlock, LocalBlockPos.toGlobalPos]
  · refine ⟨[_], appendSample_blocks _ _ _ _ _ _ _, ?_, ?_⟩
    · intro h
      unfold appendSample
      split_ifs <;> exact h
    · unfold appendSample
      split_ifs <;> simp [makeRenderBlock, LocalBlockPos.toGlobalPos]

/-- Legacy mode: the scan loop entered below height `n` keeps the samples it is
entered with; the samples it appends lie below `n`, and they carry
`has_full_water` when the flag is set on entry. -/
theorem scanLoop_legacy_blocks (r : TopdownTileRenderer) (chunk : Chunk) (x z : Int)
    (hlegacy : r.use_preblit_water = false) (n : Nat) (st : ScanState) :
    ∃ rest, (scanLoop r chunk x z n st).1.blocks = st.blocks ++ rest ∧
      ∀ b ∈ rest, b.pos.y < (n : Int) ∧
        (st.has_full_water = true → b.has_full_water = true) := by
  induction n generalizing st with
  | zero => exact ⟨[], by simp [scanLoop], by simp⟩
  | succ y ih =>
    obtain ⟨new, h1, h2, h3⟩ := scanStep_legacy_blocks r chunk x z y st hlegacy
    unfold scanLoop
    rcases hstep : scanStep r chunk x z y st with ⟨st', _ | e⟩
    · rw [hstep] at h1 h2 h3
      dsimp only at h1 h2 h3
      obtain ⟨rest, h4, h5⟩ := ih st'
      refine ⟨new ++ rest, by simp only [h4, h1, List.append_assoc], ?_⟩
      intro b hb
      rcases List.mem_append.1 hb with hb | hb
      · refine ⟨by rw [(h3 b hb).1]; push_cast; omega, fun h => ?_⟩
        rw [(h3 b hb).2]
        exact h2 h
      · exact ⟨by have := (h5 b hb).1; push_cast; omega, fun h => (h5 b hb).2 (h2 h)⟩
    · rw [hstep] at h1 h2 h3
      dsimp only at h1 h2 h3
      refine ⟨new, h1, ?_⟩
      intro b hb
      refine ⟨by rw [(h3 b hb).1]; push_cast; omega, fun h => ?_⟩
      rw [(h3 b hb).2]
      exact h2 h

/-- Legacy mode: entered with `in_water` set, the scan loop passes `K` full water
voxels that are not hidden without a sample. -/
theorem scanLoop_legacy_water_run (r : TopdownTileRenderer) (chunk : Chunk) (x z : Int)
    (hlegacy : r.use_preblit_water = false) (n K : Nat) (st : ScanState)
    (hrun : ∀ j : Nat, j < K →
      isFullWater (chunk.getBlockID ⟨x, z, ((n + j : Nat) : Int)⟩)
        (chunk.getBlockData ⟨x, z, ((n + j : Nat) : Int)⟩) = true ∧
      r.render_mode.isHidden
        ((⟨x, z, ((n + j : Nat) : Int)⟩ : LocalBlockPos).toGlobalPos chunk.getPos)
        (chunk.getBlockID ⟨x, z, ((n + j : Nat) : Int)⟩)
        (chunk.getBlockData ⟨x, z, ((n + j : Nat) : Int)⟩) = false)
    (hin : st.in_water = true) (hfull : st.has_full_water = true) :
    ∃ st', scanLoop r chunk x z (n + K) st = scanLoop r chunk x z n st' ∧
      st'.blocks = st.blocks ∧ st'.has_full_water = true := by
  induction K generalizing st with
  | zero => exact ⟨st, rfl, rfl, hfull⟩
  | succ K ih =>
    obtain ⟨hw, hh⟩ := hrun K (by omega)
    have hstep := scanStep_legacy_water_skip r chunk x z (n + K) st hlegacy hw hh hin
    obtain ⟨st', h1, h2, h3⟩ := ih
      { st with log := st.log ++ stepEvents chunk x z (n + K), has_full_water := true }
      (fun j hj => hrun j (by omega)) hin rfl
    refine ⟨st', ?_, h2, h3⟩
    rw [← h1]
    show scanLoop r chunk x z (n + K + 1) st = _
    conv_lhs => unfold scanLoop
    rw [hstep]

/-- Legacy mode: entered at the top of a run of `K` full water voxels that are
not hidden while `in_water` is not set, the scan loop appends the sample of the
topmost voxel of the run, and every further sample lies below the run and
carries `has_full_water`. -/
theorem scanLoop_legacy_water_top (r : TopdownTileRenderer) (chunk : Chunk) (x z : Int)
    (hlegacy : r.use_preblit_water = false) (n K : Nat) (st : ScanState)
    (hrun : ∀ j : Nat, j < K + 1 →
      isFullWater (chunk.getBlockID ⟨x, z, ((n + j : Nat) : Int)⟩)
        (chunk.getBlockData ⟨x, z, ((n + j : Nat) : Int)⟩) = true ∧
      r.render_mode.isHidden
        ((⟨x, z, ((n + j : Nat) : Int)⟩ : LocalBlockPos).toGlobalPos chunk.getPos)
        (chunk.getBlockID ⟨x, z, ((n + j : Nat) : Int)⟩)
        (chunk.getBlockData ⟨x, z, ((n + j : Nat) : Int)⟩) = false)
    (hin : st.in_water = false) :
    ∃ rest, (scanLoop r chunk x z (n + K + 1) st).1.blocks =
        st.blocks ++
          makeRenderBlock r chunk
            ((⟨x, z, ((n + K : Nat) : Int)⟩ : LocalBlockPos).toGlobalPos chunk.getPos)
            (chunk.getBlockID ⟨x, z, ((n + K : Nat) : Int)⟩)
            (chunk.getBlockData ⟨x, z, ((n + K : Nat) : Int)⟩) true :: rest ∧
      ∀ b ∈ rest, b.has_full_water = true ∧ b.pos.y < (n : Int) := by
  obtain ⟨hw, hh⟩ := hrun K (by omega)
  have hstep := scanStep_legacy_water_enter r chunk x z (n + K) st hlegacy hw hh hin
  conv => enter [1, rest, 1, 1, 1, 1]; unfold scanLoop
  rw [hstep]
  unfold appendSample
  by_cases ht : r.images.isBlockTransparent (chunk.getBlockID ⟨x, z, ((n + K : Nat) : Int)⟩)
      (chunk.getBlockData ⟨x, z, ((n + K : Nat) : Int)⟩) = true
  · simp only [ht, Bool.not_true, Bool.false_eq_true, if_false]
    obtain ⟨st', h1, h2, h3⟩ := scanLoop_legacy_water_run r chunk x z hlegacy n K
      { blocks := st.blocks ++ [makeRenderBlock r chunk
          ((⟨x, z, ((n + K : Nat) : Int)⟩ : LocalBlockPos).toGlobalPos chunk.getPos)
          (chunk.getBlockID ⟨x, z, ((n + K : Nat) : Int)⟩)
          (chunk.getBlockData ⟨x, z, ((n + K : Nat) : Int)⟩) true],
        in_water := true, has_full_water := true, water := st.water,
        log := st.log ++ stepEvents chunk x z (n + K) }
      (fun j hj => hrun j (by omega)) rfl rfl
    obtain ⟨rest, h4, h5⟩ := scanLoop_legacy_blocks r chunk x z hlegacy n st'
    refine ⟨rest, ?_, fun b hb => ⟨(h5 b hb).2 h3, (h5 b hb).1⟩⟩
    rw [h1, h4, h2]
    simp
  · simp only [ht, Bool.not_false, if_true]
    exact ⟨[], by simp, by simp⟩

/-- C4. Legacy water mode, a run of `K ≥ 1` vertically consecutive full water
voxels that are not hidden, at the heights `n, ..., n + K - 1`. When the run
begins the scan of the column (all voxels above it are air), the samples of the
column are the sample of the topmost voxel of the run followed by samples from
below the run. When the run directly follows an air voxel at which the scan
arrives in any state, the scan appends to the samples it has the sample of the
topmost voxel of the run followed by samples from below the run. In both cases
the sample of the run and all samples after it carry `has_full_water`. -/
theorem C4_legacy_water_run_one_sample (r : TopdownTileRenderer) (chunk : Chunk) (x z : Int)
    (n K : Nat) (hK : 1 ≤ K) (hlegacy : r.use_preblit_water = false)
    (hrun : ∀ j : Nat, j < K →
      isFullWater (chunk.getBlockID ⟨x, z, ((n + j : Nat) : Int)⟩)
        (chunk.getBlockData ⟨x, z, ((n + j : Nat) : Int)⟩) = true ∧
      r.render_mode.isHidden
        ((⟨x, z, ((n + j : Nat) : Int)⟩ : LocalBlockPos).toGlobalPos chunk.getPos)
        (chunk.getBlockID ⟨x, z, ((n + j : Nat) : Int)⟩)
        (chunk.getBlockData ⟨x, z, ((n + j : Nat) : Int)⟩) = false) :
    (makeRenderBlock r chunk
      ((⟨x, z, ((n + K - 1 : Nat) : Int)⟩ : LocalBlockPos).toGlobalPos chunk.getPos)
      (chunk.getBlockID ⟨x, z, ((n + K - 1 : Nat) : Int)⟩)
      (chunk.getBlockData ⟨x, z, ((n + K - 1 : Nat) : Int)⟩) true).has_full_water = true ∧
    (n + K ≤ r.CHUNK_HEIGHT * 16 →
      (∀ y : Nat, n + K ≤ y → y < r.CHUNK_HEIGHT * 16 → chunk.getBlockID ⟨x, z, y⟩ = 0) →
      ∃ rest, (scanColumn r chunk x z).1.blocks =
          makeRenderBlock r chunk
            ((⟨x, z, ((n + K - 1 : Nat) : Int)⟩ : LocalBlockPos).toGlobalPos chunk.getPos)
            (chunk.getBlockID ⟨x, z, ((n + K - 1 : Nat) : Int)⟩)
            (chunk.getBlockData ⟨x, z, ((n + K - 1 : Nat) : Int)⟩) true :: rest ∧
        ∀ b ∈ rest, b.has_full_water = true ∧ b.pos.y < (n : Int)) ∧
    (chunk.getBlockID ⟨x, z, ((n + K : Nat) : Int)⟩ = 0 →
      ∀ st : ScanState,
        ∃ rest, (scanLoop r chunk x z (n + K + 1) st).1.blocks =
            st.blocks ++
              makeRenderBlock r chunk
                ((⟨x, z, ((n + K - 1 : Nat) : Int)⟩ : LocalBlockPos).toGlobalPos chunk.getPos)
                (chunk.getBlockID ⟨x, z, ((n + K - 1 : Nat) : Int)⟩)
                (chunk.getBlockData ⟨x, z, ((n + K - 1 : Nat) : Int)⟩) true :: rest ∧
          ∀ b ∈ rest, b.has_full_water = true ∧ b.pos.y < (n : Int)) := by
  obtain ⟨K, rfl⟩ : ∃ K', K = K' + 1 := ⟨K - 1, by omega⟩
  have hidx : n + (K + 1) - 1 = n + K := by omega
  rw [hidx]
  have key := scanLoop_legacy_water_top r chunk x z hlegacy n K
  refine ⟨rfl, fun hle hair => ?_, fun hair st => ?_⟩
  · have hH : 0 < r.CHUNK_HEIGHT := by omega
    have h0 : chunk.getBlockID ⟨x, z, ((n + K : Nat) : Int)⟩ ≠ 0 := by
      intro h
      have := (hrun K (by omega)).1
      rw [h] at this
      simp [isFullWater] at this
    have htop := fun log => skipAir_top chunk x z (n + K) (r.CHUNK_HEIGHT * 16 - 1) log
      (by omega) (fun y' h1 h2 => hair y' (by omega) (by omega)) h0
    rw [scanColumn_eq r chunk x z hH, htop]
    obtain ⟨rest, h1, h2⟩ := key
      { initialScan chunk x z ((r.CHUNK_HEIGHT * 16 - 1 : Nat) : Int) with
        log := (skipAir chunk x z (r.CHUNK_HEIGHT * 16 - 1)
          (chunk.getBlockID ⟨x, z, ((r.CHUNK_HEIGHT * 16 - 1 : Nat) : Int)⟩)
          (initialScan chunk x z ((r.CHUNK_HEIGHT * 16 - 1 : Nat) : Int)).log).2 }
      hrun rfl
    exact ⟨rest, by rw [h1]; rfl, h2⟩
  · have hstep := scanStep_air r chunk x z (n + (K + 1)) st hair
    obtain ⟨rest, h1, h2⟩ := key
      { st with log := st.log ++ stepEvents chunk x z (n + (K + 1)), in_water := false }
      hrun rfl
    refine ⟨rest, ?_, h2⟩
    have hloop : scanLoop r chunk x z (n + (K + 1) + 1) st =
        scanLoop r chunk x z (n + K + 1)
          { st with log := st.log ++ stepEvents chunk x z (n + (K + 1)), in_water := false } := by
      conv_lhs => unfold scanLoop
      rw [hstep]
      rfl
    rw [hloop, h1]

end Mapcrafter

namespace Mapcrafter

set_option maxRecDepth 100000 in
/-- Witness of C4: three full water voxels on top of the column, stone below,
legacy water mode; the run begins the scan. -/
theorem C4_legacy_water_run_one_sample_witness :
    ∃ rest, (scanColumn (exampleRenderer false 1 (fun _ => none))
        (exampleChunk [(8, 0), (8, 0), (8, 0), (1, 0)]) 3 5).1.blocks =
          makeRenderBlock (exampleRenderer false 1 (fun _ => none))
            (exampleChunk [(8, 0), (8, 0), (8, 0), (1, 0)]) ⟨3, 5, 255⟩ 8 0 true :: rest ∧
      ∀ b ∈ rest, b.has_full_water = true ∧ b.pos.y < 253 :=
  (C4_legacy_water_run_one_sample (exampleRenderer false 1 (fun _ => none))
    (exampleChunk [(8, 0), (8, 0), (8, 0), (1, 0)]) 3 5 253 3 (by decide) rfl
    (fun j hj => by interval_cases j <;> exact ⟨rfl, rfl⟩)).2.1 (by decide)
    (fun y h1 h2 => by
      have h3 : y < 16 * 16 := h2
      omega)

/-! ## Claims C5 and C6: the renderer at the inputs where it departs from them -/

set_option maxRecDepth 100000 in
/-- C5, evaluation. Legacy water mode, a column with water, glass, water and
stone from the top (heights 255 to 252), nothing hidden: the scan runs down to
the stone, and the samples are the water at 255, the glass at 254 and the stone
at 252. The full water voxel at 253, visited directly after the glass, has no
sample. -/
theorem C5_legacy_water_below_glass_has_no_sample :
    isFullWater 20 0 = false ∧ isFullWater 8 0 = true ∧
    (scanColumn (exampleRenderer false 1 (fun _ => none))
      (exampleChunk [(8, 0), (20, 0), (8, 0), (1, 0)]) 0 0).2 = Exit.occluded 252 ∧
    (scanColumn (exampleRenderer false 1 (fun _ => none))
      (exampleChunk [(8, 0), (20, 0), (8, 0), (1, 0)]) 0 0).1.blocks.map
        (fun b => (b.pos.y, b.id, b.data)) = [(255, 8, 0), (254, 20, 0), (252, 1, 0)] := by
  decide

set_option maxRecDepth 100000 in
/-- C6, evaluation. Preblit water mode with maximum depth 1, a column with glass,
glass, water, water from the top (heights 255 to 252), nothing hidden: the
counter exceeds the maximum at height 252 and the scan ends there, the sample
turned into deep water is the glass sample at height 255, and the last sample
of the column is the water sample (id 9, data 0) of height 253. -/
theorem C6_truncation_last_sample_is_not_deep_water :
    (scanColumn (exampleRenderer true 1 (fun _ => none))
      (exampleChunk [(20, 0), (20, 0), (9, 0), (9, 0)]) 0 0).2 = Exit.truncated 252 ∧
    (scanColumn (exampleRenderer true 1 (fun _ => none))
      (exampleChunk [(20, 0), (20, 0), (9, 0), (9, 0)]) 0 0).1.blocks.map
        (fun b => (b.pos.y, b.id, b.data)) = [(255, 8, 4096), (254, 20, 0), (253, 9, 0)] ∧
    (scanColumn (exampleRenderer true 1 (fun _ => none))
      (exampleChunk [(20, 0), (20, 0), (9, 0), (9, 0)]) 0 0).1.blocks.getLast?.map
        (fun b => (b.pos.y, b.id, b.data)) = some (253, 9, 0) := by
  decide

end Mapcrafter

namespace Mapcrafter

/-! ## Claim C7: nothing at or below the height of a truncation -/

/-- The truncation loop keeps the positions: every sample it leaves has the
position of a sample it was given. -/
theorem truncateWater_pos (r : TopdownTileRenderer) (blocks : List RenderBlock) :
    ∀ b ∈ truncateWater r blocks, ∃ b' ∈ blocks, b.pos = b'.pos := by
  induction blocks with
  | nil => simp [truncateWater]
  | cons current rest ih =>
    cases rest with
    | nil =>
      intro b hb
      simp only [truncateWater, List.mem_singleton] at hb
      exact ⟨current, List.mem_singleton.2 rfl, by rw [hb]; rfl⟩
    | cons next rest =>
      intro b hb
      unfold truncateWater at hb
      split_ifs at hb
      · rcases List.mem_cons.1 hb with h | h
        · exact ⟨current, List.mem_cons_self _ _, by rw [h]; rfl⟩
        · exact ⟨b, List.mem_cons_of_mem _ h, rfl⟩
      · obtain ⟨b', h1, h2⟩ := ih b hb
        exact ⟨b', List.mem_cons_of_mem _ h1, h2⟩

/-- When the loop is left through the `break` of the truncation. -/
theorem scanStep_truncated_iff (r : TopdownTileRenderer) (chunk : Chunk) (x z : Int)
    (y y_t : Nat) (st : ScanState) :
    (scanStep r chunk x z y st).2 = some (Exit.truncated y_t) ↔
      y = y_t ∧ r.use_preblit_water = true ∧ chunk.getBlockID ⟨x, z, y⟩ ≠ 0 ∧
      r.render_mode.isHidden ((⟨x, z, y⟩ : LocalBlockPos).toGlobalPos chunk.getPos)
        (chunk.getBlockID ⟨x, z, y⟩) (chunk.getBlockData ⟨x, z, y⟩) = false ∧
      isFullWater (chunk.getBlockID ⟨x, z, y⟩) (chunk.getBlockData ⟨x, z, y⟩) = true ∧
      st.water + 1 > r.images.getMaxWaterPreblit := by
  unfold scanStep
  simp only []
  split_ifs <;> simp_all [appendSample_exit]

theorem appendSample_not_truncated (r : TopdownTileRenderer) (chunk : Chunk) (g : BlockPos)
    (id data y : Nat) (st : ScanState) :
    (∀ y_t, (appendSample r chunk g id data y st).2 ≠ some (Exit.truncated y_t)) ∧
    ∃ new, (appendSample r chunk g id data y st).1.blocks = st.blocks ++ new ∧
      ∀ b ∈ new, b.pos.y = g.y := by
  refine ⟨fun y_t => ?_, [_], appendSample_blocks r chunk g id data y st, ?_⟩
  · rw [appendSample_exit]
    split_ifs <;> simp
  · simp [makeRenderBlock]

/-- The samples after an iteration of the scan loop: the truncated samples when
the iteration ends with the truncation, else the samples before it, possibly
with one sample of the height of the iteration appended. -/
theorem scanStep_blocks (r : TopdownTileRenderer) (chunk : Chunk) (x z : Int)
    (y : Nat) (st : ScanState) :
    ((scanStep r chunk x z y st).2 = some (Exit.truncated y) ∧
      (scanStep r chunk x z y st).1.blocks = truncateWater r st.blocks) ∨
    ((∀ y_t, (scanStep r chunk x z y st).2 ≠ some (Exit.truncated y_t)) ∧
      ∃ new, (scanStep r chunk x z y st).1.blocks = st.blocks ++ new ∧
        ∀ b ∈ new, b.pos.y = (y : Int)) := by
  unfold scanStep
  simp only []
  split_ifs
  · exact Or.inr ⟨fun y_t => by simp, [], by simp, by simp⟩
  · exact Or.inr ⟨fun y_t => by simp, [], by simp, by simp⟩
  · exact Or.inr ⟨fun y_t => by simp, [], by simp, by simp⟩
  · exact Or.inr (appendSample_not_truncated _ _ _ _ _ _ _)
  · exact Or.inr (appendSample_not_truncated _ _ _ _ _ _ _)
  · exact Or.inl ⟨rfl, rfl⟩
  · exact Or.inr (appendSample_not_truncated _ _ _ _ _ _ _)
  · exact Or.inr (appendSample_not_truncated _ _ _ _ _ _ _)

/-- Entered below height `n` with samples at or above `n`, a scan loop that ends
with the truncation at height `y_t` leaves samples above `y_t` only. -/
theorem scanLoop_truncated_blocks (r : TopdownTileRenderer) (chunk : Chunk) (x z : Int)
    (n y_t : Nat) (st : ScanState) (hinv : ∀ b ∈ st.blocks, (n : Int) ≤ b.pos.y)
    (htrunc : (scanLoop r chunk x z n st).2 = Exit.truncated y_t) :
    ∀ b ∈ (scanLoop r chunk x z n st).1.blocks, (y_t : Int) < b.pos.y := by
  induction n generalizing st with
  | zero => simp [scanLoop] at htrunc
  | succ y ih =>
    have hcases := scanStep_blocks r chunk x z y st
    have hexit := scanStep_exit_height r chunk x z y st
    unfold scanLoop at htrunc ⊢
    rcases hstep : scanStep r chunk x z y st with ⟨st', _ | e⟩
    · rw [hstep] at hcases htrunc
      dsimp only at hcases htrunc ⊢
      rcases hcases with ⟨h, _⟩ | ⟨_, new, h1, h2⟩
      · simp at h
      · apply ih st' _ htrunc
        intro b hb
        rw [h1] at hb
        rcases List.mem_append.1 hb with hb | hb
        · have := hinv b hb
          push_cast at this
          omega
        · rw [h2 b hb]
    · rw [hstep] at hcases htrunc hexit
      dsimp only at hcases htrunc ⊢
      subst htrunc
      rcases hcases with ⟨h, h1⟩ | ⟨h, _⟩
      · have hy : y_t = y := by
          simp only [Option.some.injEq, Exit.truncated.injEq] at h
          exact h
        subst hy
        intro b hb
        rw [h1] at hb
        obtain ⟨b', hb', hpos⟩ := truncateWater_pos r st.blocks b hb
        rw [hpos]
        have := hinv b' hb'
        push_cast at this
        omega
      · exact absurd rfl (h y_t)

/-- C7. When the scan of a column ends with the truncation at height `y_t`, that
is at the voxel where the water counter exceeds `getMaxWaterPreblit()` (only in
the preblit water mode, at a full water voxel that is not hidden), then every
sample of the column has a position above `y_t`, and every read of the chunk,
every notification of the block handler and every query of the render mode is
about a voxel at height `y_t` or above. -/
theorem C7_truncation_nothing_at_or_below (r : TopdownTileRenderer) (chunk : Chunk) (x z : Int)
    (y_t : Nat) (htrunc : (scanColumn r chunk x z).2 = Exit.truncated y_t) :
    (∀ b ∈ (scanColumn r chunk x z).1.blocks, (y_t : Int) < b.pos.y) ∧
    (∀ e ∈ (scanColumn r chunk x z).1.log, ∃ h : Int, e.height? = some h ∧ (y_t : Int) ≤ h) ∧
    (∀ (y : Nat) (st : ScanState),
      (scanStep r chunk x z y st).2 = some (Exit.truncated y_t) ↔
        y = y_t ∧ r.use_preblit_water = true ∧ chunk.getBlockID ⟨x, z, y⟩ ≠ 0 ∧
        r.render_mode.isHidden ((⟨x, z, y⟩ : LocalBlockPos).toGlobalPos chunk.getPos)
          (chunk.getBlockID ⟨x, z, y⟩) (chunk.getBlockData ⟨x, z, y⟩) = false ∧
        isFullWater (chunk.getBlockID ⟨x, z, y⟩) (chunk.getBlockData ⟨x, z, y⟩) = true ∧
        st.water + 1 > r.images.getMaxWaterPreblit) := by
  refine ⟨?_, ?_, fun y st => scanStep_truncated_iff r chunk x z y y_t st⟩
  · rcases Nat.eq_zero_or_pos r.CHUNK_HEIGHT with hH | hH
    · rw [scanColumn_of_no_section r chunk x z hH] at htrunc
      simp at htrunc
    · rw [scanColumn_eq r chunk x z hH] at htrunc ⊢
      exact scanLoop_truncated_blocks r chunk x z _ y_t _ (by simp [initialScan]) htrunc
  · intro e he
    obtain ⟨_, h, h1, h2⟩ := scanColumn_log_spec r chunk x z e he
    refine ⟨h, h1, ?_⟩
    have := h2 (by rw [htrunc]; simp)
    rw [htrunc] at this
    exact this

set_option maxRecDepth 100000 in
/-- Witness of C7: preblit water mode with maximum depth 1 and a column with two
full water voxels on top; the scan is truncated at height 254. -/
theorem C7_truncation_nothing_at_or_below_witness :
    (scanColumn (exampleRenderer true 1 (fun _ => none))
      (exampleChunk [(8, 0), (8, 0)]) 3 5).2 = Exit.truncated 254 ∧
    ∀ b ∈ (scanColumn (exampleRenderer true 1 (fun _ => none))
      (exampleChunk [(8, 0), (8, 0)]) 3 5).1.blocks, (254 : Int) < b.pos.y :=
  ⟨by decide,
    (C7_truncation_nothing_at_or_below (exampleRenderer true 1 (fun _ => none))
      (exampleChunk [(8, 0), (8, 0)]) 3 5 254 (by decide)).1⟩

end Mapcrafter

namespace Mapcrafter

/-! ## Lemmas about `renderChunk` and `renderTile` -/

theorem Event.inChunk_not_tile (e : Event) (h : e.inChunk = true) :
    e.getChunk? = none ∧ e.renderChunk? = none ∧ e.isSetSize = false := by
  cases e <;> simp_all [Event.inChunk, Event.isBlit, Event.height?, Event.getChunk?,
    Event.renderChunk?, Event.isSetSize]

/-- A loop whose body only appends events with a property only appends events
with that property. -/
theorem foldl_log_append {α : Type} (f : RenderState → α → RenderState) (P : Event → Prop)
    (hf : ∀ st a, ∃ ev, (f st a).log = st.log ++ ev ∧ ∀ e ∈ ev, P e) (l : List α)
    (st : RenderState) :
    ∃ ev, (l.foldl f st).log = st.log ++ ev ∧ ∀ e ∈ ev, P e := by
  induction l generalizing st with
  | nil => exact ⟨[], by simp, by simp⟩
  | cons a l ih =>
    obtain ⟨ev1, h1, h2⟩ := hf st a
    obtain ⟨ev2, h3, h4⟩ := ih (f st a)
    refine ⟨ev1 ++ ev2, by rw [List.foldl_cons, h3, h1, List.append_assoc], ?_⟩
    intro e he
    rcases List.mem_append.1 he with h | h
    · exact h2 e h
    · exact h4 e h

/-- A loop whose body appends the events `g a` of one kind appends the events of
all its iterations, in order. -/
theorem foldl_log_filterMap {α β : Type} (f : RenderState → α → RenderState)
    (F : Event → Option β) (g : α → List β)
    (hf : ∀ st a, (f st a).log.filterMap F = st.log.filterMap F ++ g a) (l : List α)
    (st : RenderState) :
    (l.foldl f st).log.filterMap F = st.log.filterMap F ++ l.flatMap g := by
  induction l generalizing st with
  | nil => simp
  | cons a l ih => rw [List.foldl_cons, ih, hf, List.flatMap_cons, List.append_assoc]

theorem renderColumn_log (r : TopdownTileRenderer) (chunk : Chunk) (ts dx dz x z : Int)
    (st : RenderState) :
    ∃ ev, (renderColumn r chunk ts dx dz x z st).log = st.log ++ ev ∧
      ∀ e ∈ ev, e.inChunk = true := by
  unfold renderColumn
  simp only [compositeColumn_eq_foldl]
  obtain ⟨ev, h1, h2⟩ := foldl_log_append
    (fun st rb => drawRenderBlock r ts dx dz x z rb st) (fun e => e.inChunk = true)
    (fun st rb => by
      obtain ⟨ev, h1, h2⟩ := drawRenderBlock_log r ts dx dz x z rb st
      refine ⟨_, h1, ?_⟩
      intro e he
      rcases List.mem_cons.1 he with h | h
      · subst h; rfl
      · simp [Event.inChunk, (h2 e h).1])
    (scanColumn r chunk x z).1.blocks.reverse
    { st with log := st.log ++ (scanColumn r chunk x z).1.log }
  refine ⟨(scanColumn r chunk x z).1.log ++ ev, by rw [h1, List.append_assoc], ?_⟩
  intro e he
  rcases List.mem_append.1 he with h | h
  · obtain ⟨_, k, hk, _⟩ := scanColumn_log_spec r chunk x z e h
    simp [Event.inChunk, hk]
  · exact h2 e h

theorem renderChunk_log (r : TopdownTileRenderer) (chunk : Chunk) (dx dz : Int)
    (st : RenderState) :
    ∃ ev, (renderChunk r chunk dx dz st).log = st.log ++ ev ∧ ∀ e ∈ ev, e.inChunk = true := by
  unfold renderChunk
  exact foldl_log_append _ _ (fun st (x : Nat) => foldl_log_append _ _
    (fun st (z : Nat) => renderColumn_log r chunk _ dx dz x z st) _ st) _ st

theorem filterMap_eq_nil_of_forall {β : Type} (F : Event → Option β) (ev : List Event)
    (h : ∀ e ∈ ev, F e = none) : ev.filterMap F = [] := by
  induction ev with
  | nil => rfl
  | cons e ev ih =>
    rw [List.filterMap_cons, h e (List.mem_cons_self _ _)]
    exact ih (fun e' he' => h e' (List.mem_cons_of_mem _ he'))

/-- The body of the chunk loops for an absent chunk: the query is the only effect. -/
theorem renderTileChunk_absent (r : TopdownTileRenderer) (tile_pos : TilePos) (ts x z : Int)
    (st : RenderState) (h : r.world (chunkPosOf r tile_pos x z) = none) :
    renderTileChunk r tile_pos ts x z st =
      { st with log := st.log ++ [Event.getChunk (chunkPosOf r tile_pos x z)] } := by
  unfold renderTileChunk
  simp only [h]

/-- The events of the body of the chunk loops: the query, and for a chunk that
is present the call of `renderChunk` and the events made inside of it. -/
theorem renderTileChunk_log (r : TopdownTileRenderer) (tile_pos : TilePos) (ts x z : Int)
    (st : RenderState) :
    ∃ ev, (renderTileChunk r tile_pos ts x z st).log =
        st.log ++ Event.getChunk (chunkPosOf r tile_pos x z) ::
          ((r.world (chunkPosOf r tile_pos x z)).toList.map (fun _ =>
            Event.renderChunk (chunkPosOf r tile_pos x z) (ts * 16 * x) (ts * 16 * z)) ++ ev) ∧
      (∀ e ∈ ev, e.inChunk = true) ∧
      (r.world (chunkPosOf r tile_pos x z) = none → ev = []) := by
  unfold renderTileChunk
  simp only []
  cases hw : r.world (chunkPosOf r tile_pos x z) with
  | none => exact ⟨[], by simp, by simp, fun _ => rfl⟩
  | some chunk =>
    obtain ⟨ev, h1, h2⟩ := renderChunk_log r chunk (ts * 16 * x) (ts * 16 * z)
      { st with log := st.log ++ [Event.getChunk (chunkPosOf r tile_pos x z)] ++
        [Event.renderChunk (chunkPosOf r tile_pos x z) (ts * 16 * x) (ts * 16 * z)] }
    exact ⟨ev, by simp only [h1]; simp, h2, fun h => by simp at h⟩

theorem renderTileChunk_getChunk (r : TopdownTileRenderer) (tile_pos : TilePos) (ts x z : Int)
    (st : RenderState) :
    (renderTileChunk r tile_pos ts x z st).log.filterMap Event.getChunk? =
      st.log.filterMap Event.getChunk? ++ [chunkPosOf r tile_pos x z] := by
  obtain ⟨ev, h1, h2, _⟩ := renderTileChunk_log r tile_pos ts x z st
  rw [h1, List.filterMap_append, List.filterMap_cons, List.filterMap_append,
    filterMap_eq_nil_of_forall _ ev (fun e he => (Event.inChunk_not_tile e (h2 e he)).1)]
  cases r.world (chunkPosOf r tile_pos x z) <;> simp [Event.getChunk?]

theorem renderTileChunk_renderChunk (r : TopdownTileRenderer) (tile_pos : TilePos)
    (ts x z : Int) (st : RenderState) :
    (renderTileChunk r tile_pos ts x z st).log.filterMap Event.renderChunk? =
      st.log.filterMap Event.renderChunk? ++
        (r.world (chunkPosOf r tile_pos x z)).toList.map (fun _ =>
          (chunkPosOf r tile_pos x z, ts * 16 * x, ts * 16 * z)) := by
  obtain ⟨ev, h1, h2, _⟩ := renderTileChunk_log r tile_pos ts x z st
  rw [h1, List.filterMap_append, List.filterMap_cons, List.filterMap_append,
    filterMap_eq_nil_of_forall _ ev (fun e he => (Event.inChunk_not_tile e (h2 e he)).2.1)]
  cases r.world (chunkPosOf r tile_pos x z) <;> simp [Event.renderChunk?]

/-- Two nested loops are one loop over the pairs of their indices. -/
theorem foldl_foldl_eq_foldl_pairs (F : Int → Int → RenderState → RenderState)
    (xs zs : List Nat) (st : RenderState) :
    xs.foldl (fun st (x : Nat) => zs.foldl (fun st (z : Nat) => F (x : Int) (z : Int) st) st) st =
      (xs.flatMap fun (x : Nat) => zs.map fun (z : Nat) => ((x : Int), (z : Int))).foldl
        (fun st p => F p.1 p.2 st) st := by
  induction xs generalizing st with
  | nil => rfl
  | cons x xs ih =>
    rw [List.foldl_cons, List.flatMap_cons, List.foldl_append, List.foldl_map]
    exact ih _

/-- The two chunk loops of `renderTile` as one loop over `tileChunks`. -/
theorem renderChunks_eq_foldl (r : TopdownTileRenderer) (tile_pos : TilePos)
    (st : RenderState) :
    renderChunks r tile_pos st =
      (tileChunks r).foldl
        (fun st p => renderTileChunk r tile_pos r.images.getTextureSize p.1 p.2 st) st :=
  foldl_foldl_eq_foldl_pairs
    (fun x z st => renderTileChunk r tile_pos r.images.getTextureSize x z st) _ _ st

end Mapcrafter

namespace Mapcrafter

/-! ## Lemmas about the sizing of the tiles -/

theorem modifyAt_append_cons (f : RGBAImage → RGBAImage) (pre post : List RGBAImage)
    (a : RGBAImage) : modifyAt f (pre ++ a :: post) pre.length = pre ++ f a :: post := by
  induction pre with
  | nil => rfl
  | cons p pre ih => simp [modifyAt, ih]

/-- The loop over the overlays sizes the `n` overlay tiles from index `i` on. -/
theorem sizeOverlays_spec (r : TopdownTileRenderer) (n i : Nat) (st : RenderState)
    (pre post : List RGBAImage) (hst : st.overlay_tiles = pre ++ post) (hi : pre.length = i)
    (hn : post.length = n) :
    (sizeOverlays r n i st).tile = st.tile ∧
    (sizeOverlays r n i st).overlay_tiles =
      pre ++ post.map (fun t => r.img.setSize t (getTileSize r) (getTileSize r)) ∧
    (sizeOverlays r n i st).log =
      st.log ++ (List.range' i n).map (fun j =>
        Event.overlaySetSize j (getTileSize r) (getTileSize r)) := by
  induction n generalizing i st pre post with
  | zero =>
    have : post = [] := List.length_eq_zero.1 hn
    subst this
    simp [sizeOverlays, hst]
  | succ n ih =>
    cases post with
    | nil => simp at hn
    | cons a post =>
      unfold sizeOverlays
      have hmod : modifyAt (fun t => r.img.setSize t (getTileSize r) (getTileSize r))
          st.overlay_tiles i =
          (pre ++ [r.img.setSize a (getTileSize r) (getTileSize r)]) ++ post := by
        rw [hst, ← hi, modifyAt_append_cons]
        simp
      obtain ⟨h1, h2, h3⟩ := ih (i + 1)
        { st with
          overlay_tiles := modifyAt (fun t => r.img.setSize t (getTileSize r) (getTileSize r))
            st.overlay_tiles i
          log := st.log ++ [Event.overlaySetSize i (getTileSize r) (getTileSize r)] }
        (pre ++ [r.img.setSize a (getTileSize r) (getTileSize r)]) post hmod
        (by simp [hi]) (by simpa using hn)
      refine ⟨h1, ?_, ?_⟩
      · rw [h2]
        simp
      · rw [h3]
        simp [List.range'_succ]

/-- The sizing of `renderTile` when there are as many overlay tiles as overlays. -/
theorem sizeTiles_spec (r : TopdownTileRenderer) (st : RenderState)
    (hlen : r.overlays.length = st.overlay_tiles.length) :
    (sizeTiles r st).tile = r.img.setSize st.tile (getTileSize r) (getTileSize r) ∧
    (sizeTiles r st).overlay_tiles =
      st.overlay_tiles.map (fun t => r.img.setSize t (getTileSize r) (getTileSize r)) ∧
    (sizeTiles r st).log =
      st.log ++ Event.tileSetSize (getTileSize r) (getTileSize r) ::
        (List.range r.overlays.length).map (fun j =>
          Event.overlaySetSize j (getTileSize r) (getTileSize r)) := by
  unfold sizeTiles
  obtain ⟨h1, h2, h3⟩ := sizeOverlays_spec r r.overlays.length 0
    { st with
      tile := r.img.setSize st.tile (getTileSize r) (getTileSize r)
      log := st.log ++ [Event.tileSetSize (getTileSize r) (getTileSize r)] }
    [] st.overlay_tiles rfl rfl hlen.symm
  refine ⟨h1, by rw [h2]; rfl, ?_⟩
  rw [h3, List.range_eq_range']
  simp

theorem sizeTiles_log_spec (r : TopdownTileRenderer) (st : RenderState)
    (hlen : r.overlays.length = st.overlay_tiles.length) :
    ∃ ev, (sizeTiles r st).log = st.log ++ ev ∧
      ∀ e ∈ ev, e.isSetSize = true ∧ e.isBlit = false ∧ e.getChunk? = none ∧
        e.renderChunk? = none := by
  refine ⟨_, (sizeTiles_spec r st hlen).2.2, ?_⟩
  intro e he
  rcases List.mem_cons.1 he with h | h
  · subst h
    exact ⟨rfl, rfl, rfl, rfl⟩
  · obtain ⟨j, _, hj⟩ := List.mem_map.1 h
    subst hj
    exact ⟨rfl, rfl, rfl, rfl⟩

end Mapcrafter

namespace Mapcrafter

/-! ## Claim C8 -/

theorem tileChunks_length (r : TopdownTileRenderer) :
    (tileChunks r).length = r.tile_width.toNat * r.tile_width.toNat := by
  unfold tileChunks
  simp [List.length_flatMap, Function.comp_def, List.map_const', List.sum_replicate]

theorem mem_tileChunks (r : TopdownTileRenderer) (p : Int × Int) :
    p ∈ tileChunks r ↔ 0 ≤ p.1 ∧ p.1 < r.tile_width ∧ 0 ≤ p.2 ∧ p.2 < r.tile_width := by
  unfold tileChunks
  simp only [List.mem_flatMap, List.mem_map, List.mem_range]
  constructor
  · rintro ⟨x, hx, z, hz, rfl⟩
    simp only
    omega
  · rintro ⟨h1, h2, h3, h4⟩
    refine ⟨p.1.toNat, by omega, p.2.toNat, by omega, ?_⟩
    rw [Int.toNat_of_nonneg h1, Int.toNat_of_nonneg h3]

theorem flatMap_singleton_eq_map {α β : Type} (f : α → β) (l : List α) :
    (l.flatMap fun a => [f a]) = l.map f := by
  induction l with
  | nil => rfl
  | cons a l ih => rw [List.flatMap_cons, ih]; rfl

/-- The chunk loop over coordinates whose chunks are all absent only makes the
queries. -/
theorem foldl_renderTileChunk_absent (r : TopdownTileRenderer) (tile_pos : TilePos) (ts : Int)
    (l : List (Int × Int)) (st : RenderState)
    (h : ∀ p ∈ l, r.world (chunkPosOf r tile_pos p.1 p.2) = none) :
    l.foldl (fun st p => renderTileChunk r tile_pos ts p.1 p.2 st) st =
      { st with log := st.log ++ l.map (fun p => Event.getChunk (chunkPosOf r tile_pos p.1 p.2)) }
    := by
  induction l generalizing st with
  | nil => simp
  | cons p l ih =>
    rw [List.foldl_cons, renderTileChunk_absent r tile_pos ts p.1 p.2 st
      (h p (List.mem_cons_self _ _)), ih _ (fun q hq => h q (List.mem_cons_of_mem _ hq))]
    simp

/-- C8. With as many overlay tiles as overlays `renderTile` completes, and:
it asks the world for the chunks at `(tile_x * tile_width + x,
tile_y * tile_width + z)` for exactly the pairs `0 <= x, z < tile_width`, once
each and in loop order (`tile_width * tile_width` queries); `renderChunk` is
called exactly for the queried positions at which the world has a chunk; for a
position without chunk the query is the only effect (no blit, tiles unchanged);
and when all chunks are absent the result is the freshly sized tile and overlay
tiles, with no blit among the events. -/
theorem C8_absent_chunks_are_skipped (r : TopdownTileRenderer) (tile_pos : TilePos)
    (st : RenderState) (hlen : r.overlays.length = st.overlay_tiles.length) :
    renderTile r tile_pos st = Except.ok (renderChunks r tile_pos (sizeTiles r st)) ∧
    (tileChunks r).length = r.tile_width.toNat * r.tile_width.toNat ∧
    (∀ p : Int × Int,
      p ∈ tileChunks r ↔ 0 ≤ p.1 ∧ p.1 < r.tile_width ∧ 0 ≤ p.2 ∧ p.2 < r.tile_width) ∧
    (renderChunks r tile_pos (sizeTiles r st)).log.filterMap Event.getChunk? =
      st.log.filterMap Event.getChunk? ++
        (tileChunks r).map (fun p => chunkPosOf r tile_pos p.1 p.2) ∧
    (renderChunks r tile_pos (sizeTiles r st)).log.filterMap Event.renderChunk? =
      st.log.filterMap Event.renderChunk? ++
        (tileChunks r).flatMap (fun p =>
          (r.world (chunkPosOf r tile_pos p.1 p.2)).toList.map (fun _ =>
            (chunkPosOf r tile_pos p.1 p.2, r.images.getTextureSize * 16 * p.1,
              r.images.getTextureSize * 16 * p.2))) ∧
    (∀ (x z : Int) (s : RenderState), r.world (chunkPosOf r tile_pos x z) = none →
      renderTileChunk r tile_pos r.images.getTextureSize x z s =
        { s with log := s.log ++ [Event.getChunk (chunkPosOf r tile_pos x z)] }) ∧
    ((∀ p ∈ tileChunks r, r.world (chunkPosOf r tile_pos p.1 p.2) = none) →
      (renderChunks r tile_pos (sizeTiles r st)).tile =
        r.img.setSize st.tile (getTileSize r) (getTileSize r) ∧
      (renderChunks r tile_pos (sizeTiles r st)).overlay_tiles =
        st.overlay_tiles.map (fun t => r.img.setSize t (getTileSize r) (getTileSize r)) ∧
      ∃ ev, (renderChunks r tile_pos (sizeTiles r st)).log = st.log ++ ev ∧
        ∀ e ∈ ev, e.isBlit = false) := by
  obtain ⟨ev, hev, hspec⟩ := sizeTiles_log_spec r st hlen
  have hsize := sizeTiles_spec r st hlen
  refine ⟨?_, tileChunks_length r, mem_tileChunks r, ?_, ?_,
    fun x z s h => renderTileChunk_absent r tile_pos _ x z s h, fun habsent => ?_⟩
  · unfold renderTile
    rw [if_neg (by simp [hlen])]
  · have h := foldl_log_filterMap
      (fun s (p : Int × Int) => renderTileChunk r tile_pos r.images.getTextureSize p.1 p.2 s)
      Event.getChunk? (fun p => [chunkPosOf r tile_pos p.1 p.2])
      (fun s p => renderTileChunk_getChunk r tile_pos _ p.1 p.2 s) (tileChunks r)
      (sizeTiles r st)
    rw [renderChunks_eq_foldl, h, hev, List.filterMap_append,
      filterMap_eq_nil_of_forall _ ev (fun e he => (hspec e he).2.2.1)]
    rw [flatMap_singleton_eq_map]
    simp
  · have h := foldl_log_filterMap
      (fun s (p : Int × Int) => renderTileChunk r tile_pos r.images.getTextureSize p.1 p.2 s)
      Event.renderChunk?
      (fun p => (r.world (chunkPosOf r tile_pos p.1 p.2)).toList.map (fun _ =>
        (chunkPosOf r tile_pos p.1 p.2, r.images.getTextureSize * 16 * p.1,
          r.images.getTextureSize * 16 * p.2)))
      (fun s p => renderTileChunk_renderChunk r tile_pos _ p.1 p.2 s) (tileChunks r)
      (sizeTiles r st)
    rw [renderChunks_eq_foldl, h, hev, List.filterMap_append,
      filterMap_eq_nil_of_forall _ ev (fun e he => (hspec e he).2.2.2)]
    simp
  · rw [renderChunks_eq_foldl, foldl_renderTileChunk_absent r tile_pos _ _ _ habsent]
    refine ⟨hsize.1, hsize.2.1, ev ++ (tileChunks r).map (fun p =>
      Event.getChunk (chunkPosOf r tile_pos p.1 p.2)), by simp [hev], ?_⟩
    intro e he
    rcases List.mem_append.1 he with h | h
    · exact (hspec e h).2.1
    · obtain ⟨p, _, hp⟩ := List.mem_map.1 h
      subst hp
      rfl

/-- Witness of C8: a world without chunks and a tile of one chunk; the only
query is the one for the chunk `(0, 0)`. -/
theorem C8_absent_chunks_are_skipped_witness :
    (renderChunks (exampleRenderer false 1 (fun _ => none)) ⟨0, 0⟩
      (sizeTiles (exampleRenderer false 1 (fun _ => none)) ⟨noImage, [], []⟩)).log.filterMap
        Event.getChunk? = [⟨0, 0⟩] :=
  (C8_absent_chunks_are_skipped (exampleRenderer false 1 (fun _ => none)) ⟨0, 0⟩
    ⟨noImage, [], []⟩ rfl).2.2.2.1

end Mapcrafter

namespace Mapcrafter

/-! ## Claims C9 and C10 -/

theorem Event.inChunk_setSize (e : Event) (h : e.inChunk = true) : e.setSize? = none := by
  cases e <;> simp_all [Event.inChunk, Event.isBlit, Event.height?, Event.setSize?]

/-- The chunk loops of `renderTile` do not size a tile. -/
theorem renderChunks_setSize (r : TopdownTileRenderer) (tile_pos : TilePos)
    (st : RenderState) :
    (renderChunks r tile_pos st).log.filterMap Event.setSize? =
      st.log.filterMap Event.setSize? := by
  have h := foldl_log_filterMap
    (fun s (p : Int × Int) => renderTileChunk r tile_pos r.images.getTextureSize p.1 p.2 s)
    Event.setSize? (fun _ => [])
    (fun s p => by
      obtain ⟨ev, h1, h2, _⟩ := renderTileChunk_log r tile_pos r.images.getTextureSize p.1 p.2 s
      rw [h1, List.filterMap_append, List.filterMap_cons, List.filterMap_append,
        filterMap_eq_nil_of_forall _ ev (fun e he => Event.inChunk_setSize e (h2 e he))]
      cases r.world (chunkPosOf r tile_pos p.1 p.2) <;> simp [Event.setSize?])
    (tileChunks r) st
  rw [renderChunks_eq_foldl, h]
  simp

/-- C9, as the code has it. With as many overlay tiles as overlays `renderTile`
completes and sizes the tile and each of the `N` overlay tiles, once, to a
square of side `getTileSize() = getBlockSize() * 16 * tile_width`. The edge
length is the block size of the block images, not the texture size that
`renderChunk` and `renderTile` use for the pixel offsets; the side is
`getTextureSize() * 16 * tile_width` when the two sizes agree. -/
theorem C9_tiles_sized_by_block_size (r : TopdownTileRenderer) (tile_pos : TilePos)
    (st : RenderState) (hlen : r.overlays.length = st.overlay_tiles.length) :
    renderTile r tile_pos st = Except.ok (renderChunks r tile_pos (sizeTiles r st)) ∧
    (sizeTiles r st).tile =
      r.img.setSize st.tile (r.images.getBlockSize * 16 * r.tile_width)
        (r.images.getBlockSize * 16 * r.tile_width) ∧
    (sizeTiles r st).overlay_tiles =
      st.overlay_tiles.map (fun t =>
        r.img.setSize t (r.images.getBlockSize * 16 * r.tile_width)
          (r.images.getBlockSize * 16 * r.tile_width)) ∧
    (renderChunks r tile_pos (sizeTiles r st)).log.filterMap Event.setSize? =
      st.log.filterMap Event.setSize? ++
        (none, r.images.getBlockSize * 16 * r.tile_width,
          r.images.getBlockSize * 16 * r.tile_width) ::
        (List.range r.overlays.length).map (fun j =>
          (some j, r.images.getBlockSize * 16 * r.tile_width,
            r.images.getBlockSize * 16 * r.tile_width)) ∧
    (r.images.getBlockSize = r.images.getTextureSize →
      getTileSize r = r.images.getTextureSize * 16 * r.tile_width) := by
  obtain ⟨h1, h2, h3⟩ := sizeTiles_spec r st hlen
  refine ⟨?_, h1, h2, ?_, fun h => by rw [getTileSize, h]⟩
  · unfold renderTile
    rw [if_neg (by simp [hlen])]
  · rw [renderChunks_setSize, h3, List.filterMap_append, List.filterMap_cons]
    simp only [Event.setSize?, getTileSize, List.filterMap_map, Function.comp_def]
    congr 2
    exact congrFun (List.filterMap_eq_map _) _

/-- Witness of C9: the example renderer without overlays and a tile of one chunk;
the tile is sized to 16 by 16. -/
theorem C9_tiles_sized_by_block_size_witness :
    (renderChunks (exampleRenderer false 1 (fun _ => none)) ⟨0, 0⟩
      (sizeTiles (exampleRenderer false 1 (fun _ => none)) ⟨noImage, [], []⟩)).log.filterMap
        Event.setSize? = [(none, 16, 16)] :=
  (C9_tiles_sized_by_block_size (exampleRenderer false 1 (fun _ => none)) ⟨0, 0⟩
    ⟨noImage, [], []⟩ rfl).2.2.2.1

/-- C9, counterexample to the claim as stated. Block images with block size 2
and texture size 1, a tile of one chunk: the side computed from the edge length
used for the pixel offsets is 16, `renderTile` sizes the tile to 32 by 32. -/
theorem C9_tile_side_is_not_texture_side :
    exampleRendererBlockSize2.images.getTextureSize * 16 * exampleRendererBlockSize2.tile_width
      = 16 ∧
    (match renderTile exampleRendererBlockSize2 ⟨0, 0⟩ ⟨noImage, [], []⟩ with
      | Except.ok s => s.log.filterMap Event.setSize?
      | Except.error _ => []) = [(none, 32, 32)] ∧
    ¬ ∀ (r : TopdownTileRenderer) (st : RenderState),
      r.overlays.length = st.overlay_tiles.length →
      (sizeTiles r st).log.filterMap Event.setSize? =
        st.log.filterMap Event.setSize? ++
          (none, r.images.getTextureSize * 16 * r.tile_width,
            r.images.getTextureSize * 16 * r.tile_width) ::
          (List.range r.overlays.length).map (fun j =>
            (some j, r.images.getTextureSize * 16 * r.tile_width,
              r.images.getTextureSize * 16 * r.tile_width)) := by
  refine ⟨by decide, by decide, fun h => ?_⟩
  have h1 := h exampleRendererBlockSize2 ⟨noImage, [], []⟩ rfl
  revert h1
  decide

/-- C10. The assertion at the head of `renderTile` fails exactly when the number
of overlays differs from the number of overlay tiles; the state at the failure
is the state `renderTile` was called with (tile, overlay tiles and events
unchanged: nothing was sized, fetched or drawn); otherwise `renderTile`
completes. -/
theorem C10_overlay_count_assertion (r : TopdownTileRenderer) (tile_pos : TilePos)
    (st : RenderState) :
    ((∃ s, renderTile r tile_pos st = Except.error s) ↔
      r.overlays.length ≠ st.overlay_tiles.length) ∧
    (∀ s, renderTile r tile_pos st = Except.error s → s = st) ∧
    (r.overlays.length = st.overlay_tiles.length →
      renderTile r tile_pos st = Except.ok (renderChunks r tile_pos (sizeTiles r st))) := by
  unfold renderTile
  by_cases h : r.overlays.length = st.overlay_tiles.length
  · simp [h]
  · simp only [ne_eq, h, not_false_eq_true, if_true, Except.error.injEq, exists_eq', true_iff,
      false_implies, and_true, true_and]
    intro s hs
    exact hs.symm

/-- Witness of C10: no overlay but one overlay tile; `renderTile` fails, with
the state it was given. -/
theorem C10_overlay_count_assertion_witness :
    ∀ s, renderTile (exampleRenderer false 1 (fun _ => none)) ⟨0, 0⟩
        ⟨noImage, [noImage], []⟩ = Except.error s →
      s = ⟨noImage, [noImage], []⟩ :=
  (C10_overlay_count_assertion (exampleRenderer false 1 (fun _ => none)) ⟨0, 0⟩
    ⟨noImage, [noImage], []⟩).2.1

end Mapcrafter

namespace Mapcrafter

/-! ## Claims C17 and C20 -/

/-- An iteration of the scan loop at a hidden voxel that is not air. -/
theorem scanStep_hidden (r : TopdownTileRenderer) (chunk : Chunk) (x z : Int) (y : Nat)
    (st : ScanState) (h0 : chunk.getBlockID ⟨x, z, y⟩ ≠ 0)
    (hh : r.render_mode.isHidden ((⟨x, z, y⟩ : LocalBlockPos).toGlobalPos chunk.getPos)
      (chunk.getBlockID ⟨x, z, y⟩) (chunk.getBlockData ⟨x, z, y⟩) = true) :
    scanStep r chunk x z y st = ({ st with log := st.log ++ stepEvents chunk x z y }, none) := by
  unfold scanStep stepEvents
  simp [h0, hh]

/-- C17. An iteration of the scan loop at a voxel that is not air and that the
render mode reports as hidden, in both water modes: the samples, `in_water`,
`has_full_water` and the water counter are the same before and after it, its
only events are the two reads, the notification and the query, and the loop
goes on with the voxel directly below (no `break`). -/
theorem C17_hidden_voxel_keeps_water_state (r : TopdownTileRenderer) (chunk : Chunk)
    (x z : Int) (y : Nat) (st : ScanState) (h0 : chunk.getBlockID ⟨x, z, y⟩ ≠ 0)
    (hh : r.render_mode.isHidden ((⟨x, z, y⟩ : LocalBlockPos).toGlobalPos chunk.getPos)
      (chunk.getBlockID ⟨x, z, y⟩) (chunk.getBlockData ⟨x, z, y⟩) = true) :
    (scanStep r chunk x z y st).1.blocks = st.blocks ∧
    (scanStep r chunk x z y st).1.in_water = st.in_water ∧
    (scanStep r chunk x z y st).1.has_full_water = st.has_full_water ∧
    (scanStep r chunk x z y st).1.water = st.water ∧
    (scanStep r chunk x z y st).1.log = st.log ++
      [Event.getBlockID ⟨x, z, y⟩, Event.getBlockData ⟨x, z, y⟩,
       Event.handleBlock ((⟨x, z, y⟩ : LocalBlockPos).toGlobalPos chunk.getPos)
         (chunk.getBlockID ⟨x, z, y⟩) (chunk.getBlockData ⟨x, z, y⟩),
       Event.isHidden ((⟨x, z, y⟩ : LocalBlockPos).toGlobalPos chunk.getPos)
         (chunk.getBlockID ⟨x, z, y⟩) (chunk.getBlockData ⟨x, z, y⟩)] ∧
    (scanStep r chunk x z y st).2 = none ∧
    scanLoop r chunk x z (y + 1) st =
      scanLoop r chunk x z y (scanStep r chunk x z y st).1 := by
  have hstep := scanStep_hidden r chunk x z y st h0 hh
  refine ⟨by rw [hstep], by rw [hstep], by rw [hstep], by rw [hstep], ?_, by rw [hstep], ?_⟩
  · rw [hstep]
    simp [stepEvents, h0]
  · conv_lhs => unfold scanLoop
    rw [hstep]

set_option maxRecDepth 100000 in
/-- Witness of C17: preblit water mode with maximum depth 1, the blocks with
id 8 hidden; a hidden full water voxel (id 8) at height 255 leaves the counter
at 0. -/
theorem C17_hidden_voxel_keeps_water_state_witness :
    (scanStep (exampleRendererHiding true 1 8) (exampleChunk [(8, 0)]) 3 5 255
      ⟨[], false, false, 0, []⟩).1.water = 0 :=
  (C17_hidden_voxel_keeps_water_state (exampleRendererHiding true 1 8) (exampleChunk [(8, 0)])
    3 5 255 ⟨[], false, false, 0, []⟩ (by decide) rfl).2.2.2.1

end Mapcrafter

namespace Mapcrafter

/-! ## Claim C16 -/

theorem modifyAt_getElem? (f : RGBAImage → RGBAImage) (l : List RGBAImage) (i j : Nat) :
    (modifyAt f l i)[j]? = if j = i then l[j]?.map f else l[j]? := by
  induction l generalizing i j with
  | nil => cases i <;> simp [modifyAt]
  | cons a l ih =>
    cases i with
    | zero =>
      cases j with
      | zero => simp [modifyAt]
      | succ j => simp [modifyAt]
    | succ i =>
      cases j with
      | zero => simp [modifyAt]
      | succ j => simp [modifyAt, ih]

theorem drawOverlayOf_eq (r : TopdownTileRenderer) (rb : RenderBlock) (ix iy : Int)
    (o : OverlayRenderMode) (i : Nat) (st : RenderState) :
    drawOverlayOf r rb ix iy o i st =
      { st with
        overlay_tiles := modifyAt (overlayTileAfter r rb ix iy o i) st.overlay_tiles i
        log := st.log ++ overlayEventsOf rb ix iy o i } := by
  unfold drawOverlayOf overlayTileAfter overlayEventsOf
  simp only []
  split_ifs <;> rfl

/-- The events of the overlay loop. -/
theorem drawOverlays_log_eq (r : TopdownTileRenderer) (rb : RenderBlock) (ix iy : Int)
    (os : List OverlayRenderMode) (i : Nat) (st : RenderState) :
    (drawOverlays r rb ix iy os i st).log = st.log ++ overlayEvents rb ix iy os i := by
  induction os generalizing i st with
  | nil => simp [drawOverlays, overlayEvents]
  | cons o os ih =>
    unfold drawOverlays overlayEvents
    rw [ih, drawOverlayOf_eq]
    simp

/-- The overlay tiles after the overlay loop: tile `j` is changed by the overlay
with index `j`, if there is one. -/
theorem drawOverlays_getElem? (r : TopdownTileRenderer) (rb : RenderBlock) (ix iy : Int)
    (os : List OverlayRenderMode) (i : Nat) (st : RenderState) (j : Nat) :
    (drawOverlays r rb ix iy os i st).overlay_tiles[j]? =
      if i ≤ j then
        match os[j - i]? with
        | some o => st.overlay_tiles[j]?.map (overlayTileAfter r rb ix iy o j)
        | none => st.overlay_tiles[j]?
      else st.overlay_tiles[j]? := by
  induction os generalizing i st with
  | nil => simp [drawOverlays]
  | cons o os ih =>
    unfold drawOverlays
    rw [ih, drawOverlayOf_eq]
    simp only [modifyAt_getElem?]
    by_cases h1 : i + 1 ≤ j
    · have h2 : i ≤ j := by omega
      have h3 : j ≠ i := by omega
      have h4 : j - i = (j - (i + 1)) + 1 := by omega
      rw [if_pos h1, if_pos h2, if_neg h3, h4, List.getElem?_cons_succ]
    · rw [if_neg h1]
      by_cases h2 : i ≤ j
      · have h3 : j = i := by omega
        subst h3
        simp
      · have h3 : j ≠ i := by omega
        rw [if_neg h2, if_neg h3]

/-- C16, as the code has it. Drawing one sample at the offset of its column: the
tile gets one `alphaBlit` of the block image, then, for every overlay index `i`
in order, overlay tile `i` gets, when the sample has `has_full_water` and
overlay `i` is `isBase()`, an `alphablit` of the block image followed by an
`alphablit` of the overlay image `i` of the sample masked by the block image,
and otherwise exactly one call, a `blit` (not an `alphablit`) of the overlay
image `i` masked by the block image. -/
theorem C16_overlay_tiles_of_one_sample (r : TopdownTileRenderer) (rb : RenderBlock)
    (ts dx dz x z : Int) (st : RenderState) :
    (drawRenderBlock r ts dx dz x z rb st).log =
      st.log ++ Event.tileAlphaBlit rb.block (dx + x * ts) (dz + z * ts) ::
        overlayEvents rb (dx + x * ts) (dz + z * ts) r.overlays 0 ∧
    (∀ (i : Nat) (o : OverlayRenderMode), r.overlays[i]? = some o →
      (drawRenderBlock r ts dx dz x z rb st).overlay_tiles[i]? =
        st.overlay_tiles[i]?.map (overlayTileAfter r rb (dx + x * ts) (dz + z * ts) o i)) ∧
    (∀ (i : Nat) (o : OverlayRenderMode) (t : RGBAImage),
      rb.has_full_water = true ∧ o.isBase = true →
      overlayEventsOf rb (dx + x * ts) (dz + z * ts) o i =
        [Event.overlayAlphablit i rb.block (dx + x * ts) (dz + z * ts),
         Event.overlayAlphablitMask i (rb.block_overlays.getD i noImage) (dx + x * ts)
           (dz + z * ts) rb.block] ∧
      overlayTileAfter r rb (dx + x * ts) (dz + z * ts) o i t =
        r.img.alphablitMask (r.img.alphablit t rb.block (dx + x * ts) (dz + z * ts))
          (rb.block_overlays.getD i noImage) (dx + x * ts) (dz + z * ts) rb.block) ∧
    (∀ (i : Nat) (o : OverlayRenderMode) (t : RGBAImage),
      ¬ (rb.has_full_water = true ∧ o.isBase = true) →
      overlayEventsOf rb (dx + x * ts) (dz + z * ts) o i =
        [Event.overlayBlitMask i (rb.block_overlays.getD i noImage) (dx + x * ts)
           (dz + z * ts) rb.block] ∧
      overlayTileAfter r rb (dx + x * ts) (dz + z * ts) o i t =
        r.img.blitMask t (rb.block_overlays.getD i noImage) (dx + x * ts) (dz + z * ts)
          rb.block) := by
  refine ⟨?_, fun i o ho => ?_, fun i o t h => ?_, fun i o t h => ?_⟩
  · unfold drawRenderBlock
    simp only [drawOverlays_log_eq]
    simp
  · unfold drawRenderBlock
    simp only [drawOverlays_getElem?]
    simp [ho]
  · unfold overlayEventsOf overlayTileAfter
    simp [h.1, h.2]
  · unfold overlayEventsOf overlayTileAfter
    have : (rb.has_full_water && o.isBase) = false := by
      cases h1 : rb.has_full_water <;> cases h2 : o.isBase <;> simp_all
    simp [this]

/-- Witness of C16: a sample without full water and one overlay that is not
`isBase()`; the overlay tile gets the one `blit`. -/
theorem C16_overlay_tiles_of_one_sample_witness :
    overlayEventsOf
      (makeRenderBlock (exampleRendererOverlay false 1 false 0) (exampleChunk [(1, 0)])
        ⟨0, 0, 255⟩ 1 0 false) (0 + 0 * 1) (0 + 0 * 1) ⟨fun _ dest _ _ _ => dest, false⟩ 0 =
      [Event.overlayBlitMask 0
        ((makeRenderBlock (exampleRendererOverlay false 1 false 0) (exampleChunk [(1, 0)])
          ⟨0, 0, 255⟩ 1 0 false).block_overlays.getD 0 noImage) (0 + 0 * 1) (0 + 0 * 1)
        (makeRenderBlock (exampleRendererOverlay false 1 false 0) (exampleChunk [(1, 0)])
          ⟨0, 0, 255⟩ 1 0 false).block] :=
  ((C16_overlay_tiles_of_one_sample (exampleRendererOverlay false 1 false 0)
    (makeRenderBlock (exampleRendererOverlay false 1 false 0) (exampleChunk [(1, 0)])
      ⟨0, 0, 255⟩ 1 0 false) 1 0 0 0 0 ⟨noImage, [sprite 1 0xff0000ff], []⟩).2.2.2 0
    ⟨fun _ dest _ _ _ => dest, false⟩ noImage (by decide)).1

/-- C16, counterexample to the claim as stated. A sample without full water, one
overlay that is not `isBase()` and whose overlay image is clear, an overlay
tile with the pixel `0xff0000ff`, and image operations for which `blit` copies
and `alphablit` blends: the overlay tile gets one call that is not an
`alphablit`, and its pixel is the clear pixel the `blit` copied, where the
`alphablit` with the same arguments keeps `0xff0000ff`. -/
theorem C16_other_branch_is_blit_not_alphablit :
    (drawRenderBlock (exampleRendererOverlay false 1 false 0) 1 0 0 0 0
      (makeRenderBlock (exampleRendererOverlay false 1 false 0) (exampleChunk [(1, 0)])
        ⟨0, 0, 255⟩ 1 0 false) ⟨noImage, [sprite 1 0xff0000ff], []⟩).log.map
        (fun e => (e.isBlit, e.isBasePath)) = [(true, false), (true, false)] ∧
    (drawRenderBlock (exampleRendererOverlay false 1 false 0) 1 0 0 0 0
      (makeRenderBlock (exampleRendererOverlay false 1 false 0) (exampleChunk [(1, 0)])
        ⟨0, 0, 255⟩ 1 0 false) ⟨noImage, [sprite 1 0xff0000ff], []⟩).overlay_tiles.map
        (fun t => t.getPixel 0 0) = [0] ∧
    ((exampleRendererOverlay false 1 false 0).img.alphablitMask (sprite 1 0xff0000ff)
      ((makeRenderBlock (exampleRendererOverlay false 1 false 0) (exampleChunk [(1, 0)])
        ⟨0, 0, 255⟩ 1 0 false).block_overlays.getD 0 noImage) 0 0
      (makeRenderBlock (exampleRendererOverlay false 1 false 0) (exampleChunk [(1, 0)])
        ⟨0, 0, 255⟩ 1 0 false).block).getPixel 0 0 = 0xff0000ff := by
  decide

end Mapcrafter

namespace Mapcrafter

/-! ## Claims C11, C13 and C14: the renderer at the inputs where it departs from them -/

set_option maxRecDepth 100000 in
/-- C11, evaluation. Preblit water mode with maximum depth 1, block images whose
deep water image has a clear pixel at `(0, 0)` where the water image has none,
one overlay, an `applyMask` that clears every pixel at which the mask is clear,
and a column with two full water voxels on top: the one sample of the column is
the deep water sample at height 255, its block image is clear at `(0, 0)`, and
its overlay image has the pixel `0x40ffffff` there, as masked by the water
image the sample had before it was rewritten. -/
theorem C11_deep_water_sample_keeps_old_overlay_mask :
    (∀ (img mask : RGBAImage) (px py : Int), rgba_alpha (mask.getPixel px py) = 0 →
      ((exampleRendererHole 1).img.applyMask img mask).getPixel px py = 0) ∧
    (scanColumn (exampleRendererHole 1) (exampleChunk [(8, 0), (8, 0)]) 0 0).2 =
      Exit.truncated 254 ∧
    (scanColumn (exampleRendererHole 1) (exampleChunk [(8, 0), (8, 0)]) 0 0).1.blocks.map
      (fun b => (b.pos.y, b.id, b.data, rgba_alpha (b.block.getPixel 0 0),
        b.block_overlays.map (fun o => o.getPixel 0 0))) =
      [(255, 8, 4096, 0, [0x40ffffff])] := by
  refine ⟨fun img mask px py h => ?_, by decide, by decide⟩
  exact if_pos h

set_option maxRecDepth 100000 in
/-- C13, evaluation. Preblit water mode with maximum depth 1, block images for
which deep water is not transparent, and a column with glass, glass, water,
water from the top: the scan is truncated at height 252, and the first sample
of the column is the deep water sample, which is not transparent and is
followed by two more samples. -/
theorem C13_samples_after_deep_water_sample :
    (scanColumn (exampleRendererSolidDeep true 1)
      (exampleChunk [(20, 0), (20, 0), (9, 0), (9, 0)]) 0 0).2 = Exit.truncated 252 ∧
    (scanColumn (exampleRendererSolidDeep true 1)
      (exampleChunk [(20, 0), (20, 0), (9, 0), (9, 0)]) 0 0).1.blocks.map
      (fun b => (b.pos.y, b.id, b.data,
        (exampleRendererSolidDeep true 1).images.isBlockTransparent b.id b.data)) =
      [(255, 8, 4096, false), (254, 20, 0, true), (253, 9, 0, true)] := by
  decide

set_option maxRecDepth 100000 in
/-- C14, evaluation. Preblit water mode with maximum depth 2 and a column with
glass, water, water, water from the top (heights 255 to 252): when the counter
exceeds the maximum at height 252 the pending samples are the glass at 255 and
the water at 254 and 253; the column that results has one sample, deep water at
the position of the water sample of height 253. The glass sample is gone, and
the position is not the one of the shallowest water sample (height 254). -/
theorem C14_truncation_erases_from_the_front :
    (scanColumn (exampleRenderer true 2 (fun _ => none))
      (exampleChunk [(20, 0), (8, 0), (8, 0), (8, 0)]) 0 0).1.blocks =
      truncateWater (exampleRenderer true 2 (fun _ => none))
        [makeRenderBlock (exampleRenderer true 2 (fun _ => none))
          (exampleChunk [(20, 0), (8, 0), (8, 0), (8, 0)]) ⟨0, 0, 255⟩ 20 0 false,
         makeRenderBlock (exampleRenderer true 2 (fun _ => none))
          (exampleChunk [(20, 0), (8, 0), (8, 0), (8, 0)]) ⟨0, 0, 254⟩ 8 0 false,
         makeRenderBlock (exampleRenderer true 2 (fun _ => none))
          (exampleChunk [(20, 0), (8, 0), (8, 0), (8, 0)]) ⟨0, 0, 253⟩ 8 0 false] ∧
    (scanColumn (exampleRenderer true 2 (fun _ => none))
      (exampleChunk [(20, 0), (8, 0), (8, 0), (8, 0)]) 0 0).2 = Exit.truncated 252 ∧
    (truncateWater (exampleRenderer true 2 (fun _ => none))
      [makeRenderBlock (exampleRenderer true 2 (fun _ => none))
        (exampleChunk [(20, 0), (8, 0), (8, 0), (8, 0)]) ⟨0, 0, 255⟩ 20 0 false,
       makeRenderBlock (exampleRenderer true 2 (fun _ => none))
        (exampleChunk [(20, 0), (8, 0), (8, 0), (8, 0)]) ⟨0, 0, 254⟩ 8 0 false,
       makeRenderBlock (exampleRenderer true 2 (fun _ => none))
        (exampleChunk [(20, 0), (8, 0), (8, 0), (8, 0)]) ⟨0, 0, 253⟩ 8 0 false]).map
      (fun b => (b.pos.y, b.id, b.data)) = [(253, 8, 4096)] ∧
    (scanColumn (exampleRenderer true 2 (fun _ => none))
      (exampleChunk [(20, 0), (8, 0), (8, 0), (8, 0)]) 0 0).1.blocks.map
      (fun b => (b.pos.y, b.id, b.data)) = [(253, 8, 4096)] := by
  refine ⟨rfl, ?_, ?_, ?_⟩ <;> decide

end Mapcrafter

namespace Mapcrafter

/-! ## Claim C11: the overlay images of a sample and the image that masked them -/

/-- The overlay images of a sample built by lines 147 to 166 are masked by the
block image of the sample. -/
theorem makeRenderBlock_masked (r : TopdownTileRenderer) (chunk : Chunk) (g : BlockPos)
    (id data : Nat) (hfw : Bool)
    (happly : ∀ (img mask : RGBAImage) (px py : Int), rgba_alpha (mask.getPixel px py) = 0 →
      (r.img.applyMask img mask).getPixel px py = 0) :
    ∀ o ∈ (makeRenderBlock r chunk g id data hfw).block_overlays, ∀ px py : Int,
      rgba_alpha ((makeRenderBlock r chunk g id data hfw).block.getPixel px py) = 0 →
      o.getPixel px py = 0 := by
  intro o ho px py h
  simp only [makeRenderBlock, blockOverlays, List.mem_map] at ho
  obtain ⟨ov, _, rfl⟩ := ho
  exact happly _ _ px py h

theorem truncateWater_cases (r : TopdownTileRenderer) (blocks : List RenderBlock) :
    ∀ b ∈ truncateWater r blocks, b ∈ blocks ∨ ∃ b' ∈ blocks, b = deepWater r b' := by
  induction blocks with
  | nil => simp [truncateWater]
  | cons current rest ih =>
    cases rest with
    | nil =>
      intro b hb
      simp only [truncateWater, List.mem_singleton] at hb
      exact Or.inr ⟨current, List.mem_singleton.2 rfl, hb⟩
    | cons next rest =>
      intro b hb
      unfold truncateWater at hb
      split_ifs at hb
      · rcases List.mem_cons.1 hb with h | h
        · exact Or.inr ⟨current, List.mem_cons_self _ _, h⟩
        · exact Or.inl (List.mem_cons_of_mem _ h)
      · rcases ih b hb with h | ⟨b', h1, h2⟩
        · exact Or.inl (List.mem_cons_of_mem _ h)
        · exact Or.inr ⟨b', List.mem_cons_of_mem _ h1, h2⟩

/-- The samples after an iteration of the scan loop at height `y`: the truncated
samples when the iteration ends with the truncation; else the samples before
it, or these with the sample of lines 147 to 166 for the voxel at height `y`
appended, which is then neither air nor hidden. -/
theorem scanStep_blocks_built (r : TopdownTileRenderer) (chunk : Chunk) (x z : Int)
    (y : Nat) (st : ScanState) :
    ((scanStep r chunk x z y st).2 = some (Exit.truncated y) ∧
      (scanStep r chunk x z y st).1.blocks = truncateWater r st.blocks) ∨
    ((∀ y_t, (scanStep r chunk x z y st).2 ≠ some (Exit.truncated y_t)) ∧
      ((scanStep r chunk x z y st).1.blocks = st.blocks ∨
        ∃ hfw : Bool, chunk.getBlockID ⟨x, z, y⟩ ≠ 0 ∧
          r.render_mode.isHidden ((⟨x, z, y⟩ : LocalBlockPos).toGlobalPos chunk.getPos)
            (chunk.getBlockID ⟨x, z, y⟩) (chunk.getBlockData ⟨x, z, y⟩) = false ∧
          (scanStep r chunk x z y st).1.blocks = st.blocks ++ [voxelSample r chunk x z y hfw])) := by
  by_cases h0 : chunk.getBlockID ⟨x, z, y⟩ = 0
  · rw [scanStep_air r chunk x z y st h0]
    exact Or.inr ⟨fun y_t => by simp, Or.inl rfl⟩
  cases hh : r.render_mode.isHidden ((⟨x, z, y⟩ : LocalBlockPos).toGlobalPos chunk.getPos)
      (chunk.getBlockID ⟨x, z, y⟩) (chunk.getBlockData ⟨x, z, y⟩) with
  | true =>
    rw [scanStep_hidden r chunk x z y st h0 hh]
    exact Or.inr ⟨fun y_t => by simp, Or.inl rfl⟩
  | false =>
    have happend : ∀ st0 : ScanState,
        (∀ y_t, (appendSample r chunk ((⟨x, z, y⟩ : LocalBlockPos).toGlobalPos chunk.getPos)
          (chunk.getBlockID ⟨x, z, y⟩) (chunk.getBlockData ⟨x, z, y⟩) y st0).2
            ≠ some (Exit.truncated y_t)) ∧
        ∃ hfw : Bool,
          (appendSample r chunk ((⟨x, z, y⟩ : LocalBlockPos).toGlobalPos chunk.getPos)
            (chunk.getBlockID ⟨x, z, y⟩) (chunk.getBlockData ⟨x, z, y⟩) y st0).1.blocks =
            st0.blocks ++ [voxelSample r chunk x z y hfw] := by
      intro st0
      exact ⟨(appendSample_not_truncated r chunk _ _ _ y st0).1,
        st0.has_full_water, appendSample_blocks r chunk _ _ _ y st0⟩
    have key : ((scanStep r chunk x z y st).2 = some (Exit.truncated y) ∧
          (scanStep r chunk x z y st).1.blocks = truncateWater r st.blocks) ∨
        ((∀ y_t, (scanStep r chunk x z y st).2 ≠ some (Exit.truncated y_t)) ∧
          ((scanStep r chunk x z y st).1.blocks = st.blocks ∨
            ∃ hfw : Bool, (scanStep r chunk x z y st).1.blocks =
              st.blocks ++ [voxelSample r chunk x z y hfw])) := by
      unfold scanStep
      simp only [h0, hh, if_false, Bool.false_eq_true]
      split_ifs
      · exact Or.inr ⟨fun y_t => by simp, Or.inl rfl⟩
      · exact Or.inr ⟨(happend _).1, Or.inr (happend _).2⟩
      · exact Or.inr ⟨(happend _).1, Or.inr (happend _).2⟩
      · exact Or.inl ⟨rfl, rfl⟩
      · exact Or.inr ⟨(happend _).1, Or.inr (happend _).2⟩
      · exact Or.inr ⟨(happend _).1, Or.inr (happend _).2⟩
    rcases key with h | ⟨h1, h2 | ⟨hfw, h2⟩⟩
    · exact Or.inl h
    · exact Or.inr ⟨h1, Or.inl h2⟩
    · exact Or.inr ⟨h1, Or.inr ⟨hfw, h0, rfl, h2⟩⟩

/-- The samples of the scan loop: entered with samples that lines 147 to 166
built for voxels of the column that are neither air nor hidden, the loop
leaves such samples, except that a loop that ends with the truncation may leave
one such sample turned into deep water. -/
theorem scanLoop_built (r : TopdownTileRenderer) (chunk : Chunk) (x z : Int)
    (n : Nat) (st : ScanState)
    (hinv : ∀ b ∈ st.blocks, ∃ (y : Nat) (hfw : Bool), chunk.getBlockID ⟨x, z, y⟩ ≠ 0 ∧
      r.render_mode.isHidden ((⟨x, z, y⟩ : LocalBlockPos).toGlobalPos chunk.getPos)
        (chunk.getBlockID ⟨x, z, y⟩) (chunk.getBlockData ⟨x, z, y⟩) = false ∧
      b = voxelSample r chunk x z y hfw) :
    ∀ b ∈ (scanLoop r chunk x z n st).1.blocks,
      ∃ (y : Nat) (hfw : Bool), chunk.getBlockID ⟨x, z, y⟩ ≠ 0 ∧
        r.render_mode.isHidden ((⟨x, z, y⟩ : LocalBlockPos).toGlobalPos chunk.getPos)
          (chunk.getBlockID ⟨x, z, y⟩) (chunk.getBlockData ⟨x, z, y⟩) = false ∧
        (b = voxelSample r chunk x z y hfw ∨
          ((∃ y_t, (scanLoop r chunk x z n st).2 = Exit.truncated y_t) ∧
            b = deepWater r (voxelSample r chunk x z y hfw))) := by
  induction n generalizing st with
  | zero =>
    intro b hb
    obtain ⟨y, hfw, h1, h2, h3⟩ := hinv b (by simpa [scanLoop] using hb)
    exact ⟨y, hfw, h1, h2, Or.inl h3⟩
  | succ y ih =>
    have hcases := scanStep_blocks_built r chunk x z y st
    unfold scanLoop
    rcases hstep : scanStep r chunk x z y st with ⟨st', _ | e⟩
    · rw [hstep] at hcases
      dsimp only at hcases ⊢
      rcases hcases with ⟨h, _⟩ | ⟨_, h1 | ⟨hfw, h0, hh, h1⟩⟩
      · simp at h
      · exact ih st' (by rw [h1]; exact hinv)
      · apply ih st'
        intro b hb
        rw [h1] at hb
        rcases List.mem_append.1 hb with hb | hb
        · exact hinv b hb
        · exact ⟨y, hfw, h0, hh, List.mem_singleton.1 hb⟩
    · rw [hstep] at hcases
      dsimp only at hcases ⊢
      rcases hcases with ⟨h, h1⟩ | ⟨_, h1 | ⟨hfw, h0, hh, h1⟩⟩
      · intro b hb
        rw [h1] at hb
        rcases truncateWater_cases r st.blocks b hb with hb | ⟨b', hb', rfl⟩
        · obtain ⟨y', hfw, h2, h3, h4⟩ := hinv b hb
          exact ⟨y', hfw, h2, h3, Or.inl h4⟩
        · obtain ⟨y', hfw, h2, h3, rfl⟩ := hinv b' hb'
          refine ⟨y', hfw, h2, h3, Or.inr ⟨⟨y, ?_⟩, rfl⟩⟩
          simpa using h
      · intro b hb
        rw [h1] at hb
        obtain ⟨y', hfw, h2, h3, h4⟩ := hinv b hb
        exact ⟨y', hfw, h2, h3, Or.inl h4⟩
      · intro b hb
        rw [h1] at hb
        rcases List.mem_append.1 hb with hb | hb
        · obtain ⟨y', hfw', h2, h3, h4⟩ := hinv b hb
          exact ⟨y', hfw', h2, h3, Or.inl h4⟩
        · exact ⟨y, hfw, h0, hh, Or.inl (List.mem_singleton.1 hb)⟩

/-- In the legacy water mode the scan loop does not end with the truncation. -/
theorem scanLoop_legacy_not_truncated (r : TopdownTileRenderer) (chunk : Chunk) (x z : Int)
    (hlegacy : r.use_preblit_water = false) (y_t : Nat) :
    ∀ (n : Nat) (st : ScanState), (scanLoop r chunk x z n st).2 ≠ Exit.truncated y_t := by
  intro n
  induction n with
  | zero => intro st; simp [scanLoop]
  | succ y ih =>
    intro st
    unfold scanLoop
    rcases hstep : scanStep r chunk x z y st with ⟨st', _ | e⟩
    · exact ih st'
    · dsimp only
      intro he
      have := (scanStep_truncated_iff r chunk x z y y_t st).1 (by rw [hstep, he])
      rw [hlegacy] at this
      simp at this

/-- C11, as the code has it. With an `applyMask` that clears every pixel at which
the mask image has alpha 0, in both water modes. Every sample `b` of a column
comes from a voxel of the column, at a height `y`, that is neither air nor
hidden: with `s` the sample that lines 147 to 166 build for this voxel, whose
overlay images are 0 at every pixel at which the block image of `s` has
alpha 0, either `b` is `s`, or the scan was truncated and `b` is `s` turned into
deep water by lines 133 to 136. In the second case `b` has the position and the
overlay images of `s`, so these are 0 at every pixel at which the block image
of `s`, the one the sample had before, has alpha 0, while the block image of
`b` is the deep water image; the overlay images of `b` are then 0 wherever the
block image of `b` has alpha 0 if the deep water image is clear only where the
block image of `s` is clear. The property of the claim holds for all samples
of a column whose scan was not truncated, as always in the legacy water
mode. -/
theorem C11_overlay_images_masked (r : TopdownTileRenderer) (chunk : Chunk) (x z : Int)
    (happly : ∀ (img mask : RGBAImage) (px py : Int), rgba_alpha (mask.getPixel px py) = 0 →
      (r.img.applyMask img mask).getPixel px py = 0) :
    (∀ b ∈ (scanColumn r chunk x z).1.blocks,
      ∃ (y : Nat) (hfw : Bool), chunk.getBlockID ⟨x, z, y⟩ ≠ 0 ∧
        r.render_mode.isHidden ((⟨x, z, y⟩ : LocalBlockPos).toGlobalPos chunk.getPos)
          (chunk.getBlockID ⟨x, z, y⟩) (chunk.getBlockData ⟨x, z, y⟩) = false ∧
        (∀ o ∈ (voxelSample r chunk x z y hfw).block_overlays, ∀ px py : Int,
          rgba_alpha ((voxelSample r chunk x z y hfw).block.getPixel px py) = 0 →
          o.getPixel px py = 0) ∧
        (b = voxelSample r chunk x z y hfw ∨
          ((∃ y_t, (scanColumn r chunk x z).2 = Exit.truncated y_t) ∧
            b = deepWater r (voxelSample r chunk x z y hfw) ∧
            b.pos = (voxelSample r chunk x z y hfw).pos ∧
            b.block_overlays = (voxelSample r chunk x z y hfw).block_overlays ∧
            b.id = 8 ∧ b.data = r.OPAQUE_WATER ∧
            b.block = r.drawHardcodeOverlay (r.images.getBlock 8 r.OPAQUE_WATER)
              ((⟨x, z, y⟩ : LocalBlockPos).toGlobalPos chunk.getPos) 8 r.OPAQUE_WATER ∧
            (∀ o ∈ b.block_overlays, ∀ px py : Int,
              rgba_alpha ((voxelSample r chunk x z y hfw).block.getPixel px py) = 0 →
              o.getPixel px py = 0) ∧
            ((∀ px py : Int, rgba_alpha (b.block.getPixel px py) = 0 →
                rgba_alpha ((voxelSample r chunk x z y hfw).block.getPixel px py) = 0) →
              ∀ o ∈ b.block_overlays, ∀ px py : Int,
                rgba_alpha (b.block.getPixel px py) = 0 → o.getPixel px py = 0)))) ∧
    ((∀ y_t, (scanColumn r chunk x z).2 ≠ Exit.truncated y_t) →
      ∀ b ∈ (scanColumn r chunk x z).1.blocks, ∀ o ∈ b.block_overlays, ∀ px py : Int,
        rgba_alpha (b.block.getPixel px py) = 0 → o.getPixel px py = 0) ∧
    (r.use_preblit_water = false → ∀ y_t, (scanColumn r chunk x z).2 ≠ Exit.truncated y_t) := by
  have hmasked : ∀ (y : Nat) (hfw : Bool),
      ∀ o ∈ (voxelSample r chunk x z y hfw).block_overlays, ∀ px py : Int,
        rgba_alpha ((voxelSample r chunk x z y hfw).block.getPixel px py) = 0 →
        o.getPixel px py = 0 :=
    fun y hfw => makeRenderBlock_masked r chunk _ _ _ hfw happly
  have hmain : ∀ b ∈ (scanColumn r chunk x z).1.blocks,
      ∃ (y : Nat) (hfw : Bool), chunk.getBlockID ⟨x, z, y⟩ ≠ 0 ∧
        r.render_mode.isHidden ((⟨x, z, y⟩ : LocalBlockPos).toGlobalPos chunk.getPos)
          (chunk.getBlockID ⟨x, z, y⟩) (chunk.getBlockData ⟨x, z, y⟩) = false ∧
        (b = voxelSample r chunk x z y hfw ∨
          ((∃ y_t, (scanColumn r chunk x z).2 = Exit.truncated y_t) ∧
            b = deepWater r (voxelSample r chunk x z y hfw))) := by
    rcases Nat.eq_zero_or_pos r.CHUNK_HEIGHT with hH | hH
    · rw [scanColumn_of_no_section r chunk x z hH]
      simp [initialScan]
    · rw [scanColumn_eq r chunk x z hH]
      exact scanLoop_built r chunk x z _ _ (by simp [initialScan])
  refine ⟨fun b hb => ?_, fun hno b hb => ?_, fun hlegacy y_t htrunc => ?_⟩
  · obtain ⟨y, hfw, h0, hh, h⟩ := hmain b hb
    refine ⟨y, hfw, h0, hh, hmasked y hfw, ?_⟩
    rcases h with h | ⟨h1, rfl⟩
    · exact Or.inl h
    · exact Or.inr ⟨h1, rfl, rfl, rfl, rfl, rfl, rfl, hmasked y hfw,
        fun hclear o ho px py h => hmasked y hfw o ho px py (hclear px py h)⟩
  · obtain ⟨y, hfw, _, _, h⟩ := hmain b hb
    rcases h with rfl | ⟨⟨y_t, h1⟩, _⟩
    · exact hmasked y hfw
    · exact absurd h1 (hno y_t)
  · rcases Nat.eq_zero_or_pos r.CHUNK_HEIGHT with hH | hH
    · rw [scanColumn_of_no_section r chunk x z hH] at htrunc
      simp at htrunc
    · rw [scanColumn_eq r chunk x z hH] at htrunc
      exact scanLoop_legacy_not_truncated r chunk x z hlegacy y_t _ _ htrunc

set_option maxRecDepth 100000 in
/-- Witness of C11: preblit water mode with maximum depth 1 and one voxel of deep
water (id 8, data `OPAQUE_WATER`), whose block image is clear at `(0, 0)`; the
scan is not truncated, the one sample has a block image with alpha 0 at
`(0, 0)`, and its overlay image is 0 there. -/
theorem C11_overlay_images_masked_witness :
    (scanColumn (exampleRendererHole 1) (exampleChunk [(8, 4096)]) 0 0).2 = Exit.floor ∧
    (scanColumn (exampleRendererHole 1) (exampleChunk [(8, 4096)]) 0 0).1.blocks.map
      (fun b => (rgba_alpha (b.block.getPixel 0 0), b.block_overlays.length)) = [(0, 1)] ∧
    (scanColumn (exampleRendererHole 1) (exampleChunk [(8, 4096)]) 0 0).1.blocks.all
      (fun b => b.block_overlays.all (fun o =>
        decide (rgba_alpha (b.block.getPixel 0 0) = 0 → o.getPixel 0 0 = 0))) = true :=
  ⟨by decide, by decide,
    List.all_eq_true.2 (fun b hb => List.all_eq_true.2 (fun o ho => decide_eq_true
      ((C11_overlay_images_masked (exampleRendererHole 1) (exampleChunk [(8, 4096)]) 0 0
        (fun _ _ _ _ h => if_pos h)).2.1
        (fun y_t => by
          have h : (scanColumn (exampleRendererHole 1) (exampleChunk [(8, 4096)]) 0 0).2
              = Exit.floor := by decide
          rw [h]
          simp) b hb o ho 0 0)))⟩

end Mapcrafter

namespace Mapcrafter

/-! ## Claim C15 -/

/-- The iteration of the scan loop in the preblit water mode at a voxel that is
not air and not hidden. -/
theorem scanStep_preblit (r : TopdownTileRenderer) (chunk : Chunk) (x z : Int)
    (y : Nat) (st : ScanState) (hpre : r.use_preblit_water = true)
    (h0 : chunk.getBlockID ⟨x, z, y⟩ ≠ 0)
    (hh : r.render_mode.isHidden ((⟨x, z, y⟩ : LocalBlockPos).toGlobalPos chunk.getPos)
      (chunk.getBlockID ⟨x, z, y⟩) (chunk.getBlockData ⟨x, z, y⟩) = false) :
    scanStep r chunk x z y st =
      if isFullWater (chunk.getBlockID ⟨x, z, y⟩) (chunk.getBlockData ⟨x, z, y⟩) = true then
        if st.water + 1 > r.images.getMaxWaterPreblit then
          ({ st with log := st.log ++ stepEvents chunk x z y, water := st.water + 1,
                     blocks := truncateWater r st.blocks }, some (Exit.truncated y))
        else
          appendSample r chunk ((⟨x, z, y⟩ : LocalBlockPos).toGlobalPos chunk.getPos)
            (chunk.getBlockID ⟨x, z, y⟩) (chunk.getBlockData ⟨x, z, y⟩) y
            { st with log := st.log ++ stepEvents chunk x z y, water := st.water + 1 }
      else
        appendSample r chunk ((⟨x, z, y⟩ : LocalBlockPos).toGlobalPos chunk.getPos)
          (chunk.getBlockID ⟨x, z, y⟩) (chunk.getBlockData ⟨x, z, y⟩) y
          { st with log := st.log ++ stepEvents chunk x z y, water := 0 } := by
  by_cases hw : isFullWater (chunk.getBlockID ⟨x, z, y⟩) (chunk.getBlockData ⟨x, z, y⟩) = true
  · rw [if_pos hw]
    unfold scanStep stepEvents
    simp only [h0, hh, hw, hpre, if_false, Bool.false_eq_true, Bool.not_true, Bool.and_false,
      if_true, List.append_assoc, List.cons_append, List.nil_append]
  · rw [if_neg hw, scanStep_plain r chunk x z y st h0 hh (Bool.eq_false_iff.2 hw)]
    simp [hpre]

theorem appendSample_water (r : TopdownTileRenderer) (chunk : Chunk) (g : BlockPos)
    (id data y : Nat) (st : ScanState) :
    (appendSample r chunk g id data y st).1.water = st.water := by
  unfold appendSample
  split_ifs <;> rfl

/-- C15, as the code has it. Preblit water mode, an iteration of the scan loop.
The water counter changes only at a voxel that is neither air nor hidden: an
air voxel and a hidden voxel leave it as it is; a voxel that is not air, not
hidden and not full water (partial water included) sets it to zero and does
not truncate; a full water voxel that is not hidden adds one to it, and the
scan is truncated at this voxel exactly when the counter then exceeds
`getMaxWaterPreblit()`. -/
theorem C15_preblit_water_counter (r : TopdownTileRenderer) (chunk : Chunk) (x z : Int)
    (y : Nat) (st : ScanState) (hpre : r.use_preblit_water = true) :
    (chunk.getBlockID ⟨x, z, y⟩ = 0 →
      (scanStep r chunk x z y st).1.water = st.water ∧
      (scanStep r chunk x z y st).2 = none) ∧
    (chunk.getBlockID ⟨x, z, y⟩ ≠ 0 →
      r.render_mode.isHidden ((⟨x, z, y⟩ : LocalBlockPos).toGlobalPos chunk.getPos)
        (chunk.getBlockID ⟨x, z, y⟩) (chunk.getBlockData ⟨x, z, y⟩) = true →
      (scanStep r chunk x z y st).1.water = st.water ∧
      (scanStep r chunk x z y st).2 = none) ∧
    (chunk.getBlockID ⟨x, z, y⟩ ≠ 0 →
      r.render_mode.isHidden ((⟨x, z, y⟩ : LocalBlockPos).toGlobalPos chunk.getPos)
        (chunk.getBlockID ⟨x, z, y⟩) (chunk.getBlockData ⟨x, z, y⟩) = false →
      isFullWater (chunk.getBlockID ⟨x, z, y⟩) (chunk.getBlockData ⟨x, z, y⟩) = false →
      (scanStep r chunk x z y st).1.water = 0 ∧
      ∀ y_t, (scanStep r chunk x z y st).2 ≠ some (Exit.truncated y_t)) ∧
    (r.render_mode.isHidden ((⟨x, z, y⟩ : LocalBlockPos).toGlobalPos chunk.getPos)
        (chunk.getBlockID ⟨x, z, y⟩) (chunk.getBlockData ⟨x, z, y⟩) = false →
      isFullWater (chunk.getBlockID ⟨x, z, y⟩) (chunk.getBlockData ⟨x, z, y⟩) = true →
      (scanStep r chunk x z y st).1.water = st.water + 1 ∧
      ((scanStep r chunk x z y st).2 = some (Exit.truncated y) ↔
        st.water + 1 > r.images.getMaxWaterPreblit)) := by
  refine ⟨fun h0 => ?_, fun h0 hh => ?_, fun h0 hh hw => ?_, fun hh hw => ?_⟩
  · rw [scanStep_air r chunk x z y st h0]
    exact ⟨rfl, rfl⟩
  · rw [scanStep_hidden r chunk x z y st h0 hh]
    exact ⟨rfl, rfl⟩
  · rw [scanStep_preblit r chunk x z y st hpre h0 hh, if_neg (by simp [hw])]
    exact ⟨appendSample_water _ _ _ _ _ _ _,
      (appendSample_not_truncated _ _ _ _ _ _ _).1⟩
  · have h0 : chunk.getBlockID ⟨x, z, y⟩ ≠ 0 := by
      intro h
      rw [h] at hw
      simp [isFullWater] at hw
    rw [scanStep_preblit r chunk x z y st hpre h0 hh, if_pos hw]
    by_cases hM : st.water + 1 > r.images.getMaxWaterPreblit
    · rw [if_pos hM]
      exact ⟨rfl, by simp [hM]⟩
    · rw [if_neg hM]
      refine ⟨appendSample_water _ _ _ _ _ _ _, ?_⟩
      constructor
      · intro h
        exact absurd h ((appendSample_not_truncated _ _ _ _ _ _ _).1 y)
      · intro h
        exact absurd h hM

set_option maxRecDepth 100000 in
/-- Witness of C15: preblit water mode with maximum depth 1; a full water voxel
at height 255 met with the counter 1 takes the counter to 2. -/
theorem C15_preblit_water_counter_witness :
    (scanStep (exampleRenderer true 1 (fun _ => none)) (exampleChunk [(8, 0)]) 3 5 255
      ⟨[], false, false, 1, []⟩).1.water = 2 :=
  ((C15_preblit_water_counter (exampleRenderer true 1 (fun _ => none)) (exampleChunk [(8, 0)])
    3 5 255 ⟨[], false, false, 1, []⟩ rfl).2.2.2 rfl rfl).1

set_option maxRecDepth 100000 in
/-- C15, counterexample to the claim as stated. Preblit water mode with maximum
depth 1. A column with water, air, water from the top, nothing hidden: the air
voxel at height 254 is visited, the counter is not reset there, and the scan is
truncated at the water voxel of height 253, although the two water runs have
length 1 and an air voxel separates them. A column with water, stone, water
from the top, stone (id 1) hidden: the stone voxel at height 254 is visited and
is not full water, the counter is not reset there either, and the scan is
truncated at height 253. -/
theorem C15_counter_survives_air_and_hidden_voxels :
    (scanColumn (exampleRenderer true 1 (fun _ => none)) (exampleChunk [(8, 0), (0, 0), (8, 0)])
      0 0).1.log.filterMap (fun e => e.handleBlock?.map (fun v => (v.1.y, v.2.1))) =
      [(255, 8), (255, 8), (254, 0), (253, 8)] ∧
    (scanColumn (exampleRenderer true 1 (fun _ => none)) (exampleChunk [(8, 0), (0, 0), (8, 0)])
      0 0).1.water = 2 ∧
    (scanColumn (exampleRenderer true 1 (fun _ => none)) (exampleChunk [(8, 0), (0, 0), (8, 0)])
      0 0).2 = Exit.truncated 253 ∧
    isFullWater 1 0 = false ∧
    (scanColumn (exampleRendererHiding true 1 1) (exampleChunk [(8, 0), (1, 0), (8, 0)])
      0 0).1.log.filterMap (fun e => e.handleBlock?.map (fun v => (v.1.y, v.2.1))) =
      [(255, 8), (255, 8), (254, 1), (253, 8)] ∧
    (scanColumn (exampleRendererHiding true 1 1) (exampleChunk [(8, 0), (1, 0), (8, 0)])
      0 0).1.water = 2 ∧
    (scanColumn (exampleRendererHiding true 1 1) (exampleChunk [(8, 0), (1, 0), (8, 0)])
      0 0).2 = Exit.truncated 253 := by
  decide

end Mapcrafter

namespace Mapcrafter

/-! ## Claim C18 -/

theorem topNonAir_le (chunk : Chunk) (x z : Int) (y : Nat) : topNonAir chunk x z y ≤ y := by
  induction y with
  | zero => simp [topNonAir]
  | succ y ih =>
    unfold topNonAir
    split_ifs <;> omega

theorem mem_heightsDown (m n h : Nat) : h ∈ heightsDown m n ↔ m ≤ h ∧ h < n := by
  induction n with
  | zero => simp [heightsDown]
  | succ y ih =>
    unfold heightsDown
    split_ifs with hlt
    · simp only [List.not_mem_nil, false_iff]
      omega
    · simp only [List.mem_cons, ih]
      omega

theorem heightsDown_of_le (m n : Nat) (h : n ≤ m) : heightsDown m n = [] := by
  cases n with
  | zero => rfl
  | succ y => simp [heightsDown]; omega

/-- The loop of lines 89 to 92 stops at the topmost voxel that is not air (or at
height 0) and reads the ids of the voxels below its start down to that voxel. -/
theorem skipAir_eq (chunk : Chunk) (x z : Int) (y : Nat) (log : List Event) :
    skipAir chunk x z y (chunk.getBlockID ⟨x, z, y⟩) log =
      (topNonAir chunk x z y,
        log ++ (heightsDown (topNonAir chunk x z y) y).map (fun (h : Nat) =>
          Event.getBlockID ⟨x, z, h⟩)) := by
  induction y generalizing log with
  | zero => simp [skipAir, topNonAir, heightsDown]
  | succ y ih =>
    unfold skipAir topNonAir
    by_cases hid : chunk.getBlockID ⟨x, z, ((y + 1 : Nat) : Int)⟩ = 0
    · rw [if_pos hid, if_pos hid, ih]
      have hle := topNonAir_le chunk x z y
      rw [heightsDown, if_neg (by omega)]
      simp
    · rw [if_neg hid, if_neg hid, heightsDown_of_le _ _ le_rfl]
      simp

theorem stepEvents_handleBlock (chunk : Chunk) (x z : Int) (y : Nat) :
    (stepEvents chunk x z y).filterMap Event.handleBlock? = [voxelAt chunk x z y] := by
  unfold stepEvents voxelAt
  simp only []
  split_ifs <;> simp [Event.handleBlock?]

theorem loopEvents_handleBlock (chunk : Chunk) (x z : Int) (m n : Nat) :
    (loopEvents chunk x z m n).filterMap Event.handleBlock? =
      (heightsDown m n).map (voxelAt chunk x z) := by
  induction n with
  | zero => rfl
  | succ y ih =>
    unfold loopEvents heightsDown
    split_ifs
    · rfl
    · rw [List.filterMap_append, stepEvents_handleBlock, ih]
      rfl

/-- The events of the scan of a column of a chunk with at least one section, in
order: the reads and the notification for the topmost voxel, the reads of the
start search, and the events of the scan loop from the topmost voxel that is
not air down to the voxel at which the scan stops. -/
theorem scanColumn_log_eq (r : TopdownTileRenderer) (chunk : Chunk) (x z : Int)
    (hH : 0 < r.CHUNK_HEIGHT) :
    (scanColumn r chunk x z).1.log =
      [Event.getBlockID ⟨x, z, ((r.CHUNK_HEIGHT * 16 - 1 : Nat) : Int)⟩,
       Event.getBlockData ⟨x, z, ((r.CHUNK_HEIGHT * 16 - 1 : Nat) : Int)⟩,
       Event.handleBlock (voxelAt chunk x z (r.CHUNK_HEIGHT * 16 - 1)).1
         (voxelAt chunk x z (r.CHUNK_HEIGHT * 16 - 1)).2.1
         (voxelAt chunk x z (r.CHUNK_HEIGHT * 16 - 1)).2.2] ++
      (heightsDown (topNonAir chunk x z (r.CHUNK_HEIGHT * 16 - 1))
        (r.CHUNK_HEIGHT * 16 - 1)).map (fun (h : Nat) => Event.getBlockID ⟨x, z, h⟩) ++
      loopEvents chunk x z (scanColumn r chunk x z).2.stopHeight
        (topNonAir chunk x z (r.CHUNK_HEIGHT * 16 - 1) + 1) := by
  rw [scanColumn_eq r chunk x z hH, scanLoop_log, skipAir_eq]
  rfl

/-- C18, as the code has it. For a column of a chunk with at least one section,
with `top` the topmost height, `start` the height of the topmost voxel that is
not air (`0` if there is none) and `stop` the height at which the scan stops:
the events of the column are the reads and the notification for the voxel at
`top`, then the reads of the ids of the voxels from `top - 1` down to `start`
(the start search of lines 89 to 92, without a notification), then for every
voxel from `start` down to `stop` the two reads, the notification with global
position, id and data and, unless the voxel is air, the query of the render
mode after it. So `handleBlock` is called for the voxel at `top` and for every
voxel from `start` down to `stop`, air and hidden voxels included, and for no
voxel strictly between `start` and `top`, although the ids of those are read. -/
theorem C18_voxels_passed_to_handleBlock (r : TopdownTileRenderer) (chunk : Chunk) (x z : Int)
    (hH : 0 < r.CHUNK_HEIGHT) :
    (scanColumn r chunk x z).1.log =
      [Event.getBlockID ⟨x, z, ((r.CHUNK_HEIGHT * 16 - 1 : Nat) : Int)⟩,
       Event.getBlockData ⟨x, z, ((r.CHUNK_HEIGHT * 16 - 1 : Nat) : Int)⟩,
       Event.handleBlock (voxelAt chunk x z (r.CHUNK_HEIGHT * 16 - 1)).1
         (voxelAt chunk x z (r.CHUNK_HEIGHT * 16 - 1)).2.1
         (voxelAt chunk x z (r.CHUNK_HEIGHT * 16 - 1)).2.2] ++
      (heightsDown (topNonAir chunk x z (r.CHUNK_HEIGHT * 16 - 1))
        (r.CHUNK_HEIGHT * 16 - 1)).map (fun (h : Nat) => Event.getBlockID ⟨x, z, h⟩) ++
      loopEvents chunk x z (scanColumn r chunk x z).2.stopHeight
        (topNonAir chunk x z (r.CHUNK_HEIGHT * 16 - 1) + 1) ∧
    (∀ y : Nat, stepEvents chunk x z y =
      [Event.getBlockID ⟨x, z, y⟩, Event.getBlockData ⟨x, z, y⟩,
       Event.handleBlock ((⟨x, z, y⟩ : LocalBlockPos).toGlobalPos chunk.getPos)
         (chunk.getBlockID ⟨x, z, y⟩) (chunk.getBlockData ⟨x, z, y⟩)] ++
      if chunk.getBlockID ⟨x, z, y⟩ = 0 then []
      else [Event.isHidden ((⟨x, z, y⟩ : LocalBlockPos).toGlobalPos chunk.getPos)
        (chunk.getBlockID ⟨x, z, y⟩) (chunk.getBlockData ⟨x, z, y⟩)]) ∧
    (scanColumn r chunk x z).1.log.filterMap Event.handleBlock? =
      voxelAt chunk x z (r.CHUNK_HEIGHT * 16 - 1) ::
        (heightsDown (scanColumn r chunk x z).2.stopHeight
          (topNonAir chunk x z (r.CHUNK_HEIGHT * 16 - 1) + 1)).map (voxelAt chunk x z) ∧
    (∀ h : Nat, h ∈ heightsDown (scanColumn r chunk x z).2.stopHeight
        (topNonAir chunk x z (r.CHUNK_HEIGHT * 16 - 1) + 1) ↔
      (scanColumn r chunk x z).2.stopHeight ≤ h ∧
        h ≤ topNonAir chunk x z (r.CHUNK_HEIGHT * 16 - 1)) ∧
    (∀ y : Nat, topNonAir chunk x z (r.CHUNK_HEIGHT * 16 - 1) < y →
      y < r.CHUNK_HEIGHT * 16 - 1 →
      Event.getBlockID ⟨x, z, y⟩ ∈ (scanColumn r chunk x z).1.log ∧
      ∀ v ∈ (scanColumn r chunk x z).1.log.filterMap Event.handleBlock?,
        v.1.y ≠ (y : Int)) := by
  have hlog := scanColumn_log_eq r chunk x z hH
  have hhandle : (scanColumn r chunk x z).1.log.filterMap Event.handleBlock? =
      voxelAt chunk x z (r.CHUNK_HEIGHT * 16 - 1) ::
        (heightsDown (scanColumn r chunk x z).2.stopHeight
          (topNonAir chunk x z (r.CHUNK_HEIGHT * 16 - 1) + 1)).map (voxelAt chunk x z) := by
    rw [hlog, List.filterMap_append, List.filterMap_append, loopEvents_handleBlock,
      filterMap_eq_nil_of_forall Event.handleBlock? (List.map _ _) (fun e he => by
        obtain ⟨h, _, rfl⟩ := List.mem_map.1 he
        rfl)]
    simp [Event.handleBlock?]
  refine ⟨hlog, fun y => rfl, hhandle, fun h => ?_, fun y h1 h2 => ⟨?_, ?_⟩⟩
  · rw [mem_heightsDown]
    omega
  · rw [hlog]
    apply List.mem_append_left
    apply List.mem_append_right
    exact List.mem_map.2 ⟨y, (mem_heightsDown _ _ _).2 ⟨by omega, h2⟩, rfl⟩
  · rw [hhandle]
    intro v hv
    rcases List.mem_cons.1 hv with hv | hv
    · subst hv
      simp only [voxelAt, LocalBlockPos.toGlobalPos]
      omega
    · obtain ⟨h, hh, rfl⟩ := List.mem_map.1 hv
      rw [mem_heightsDown] at hh
      simp only [voxelAt, LocalBlockPos.toGlobalPos]
      omega

set_option maxRecDepth 100000 in
/-- Witness of C18: stone (id 1) at height 253 below two air voxels; `handleBlock`
is called for the voxel at height 255 and for the stone. -/
theorem C18_voxels_passed_to_handleBlock_witness :
    ((scanColumn (exampleRenderer false 1 (fun _ => none))
      (exampleChunk [(0, 0), (0, 0), (1, 0)]) 3 5).1.log.filterMap Event.handleBlock?).length
      = 2 :=
  (congrArg List.length
    (C18_voxels_passed_to_handleBlock (exampleRenderer false 1 (fun _ => none))
      (exampleChunk [(0, 0), (0, 0), (1, 0)]) 3 5 (by decide)).2.2.1).trans (by decide)

set_option maxRecDepth 100000 in
/-- C18, counterexample to the claim as stated. A column with stone (id 1) at
height 253 below two air voxels: the scan reads the block ids at the heights
255, 254, 253 and again 253, and calls `handleBlock` for the heights 255 and
253 only; the air voxel at height 254 is read and not passed to `handleBlock`. -/
theorem C18_start_search_reads_without_notification :
    (scanColumn (exampleRenderer false 1 (fun _ => none))
      (exampleChunk [(0, 0), (0, 0), (1, 0)]) 3 5).1.log.filterMap
      (fun e => e.getBlockID?.map (fun p => p.y)) = [255, 254, 253, 253] ∧
    (scanColumn (exampleRenderer false 1 (fun _ => none))
      (exampleChunk [(0, 0), (0, 0), (1, 0)]) 3 5).1.log.filterMap
      (fun e => e.handleBlock?.map (fun v => (v.1.y, v.2.1, v.2.2))) =
      [(255, 0, 0), (253, 1, 0)] := by
  decide

end Mapcrafter

namespace Mapcrafter

/-! ## Claim C12 -/

/-- Rendering a column whose topmost voxel that is not air is not hidden, not
full water and not transparent: one sample without `has_full_water`, and one
`alphaBlit` of its block image onto the tile. -/
theorem renderColumn_solid_top (r : TopdownTileRenderer) (chunk : Chunk) (x z : Int)
    (y0 : Nat) (hy0 : y0 < r.CHUNK_HEIGHT * 16)
    (hair : ∀ y : Nat, y0 < y → y < r.CHUNK_HEIGHT * 16 → chunk.getBlockID ⟨x, z, y⟩ = 0)
    (h0 : chunk.getBlockID ⟨x, z, y0⟩ ≠ 0)
    (hhidden : r.render_mode.isHidden ((⟨x, z, y0⟩ : LocalBlockPos).toGlobalPos chunk.getPos)
      (chunk.getBlockID ⟨x, z, y0⟩) (chunk.getBlockData ⟨x, z, y0⟩) = false)
    (hwater : isFullWater (chunk.getBlockID ⟨x, z, y0⟩) (chunk.getBlockData ⟨x, z, y0⟩) = false)
    (hsolid : r.images.isBlockTransparent (chunk.getBlockID ⟨x, z, y0⟩)
      (chunk.getBlockData ⟨x, z, y0⟩) = false) :
    (scanColumn r chunk x z).1.blocks =
      [makeRenderBlock r chunk ((⟨x, z, y0⟩ : LocalBlockPos).toGlobalPos chunk.getPos)
        (chunk.getBlockID ⟨x, z, y0⟩) (chunk.getBlockData ⟨x, z, y0⟩) false] ∧
    ∀ (ts dx dz : Int) (st : RenderState),
      (renderColumn r chunk ts dx dz x z st).log.filterMap Event.tileBlit? =
        st.log.filterMap Event.tileBlit? ++
          [(blockImage r chunk ((⟨x, z, y0⟩ : LocalBlockPos).toGlobalPos chunk.getPos)
            (chunk.getBlockID ⟨x, z, y0⟩) (chunk.getBlockData ⟨x, z, y0⟩),
            dx + x * ts, dz + z * ts)] := by
  have hH : 0 < r.CHUNK_HEIGHT := by omega
  have htop := fun log => skipAir_top chunk x z y0 (r.CHUNK_HEIGHT * 16 - 1) log (by omega)
    (fun y' h1 h2 => hair y' h1 (by omega)) h0
  have hscan := scanColumn_eq r chunk x z hH
  rw [htop] at hscan
  have hsolidLoop := scanLoop_solid r chunk x z y0
    { initialScan chunk x z ((r.CHUNK_HEIGHT * 16 - 1 : Nat) : Int) with
      log := (skipAir chunk x z (r.CHUNK_HEIGHT * 16 - 1)
        (chunk.getBlockID ⟨x, z, ((r.CHUNK_HEIGHT * 16 - 1 : Nat) : Int)⟩)
        (initialScan chunk x z ((r.CHUNK_HEIGHT * 16 - 1 : Nat) : Int)).log).2 }
    h0 hhidden hwater hsolid
  rw [← hscan] at hsolidLoop
  have hblocks : (scanColumn r chunk x z).1.blocks =
      [makeRenderBlock r chunk ((⟨x, z, y0⟩ : LocalBlockPos).toGlobalPos chunk.getPos)
        (chunk.getBlockID ⟨x, z, y0⟩) (chunk.getBlockData ⟨x, z, y0⟩) false] := by
    rw [hsolidLoop.1]; rfl
  refine ⟨hblocks, fun ts dx dz st => ?_⟩
  unfold renderColumn
  simp only [hblocks, compositeColumn_eq_foldl, List.reverse_singleton, List.foldl_cons,
    List.foldl_nil, drawRenderBlock_tileBlits, List.filterMap_append,
    scanColumn_no_tileBlit]
  simp [makeRenderBlock]

/-- Two nested loops whose body appends the events `g x z` of one kind append
the events of all iterations, in order. -/
theorem foldl_foldl_log_filterMap {β : Type} (f : Nat → Nat → RenderState → RenderState)
    (F : Event → Option β) (g : Nat → Nat → β) (xs zs : List Nat)
    (hf : ∀ x ∈ xs, ∀ z ∈ zs, ∀ st,
      (f x z st).log.filterMap F = st.log.filterMap F ++ [g x z]) (st : RenderState) :
    (xs.foldl (fun st (x : Nat) => zs.foldl (fun st (z : Nat) => f x z st) st) st).log.filterMap F
      = st.log.filterMap F ++
        (xs.flatMap fun (x : Nat) => zs.map fun (z : Nat) => (x, z)).map (fun p => g p.1 p.2) := by
  have inner : ∀ (x : Nat), x ∈ xs → ∀ (l : List Nat), (∀ z ∈ l, z ∈ zs) → ∀ st : RenderState,
      (l.foldl (fun st (z : Nat) => f x z st) st).log.filterMap F =
        st.log.filterMap F ++ l.map (fun z => g x z) := by
    intro x hx l
    induction l with
    | nil => intro _ st; simp
    | cons z l ih =>
      intro hl st
      rw [List.foldl_cons, ih (fun z' hz' => hl z' (List.mem_cons_of_mem _ hz')),
        hf x hx z (hl z (List.mem_cons_self _ _))]
      simp
  have outer : ∀ (l : List Nat), (∀ x ∈ l, x ∈ xs) → ∀ st : RenderState,
      (l.foldl (fun st (x : Nat) => zs.foldl (fun st (z : Nat) => f x z st) st) st).log.filterMap
          F =
        st.log.filterMap F ++
          (l.flatMap fun (x : Nat) => zs.map fun (z : Nat) => (x, z)).map
            (fun p => g p.1 p.2) := by
    intro l
    induction l with
    | nil => intro _ st; simp
    | cons x l ih =>
      intro hl st
      rw [List.foldl_cons, ih (fun x' hx' => hl x' (List.mem_cons_of_mem _ hx')),
        inner x (hl x (List.mem_cons_self _ _)) zs (fun _ h => h)]
      simp [List.flatMap_cons, List.map_append, Function.comp_def]
  exact outer xs (fun _ h => h) st

set_option maxRecDepth 100000 in
theorem gridColumns_length : gridColumns.length = 256 := by decide

theorem Event.tileBlit_of_not_blit (e : Event) (h : e.isBlit = false) : e.tileBlit? = none := by
  cases e <;> simp_all [Event.isBlit, Event.tileBlit?]

theorem tileChunks_of_width_one (r : TopdownTileRenderer) (h : r.tile_width = 1) :
    tileChunks r = [(0, 0)] := by
  unfold tileChunks
  rw [h]
  rfl

/-- The `alphaBlit` calls of `renderChunk` for a chunk all of whose columns have a
topmost voxel that is not air, not hidden, not full water and not transparent:
one per column, in loop order. -/
theorem renderChunk_solid_tops (r : TopdownTileRenderer) (chunk : Chunk) (top : Nat → Nat → Nat)
    (hcol : ∀ x z : Nat, x < 16 → z < 16 →
      top x z < r.CHUNK_HEIGHT * 16 ∧
      (∀ y : Nat, top x z < y → y < r.CHUNK_HEIGHT * 16 → chunk.getBlockID ⟨x, z, y⟩ = 0) ∧
      chunk.getBlockID ⟨x, z, top x z⟩ ≠ 0 ∧
      r.render_mode.isHidden ((⟨x, z, top x z⟩ : LocalBlockPos).toGlobalPos chunk.getPos)
        (chunk.getBlockID ⟨x, z, top x z⟩) (chunk.getBlockData ⟨x, z, top x z⟩) = false ∧
      isFullWater (chunk.getBlockID ⟨x, z, top x z⟩) (chunk.getBlockData ⟨x, z, top x z⟩)
        = false ∧
      r.images.isBlockTransparent (chunk.getBlockID ⟨x, z, top x z⟩)
        (chunk.getBlockData ⟨x, z, top x z⟩) = false)
    (dx dz : Int) (st : RenderState) :
    (renderChunk r chunk dx dz st).log.filterMap Event.tileBlit? =
      st.log.filterMap Event.tileBlit? ++
        gridColumns.map (fun p =>
          (blockImage r chunk
            ((⟨p.1, p.2, top p.1 p.2⟩ : LocalBlockPos).toGlobalPos chunk.getPos)
            (chunk.getBlockID ⟨p.1, p.2, top p.1 p.2⟩)
            (chunk.getBlockData ⟨p.1, p.2, top p.1 p.2⟩),
            dx + (p.1 : Int) * r.images.getTextureSize,
            dz + (p.2 : Int) * r.images.getTextureSize)) := by
  unfold renderChunk gridColumns
  exact foldl_foldl_log_filterMap
    (fun x z st => renderColumn r chunk r.images.getTextureSize dx dz x z st) Event.tileBlit?
    (fun x z => (blockImage r chunk
      ((⟨x, z, top x z⟩ : LocalBlockPos).toGlobalPos chunk.getPos)
      (chunk.getBlockID ⟨x, z, top x z⟩) (chunk.getBlockData ⟨x, z, top x z⟩),
      dx + (x : Int) * r.images.getTextureSize, dz + (z : Int) * r.images.getTextureSize))
    (List.range 16) (List.range 16)
    (fun x hx z hz st => by
      obtain ⟨h1, h2, h3, h4, h5, h6⟩ := hcol x z (List.mem_range.1 hx) (List.mem_range.1 hz)
      exact (renderColumn_solid_top r chunk x z (top x z) h1 h2 h3 h4 h5 h6).2 _ dx dz st)
    st

/-- The `alphaBlit` calls on the tile of a tile of one chunk whose chunk is
present and has in every column the block `(id, data)` as topmost voxel that
is not air, not hidden, no biome block, not full water and not transparent. -/
theorem renderChunks_uniform_tileBlits (r : TopdownTileRenderer) (tile_pos : TilePos)
    (st : RenderState) (chunk : Chunk) (id data : Nat) (top : Nat → Nat → Nat)
    (htw : r.tile_width = 1) (hlen : r.overlays.length = st.overlay_tiles.length)
    (hchunk : r.world (chunkPosOf r tile_pos 0 0) = some chunk)
    (hcol : ∀ x z : Nat, x < 16 → z < 16 →
      top x z < r.CHUNK_HEIGHT * 16 ∧
      (∀ y : Nat, top x z < y → y < r.CHUNK_HEIGHT * 16 → chunk.getBlockID ⟨x, z, y⟩ = 0) ∧
      chunk.getBlockID ⟨x, z, top x z⟩ = id ∧ chunk.getBlockData ⟨x, z, top x z⟩ = data ∧
      r.render_mode.isHidden ((⟨x, z, top x z⟩ : LocalBlockPos).toGlobalPos chunk.getPos)
        id data = false)
    (hid : id ≠ 0) (hbiome : r.isBiomeBlock id data = false)
    (hwater : isFullWater id data = false)
    (hsolid : r.images.isBlockTransparent id data = false) :
    (renderChunks r tile_pos (sizeTiles r st)).log.filterMap Event.tileBlit? =
      st.log.filterMap Event.tileBlit? ++
        gridColumns.map (fun p =>
          (r.drawHardcodeOverlay (r.images.getBlock id data)
            ((⟨p.1, p.2, top p.1 p.2⟩ : LocalBlockPos).toGlobalPos chunk.getPos) id data,
            (p.1 : Int) * r.images.getTextureSize, (p.2 : Int) * r.images.getTextureSize)) := by
  have hcol' : ∀ x z : Nat, x < 16 → z < 16 →
      top x z < r.CHUNK_HEIGHT * 16 ∧
      (∀ y : Nat, top x z < y → y < r.CHUNK_HEIGHT * 16 → chunk.getBlockID ⟨x, z, y⟩ = 0) ∧
      chunk.getBlockID ⟨x, z, top x z⟩ ≠ 0 ∧
      r.render_mode.isHidden ((⟨x, z, top x z⟩ : LocalBlockPos).toGlobalPos chunk.getPos)
        (chunk.getBlockID ⟨x, z, top x z⟩) (chunk.getBlockData ⟨x, z, top x z⟩) = false ∧
      isFullWater (chunk.getBlockID ⟨x, z, top x z⟩) (chunk.getBlockData ⟨x, z, top x z⟩)
        = false ∧
      r.images.isBlockTransparent (chunk.getBlockID ⟨x, z, top x z⟩)
        (chunk.getBlockData ⟨x, z, top x z⟩) = false := by
    intro x z hx hz
    obtain ⟨h1, h2, h3, h4, h5⟩ := hcol x z hx hz
    rw [h3, h4]
    exact ⟨h1, h2, hid, h5, hwater, hsolid⟩
  obtain ⟨ev, hev, hspec⟩ := sizeTiles_log_spec r st hlen
  rw [renderChunks_eq_foldl, tileChunks_of_width_one r htw]
  simp only [List.foldl_cons, List.foldl_nil]
  unfold renderTileChunk
  simp only [hchunk]
  rw [renderChunk_solid_tops r chunk top hcol', hev]
  simp only [List.filterMap_append, List.filterMap_cons, List.filterMap_nil,
    Event.tileBlit?, filterMap_eq_nil_of_forall Event.tileBlit? ev
      (fun e he => Event.tileBlit_of_not_blit e (hspec e he).2.1),
    List.append_nil, mul_zero, zero_add]
  congr 1
  apply List.map_congr_left
  intro p hp
  have hp' : p.1 < 16 ∧ p.2 < 16 := by
    unfold gridColumns at hp
    simp only [List.mem_flatMap, List.mem_map, List.mem_range] at hp
    obtain ⟨x, hx, z, hz, rfl⟩ := hp
    exact ⟨hx, hz⟩
  obtain ⟨_, _, h3, h4, _⟩ := hcol p.1 p.2 hp'.1 hp'.2
  simp only [blockImage, h3, h4, hbiome, Bool.false_eq_true, if_false]

/-- C12, as the code has it. A tile of one chunk (`tile_width = 1`) whose chunk is
present and has in every one of its 256 columns the same block `(id, data)` as
topmost voxel that is not air, at the height `top x z`, where the block is not
hidden, no biome block, not full water and not transparent: `renderTile`
completes, the tile receives exactly 256 `alphaBlit` calls, one per column and
in loop order, the one of column `(x, z)` at `(x * texture_size,
z * texture_size)` with the image `getBlock(id, data)` after the hardcode overlay
was drawn onto it for the position of the topmost voxel of that column; every
sample has `has_full_water = false`; and the 256 images are the same image when
the hardcode overlay does not depend on the position. -/
theorem C12_uniform_surface_chunk (r : TopdownTileRenderer) (tile_pos : TilePos)
    (st : RenderState) (chunk : Chunk) (id data : Nat) (top : Nat → Nat → Nat)
    (htw : r.tile_width = 1) (hlen : r.overlays.length = st.overlay_tiles.length)
    (hchunk : r.world (chunkPosOf r tile_pos 0 0) = some chunk)
    (hcol : ∀ x z : Nat, x < 16 → z < 16 →
      top x z < r.CHUNK_HEIGHT * 16 ∧
      (∀ y : Nat, top x z < y → y < r.CHUNK_HEIGHT * 16 → chunk.getBlockID ⟨x, z, y⟩ = 0) ∧
      chunk.getBlockID ⟨x, z, top x z⟩ = id ∧ chunk.getBlockData ⟨x, z, top x z⟩ = data ∧
      r.render_mode.isHidden ((⟨x, z, top x z⟩ : LocalBlockPos).toGlobalPos chunk.getPos)
        id data = false)
    (hid : id ≠ 0) (hbiome : r.isBiomeBlock id data = false)
    (hwater : isFullWater id data = false)
    (hsolid : r.images.isBlockTransparent id data = false) :
    renderTile r tile_pos st = Except.ok (renderChunks r tile_pos (sizeTiles r st)) ∧
    (renderChunks r tile_pos (sizeTiles r st)).log.filterMap Event.tileBlit? =
      st.log.filterMap Event.tileBlit? ++
        gridColumns.map (fun p =>
          (r.drawHardcodeOverlay (r.images.getBlock id data)
            ((⟨p.1, p.2, top p.1 p.2⟩ : LocalBlockPos).toGlobalPos chunk.getPos) id data,
            (p.1 : Int) * r.images.getTextureSize, (p.2 : Int) * r.images.getTextureSize)) ∧
    gridColumns.length = 256 ∧
    (∀ x z : Nat, x < 16 → z < 16 →
      ∀ b ∈ (scanColumn r chunk x z).1.blocks, b.has_full_water = false) ∧
    ((∀ (image : RGBAImage) (p q : BlockPos),
        r.drawHardcodeOverlay image p id data = r.drawHardcodeOverlay image q id data) →
      gridColumns.map (fun p =>
        r.drawHardcodeOverlay (r.images.getBlock id data)
          ((⟨p.1, p.2, top p.1 p.2⟩ : LocalBlockPos).toGlobalPos chunk.getPos) id data) =
        List.replicate 256
          (r.drawHardcodeOverlay (r.images.getBlock id data) ⟨0, 0, 0⟩ id data)) := by
  have hcol' : ∀ x z : Nat, x < 16 → z < 16 →
      top x z < r.CHUNK_HEIGHT * 16 ∧
      (∀ y : Nat, top x z < y → y < r.CHUNK_HEIGHT * 16 → chunk.getBlockID ⟨x, z, y⟩ = 0) ∧
      chunk.getBlockID ⟨x, z, top x z⟩ ≠ 0 ∧
      r.render_mode.isHidden ((⟨x, z, top x z⟩ : LocalBlockPos).toGlobalPos chunk.getPos)
        (chunk.getBlockID ⟨x, z, top x z⟩) (chunk.getBlockData ⟨x, z, top x z⟩) = false ∧
      isFullWater (chunk.getBlockID ⟨x, z, top x z⟩) (chunk.getBlockData ⟨x, z, top x z⟩)
        = false ∧
      r.images.isBlockTransparent (chunk.getBlockID ⟨x, z, top x z⟩)
        (chunk.getBlockData ⟨x, z, top x z⟩) = false := by
    intro x z hx hz
    obtain ⟨h1, h2, h3, h4, h5⟩ := hcol x z hx hz
    rw [h3, h4]
    exact ⟨h1, h2, hid, h5, hwater, hsolid⟩
  refine ⟨?_, renderChunks_uniform_tileBlits r tile_pos st chunk id data top htw hlen hchunk hcol
    hid hbiome hwater hsolid, gridColumns_length, fun x z hx hz b hb => ?_, fun hpos => ?_⟩
  · unfold renderTile
    rw [if_neg (by simp [hlen])]
  · obtain ⟨h1, h2, h3, h4, h5, h6⟩ := hcol' x z hx hz
    rw [(renderColumn_solid_top r chunk x z (top x z) h1 h2 h3 h4 h5 h6).1] at hb
    rw [List.mem_singleton.1 hb]
    rfl
  · rw [← gridColumns_length, List.eq_replicate_iff]
    refine ⟨by simp, fun b hb => ?_⟩
    obtain ⟨p, _, rfl⟩ := List.mem_map.1 hb
    exact hpos _ _ _

set_option maxRecDepth 100000 in
/-- Witness of C12: a chunk with stone (id 1) at height 255 in every column and
the example renderer, whose hardcode overlay leaves the block image as it is;
the 256 images are the stone image. -/
theorem C12_uniform_surface_chunk_witness :
    gridColumns.map (fun p =>
      (exampleRenderer false 1 (fun _ => some (exampleChunk [(1, 0)]))).drawHardcodeOverlay
        ((exampleRenderer false 1 (fun _ => some (exampleChunk [(1, 0)]))).images.getBlock 1 0)
        ((⟨p.1, p.2, ((fun _ _ => 255 : Nat → Nat → Nat) p.1 p.2 : Nat)⟩ :
          LocalBlockPos).toGlobalPos (exampleChunk [(1, 0)]).getPos) 1 0) =
      List.replicate 256
        ((exampleRenderer false 1 (fun _ => some (exampleChunk [(1, 0)]))).drawHardcodeOverlay
          ((exampleRenderer false 1 (fun _ => some (exampleChunk [(1, 0)]))).images.getBlock 1 0)
          ⟨0, 0, 0⟩ 1 0) :=
  (C12_uniform_surface_chunk (exampleRenderer false 1 (fun _ => some (exampleChunk [(1, 0)])))
    ⟨0, 0⟩ ⟨noImage, [], []⟩ (exampleChunk [(1, 0)]) 1 0 (fun _ _ => 255) rfl rfl rfl
    (fun x z _ _ => ⟨(by decide : (255 : Nat) < 16 * 16), fun y h1 h2 => by
      have h3 : 255 < y := h1
      have h4 : y < 16 * 16 := h2
      omega, rfl, rfl, rfl⟩)
    (by decide) rfl rfl rfl).2.2.2.2 (fun _ _ _ => rfl)

set_option maxRecDepth 100000 in
/-- C12, counterexample to the claim as stated. A chunk with stone (id 1) at
height 255 in every column, rendered as a tile of one chunk with a hardcode
overlay that adds the `x` coordinate of the block to the pixels of the block
image: `renderTile` completes, the tile receives 256 `alphaBlit` calls at the
grid offsets, and the image of the column `(0, 0)` (first call, offset
`(0, 0)`) differs from the one of the column `(1, 0)` (17th call, offset
`(1, 0)`). -/
theorem C12_blitted_images_differ_by_position :
    renderTile (exampleRendererTint (exampleChunk [(1, 0)])) ⟨0, 0⟩ ⟨noImage, [], []⟩ =
      Except.ok (renderChunks (exampleRendererTint (exampleChunk [(1, 0)])) ⟨0, 0⟩
        (sizeTiles (exampleRendererTint (exampleChunk [(1, 0)])) ⟨noImage, [], []⟩)) ∧
    (fun (calls : List (RGBAPixel × Int × Int)) => (calls.length, calls[0]?, calls[16]?))
      (((renderChunks (exampleRendererTint (exampleChunk [(1, 0)])) ⟨0, 0⟩
        (sizeTiles (exampleRendererTint (exampleChunk [(1, 0)])) ⟨noImage, [], []⟩)).log.filterMap
          Event.tileBlit?).map
        (fun (t : RGBAImage × Int × Int) => (t.1.getPixel 0 0, t.2.1, t.2.2))) =
      (256, some (0xff000100, 0, 0), some (0xff000101, 1, 0)) := by
  refine ⟨rfl, ?_⟩
  rw [renderChunks_uniform_tileBlits (exampleRendererTint (exampleChunk [(1, 0)])) ⟨0, 0⟩
    ⟨noImage, [], []⟩ (exampleChunk [(1, 0)]) 1 0 (fun _ _ => 255) rfl rfl rfl
    (fun x z _ _ => ⟨(by decide : (255 : Nat) < 16 * 16), fun y h1 h2 => by
      have h3 : 255 < y := h1
      have h4 : y < 16 * 16 := h2
      omega, rfl, rfl, rfl⟩)
    (by decide) rfl rfl rfl]
  decide

end Mapcrafter

namespace Mapcrafter

/-! ## Claim C19 -/

/-- Legacy mode: what an iteration of the scan loop does to the samples and to
the flag `has_full_water`. -/
theorem scanStep_legacy_flag (r : TopdownTileRenderer) (chunk : Chunk) (x z : Int)
    (y : Nat) (st : ScanState) (hlegacy : r.use_preblit_water = false) :
    ∃ new, (scanStep r chunk x z y st).1.blocks = st.blocks ++ new ∧
      ((scanStep r chunk x z y st).1.has_full_water = true ↔
        st.has_full_water = true ∨ visibleFullWater r chunk x z y = true) ∧
      new.length ≤ 1 ∧
      ∀ b ∈ new, b.pos.y = (y : Int) ∧
        b.has_full_water = (scanStep r chunk x z y st).1.has_full_water := by
  rw [scanStep_legacy r chunk x z y st hlegacy]
  unfold visibleFullWater
  split_ifs with h0 hh hw hin
  · refine ⟨[], by simp, ?_, by simp, by simp⟩
    simp [h0, isFullWater]
  · refine ⟨[], by simp, ?_, by simp, by simp⟩
    simp [hh]
  · refine ⟨[], by simp, ?_, by simp, by simp⟩
    simp [hw, hh]
  · refine ⟨[_], appendSample_blocks _ _ _ _ _ _ _, ?_, by simp, ?_⟩
    · unfold appendSample
      split_ifs <;> simp [hw, hh]
    · unfold appendSample
      split_ifs <;> simp [makeRenderBlock, LocalBlockPos.toGlobalPos]
  · refine ⟨[_], appendSample_blocks _ _ _ _ _ _ _, ?_, by simp, ?_⟩
    · unfold appendSample
      split_ifs <;> simp [hw]
    · unfold appendSample
      split_ifs <;> simp [makeRenderBlock, LocalBlockPos.toGlobalPos]

/-- Legacy mode: the samples the scan loop appends have decreasing heights below
the height it is entered at, and a sample carries `has_full_water` exactly when
the flag was set on entry or a full water voxel that is not hidden lies between
the entry height and the sample. -/
theorem scanLoop_legacy_flag (r : TopdownTileRenderer) (chunk : Chunk) (x z : Int)
    (hlegacy : r.use_preblit_water = false) (n : Nat) (st : ScanState) :
    ∃ rest, (scanLoop r chunk x z n st).1.blocks = st.blocks ++ rest ∧
      rest.Pairwise (fun a b => b.pos.y < a.pos.y) ∧
      ∀ b ∈ rest, b.pos.y < (n : Int) ∧
        (b.has_full_water = true ↔ st.has_full_water = true ∨
          ∃ y : Nat, b.pos.y ≤ (y : Int) ∧ y < n ∧ visibleFullWater r chunk x z y = true) := by
  induction n generalizing st with
  | zero => exact ⟨[], by simp [scanLoop], List.Pairwise.nil, by simp⟩
  | succ y ih =>
    obtain ⟨new, h1, h2, h3, h4⟩ := scanStep_legacy_flag r chunk x z y st hlegacy
    have hnew : ∀ b ∈ new, b.pos.y < ((y + 1 : Nat) : Int) ∧
        (b.has_full_water = true ↔ st.has_full_water = true ∨
          ∃ y' : Nat, b.pos.y ≤ (y' : Int) ∧ y' < y + 1 ∧
            visibleFullWater r chunk x z y' = true) := by
      intro b hb
      obtain ⟨hp, hf⟩ := h4 b hb
      refine ⟨by rw [hp]; push_cast; omega, ?_⟩
      rw [hf, h2]
      constructor
      · rintro (h | h)
        · exact Or.inl h
        · exact Or.inr ⟨y, by rw [hp], by omega, h⟩
      · rintro (h | ⟨y', hy1, hy2, hy3⟩)
        · exact Or.inl h
        · have : y' = y := by rw [hp] at hy1; omega
          subst this
          exact Or.inr hy3
    have hpair : new.Pairwise (fun a b => b.pos.y < a.pos.y) := by
      match new, h3 with
      | [], _ => exact List.Pairwise.nil
      | [a], _ => exact List.pairwise_singleton _ _
      | _ :: _ :: _, h => simp at h
    unfold scanLoop
    rcases hstep : scanStep r chunk x z y st with ⟨st', _ | e⟩
    · rw [hstep] at h1 h2 h4
      dsimp only at h1 h2 h4 ⊢
      obtain ⟨rest, h5, h6, h7⟩ := ih st'
      refine ⟨new ++ rest, by rw [h5, h1, List.append_assoc], ?_, ?_⟩
      · rw [List.pairwise_append]
        refine ⟨hpair, h6, fun a ha b hb => ?_⟩
        rw [(h4 a ha).1]
        exact (h7 b hb).1
      · intro b hb
        rcases List.mem_append.1 hb with hb | hb
        · exact hnew b hb
        · obtain ⟨hp, hf⟩ := h7 b hb
          refine ⟨by push_cast; omega, ?_⟩
          rw [hf, h2]
          constructor
          · rintro ((h | h) | ⟨y', hy1, hy2, hy3⟩)
            · exact Or.inl h
            · exact Or.inr ⟨y, by omega, by omega, h⟩
            · exact Or.inr ⟨y', hy1, by omega, hy3⟩
          · rintro (h | ⟨y', hy1, hy2, hy3⟩)
            · exact Or.inl (Or.inl h)
            · by_cases hy : y' = y
              · subst hy
                exact Or.inl (Or.inr hy3)
              · exact Or.inr ⟨y', hy1, by omega, hy3⟩
    · exact ⟨new, by rw [hstep] at h1; exact h1, hpair, hnew⟩

theorem truncateWater_flag (r : TopdownTileRenderer) (blocks : List RenderBlock) :
    ∀ b ∈ truncateWater r blocks, ∃ b' ∈ blocks, b.has_full_water = b'.has_full_water := by
  induction blocks with
  | nil => simp [truncateWater]
  | cons current rest ih =>
    cases rest with
    | nil =>
      intro b hb
      simp only [truncateWater, List.mem_singleton] at hb
      exact ⟨current, List.mem_singleton.2 rfl, by rw [hb]; rfl⟩
    | cons next rest =>
      intro b hb
      unfold truncateWater at hb
      split_ifs at hb
      · rcases List.mem_cons.1 hb with h | h
        · exact ⟨current, List.mem_cons_self _ _, by rw [h]; rfl⟩
        · exact ⟨b, List.mem_cons_of_mem _ h, rfl⟩
      · obtain ⟨b', h1, h2⟩ := ih b hb
        exact ⟨b', List.mem_cons_of_mem _ h1, h2⟩

/-- Preblit mode: an iteration of the scan loop never sets `has_full_water`,
neither in the state nor in a sample. -/
theorem scanStep_preblit_flag (r : TopdownTileRenderer) (chunk : Chunk) (x z : Int)
    (y : Nat) (st : ScanState) (hpre : r.use_preblit_water = true)
    (hst : st.has_full_water = false) (hblocks : ∀ b ∈ st.blocks, b.has_full_water = false) :
    (scanStep r chunk x z y st).1.has_full_water = false ∧
    ∀ b ∈ (scanStep r chunk x z y st).1.blocks, b.has_full_water = false := by
  have happend : ∀ (g : BlockPos) (id data : Nat) (st0 : ScanState),
      st0.has_full_water = false → (∀ b ∈ st0.blocks, b.has_full_water = false) →
      (appendSample r chunk g id data y st0).1.has_full_water = false ∧
      ∀ b ∈ (appendSample r chunk g id data y st0).1.blocks, b.has_full_water = false := by
    intro g id data st0 h1 h2
    constructor
    · unfold appendSample
      split_ifs <;> exact h1
    · rw [appendSample_blocks]
      intro b hb
      rcases List.mem_append.1 hb with hb | hb
      · exact h2 b hb
      · rw [List.mem_singleton.1 hb]
        exact h1
  by_cases h0 : chunk.getBlockID ⟨x, z, y⟩ = 0
  · rw [scanStep_air r chunk x z y st h0]
    exact ⟨hst, hblocks⟩
  · by_cases hh : r.render_mode.isHidden ((⟨x, z, y⟩ : LocalBlockPos).toGlobalPos chunk.getPos)
        (chunk.getBlockID ⟨x, z, y⟩) (chunk.getBlockData ⟨x, z, y⟩) = true
    · rw [scanStep_hidden r chunk x z y st h0 hh]
      exact ⟨hst, hblocks⟩
    · rw [scanStep_preblit r chunk x z y st hpre h0 (Bool.eq_false_iff.2 hh)]
      split_ifs
      · refine ⟨hst, fun b hb => ?_⟩
        obtain ⟨b', hb', hf⟩ := truncateWater_flag r st.blocks b hb
        rw [hf]
        exact hblocks b' hb'
      · exact happend _ _ _ _ hst hblocks
      · exact happend _ _ _ _ hst hblocks

/-- Preblit mode: no sample of the scan loop carries `has_full_water`. -/
theorem scanLoop_preblit_flag (r : TopdownTileRenderer) (chunk : Chunk) (x z : Int)
    (hpre : r.use_preblit_water = true) (n : Nat) (st : ScanState)
    (hst : st.has_full_water = false) (hblocks : ∀ b ∈ st.blocks, b.has_full_water = false) :
    ∀ b ∈ (scanLoop r chunk x z n st).1.blocks, b.has_full_water = false := by
  induction n generalizing st with
  | zero => simpa [scanLoop] using hblocks
  | succ y ih =>
    obtain ⟨h1, h2⟩ := scanStep_preblit_flag r chunk x z y st hpre hst hblocks
    unfold scanLoop
    rcases hstep : scanStep r chunk x z y st with ⟨st', _ | e⟩
    · rw [hstep] at h1 h2
      exact ih st' h1 h2
    · rw [hstep] at h2
      exact h2

theorem overlayEvents_not_base (rb : RenderBlock) (ix iy : Int) (os : List OverlayRenderMode)
    (i : Nat) (h : rb.has_full_water = false) :
    ∀ e ∈ overlayEvents rb ix iy os i, e.isBasePath = false := by
  induction os generalizing i with
  | nil => simp [overlayEvents]
  | cons o os ih =>
    intro e he
    unfold overlayEvents at he
    rcases List.mem_append.1 he with he | he
    · unfold overlayEventsOf at he
      simp only [h, Bool.false_and, Bool.false_eq_true, if_false, List.mem_singleton] at he
      rw [he]
      rfl
    · exact ih (i + 1) e he

/-- A loop over the elements of a list whose body, for the elements of the list,
only appends events with a property only appends events with that property. -/
theorem foldl_log_append_mem {α : Type} (f : RenderState → α → RenderState) (P : Event → Prop)
    (l : List α) (hf : ∀ st, ∀ a ∈ l, ∃ ev, (f st a).log = st.log ++ ev ∧ ∀ e ∈ ev, P e)
    (st : RenderState) :
    ∃ ev, (l.foldl f st).log = st.log ++ ev ∧ ∀ e ∈ ev, P e := by
  induction l generalizing st with
  | nil => exact ⟨[], by simp, by simp⟩
  | cons a l ih =>
    obtain ⟨ev1, h1, h2⟩ := hf st a (List.mem_cons_self _ _)
    obtain ⟨ev2, h3, h4⟩ := ih (fun st b hb => hf st b (List.mem_cons_of_mem _ hb)) (f st a)
    refine ⟨ev1 ++ ev2, by rw [List.foldl_cons, h3, h1, List.append_assoc], ?_⟩
    intro e he
    rcases List.mem_append.1 he with h | h
    · exact h2 e h
    · exact h4 e h

theorem pairwise_of_all_false (blocks : List RenderBlock)
    (h : ∀ b ∈ blocks, b.has_full_water = false) :
    blocks.Pairwise (fun a b => a.has_full_water = true → b.has_full_water = true) := by
  induction blocks with
  | nil => exact List.Pairwise.nil
  | cons a l ih =>
    refine List.Pairwise.cons (fun b _ ha => ?_) (ih (fun b hb => h b (List.mem_cons_of_mem _ hb)))
    rw [h a (List.mem_cons_self _ _)] at ha
    exact absurd ha (by simp)

/-- C19. For every sample of a column, `has_full_water` is set exactly when the
renderer is in the legacy water mode and a full water voxel that is not hidden
lies at or above the voxel of the sample among the voxels the scan loop
visited (those at or below the topmost voxel that is not air). Along the
sample sequence the flag stays set once it is set. In the preblit water mode no
sample has the flag, and drawing the column makes none of the two `alphablit`
calls of the branch for `isBase()` overlays. -/
theorem C19_has_full_water_characterised (r : TopdownTileRenderer) (chunk : Chunk)
    (x z : Int) :
    (∀ b ∈ (scanColumn r chunk x z).1.blocks,
      (b.has_full_water = true ↔
        r.use_preblit_water = false ∧
        ∃ y : Nat, b.pos.y ≤ (y : Int) ∧ y ≤ topNonAir chunk x z (r.CHUNK_HEIGHT * 16 - 1) ∧
          visibleFullWater r chunk x z y = true)) ∧
    (scanColumn r chunk x z).1.blocks.Pairwise
      (fun a b => a.has_full_water = true → b.has_full_water = true) ∧
    (r.use_preblit_water = true →
      (∀ b ∈ (scanColumn r chunk x z).1.blocks, b.has_full_water = false) ∧
      ∀ (ts dx dz : Int) (st : RenderState),
        ∃ ev, (renderColumn r chunk ts dx dz x z st).log = st.log ++ ev ∧
          ∀ e ∈ ev, e.isBasePath = false) := by
  have hpreblit : r.use_preblit_water = true →
      ∀ b ∈ (scanColumn r chunk x z).1.blocks, b.has_full_water = false := by
    intro hpre
    rcases Nat.eq_zero_or_pos r.CHUNK_HEIGHT with hH | hH
    · rw [scanColumn_of_no_section r chunk x z hH]
      simp [initialScan]
    · rw [scanColumn_eq r chunk x z hH]
      exact scanLoop_preblit_flag r chunk x z hpre _ _ rfl (by simp [initialScan])
  have hlegacy : r.use_preblit_water = false →
      (scanColumn r chunk x z).1.blocks.Pairwise (fun a b => b.pos.y < a.pos.y) ∧
      ∀ b ∈ (scanColumn r chunk x z).1.blocks,
        (b.has_full_water = true ↔
          ∃ y : Nat, b.pos.y ≤ (y : Int) ∧ y ≤ topNonAir chunk x z (r.CHUNK_HEIGHT * 16 - 1) ∧
            visibleFullWater r chunk x z y = true) := by
    intro hleg
    rcases Nat.eq_zero_or_pos r.CHUNK_HEIGHT with hH | hH
    · rw [scanColumn_of_no_section r chunk x z hH]
      simp [initialScan]
    · rw [scanColumn_eq r chunk x z hH, skipAir_eq]
      obtain ⟨rest, h1, h2, h3⟩ := scanLoop_legacy_flag r chunk x z hleg
        (topNonAir chunk x z (r.CHUNK_HEIGHT * 16 - 1) + 1)
        { initialScan chunk x z ((r.CHUNK_HEIGHT * 16 - 1 : Nat) : Int) with
          log := (initialScan chunk x z ((r.CHUNK_HEIGHT * 16 - 1 : Nat) : Int)).log ++
            (heightsDown (topNonAir chunk x z (r.CHUNK_HEIGHT * 16 - 1))
              (r.CHUNK_HEIGHT * 16 - 1)).map (fun (h : Nat) => Event.getBlockID ⟨x, z, h⟩) }
      have hrest : (scanLoop r chunk x z (topNonAir chunk x z (r.CHUNK_HEIGHT * 16 - 1) + 1)
          { initialScan chunk x z ((r.CHUNK_HEIGHT * 16 - 1 : Nat) : Int) with
            log := (initialScan chunk x z ((r.CHUNK_HEIGHT * 16 - 1 : Nat) : Int)).log ++
              (heightsDown (topNonAir chunk x z (r.CHUNK_HEIGHT * 16 - 1))
                (r.CHUNK_HEIGHT * 16 - 1)).map
                  (fun (h : Nat) => Event.getBlockID ⟨x, z, h⟩) }).1.blocks = rest := by
        rw [h1]
        rfl
      dsimp only at hrest ⊢
      rw [hrest]
      refine ⟨h2, fun b hb => ?_⟩
      rw [(h3 b hb).2]
      constructor
      · rintro (h | ⟨y, hy1, hy2, hy3⟩)
        · exact absurd h (by simp [initialScan])
        · exact ⟨y, hy1, by omega, hy3⟩
      · rintro ⟨y, hy1, hy2, hy3⟩
        exact Or.inr ⟨y, hy1, by omega, hy3⟩
  refine ⟨fun b hb => ?_, ?_, fun hpre => ⟨hpreblit hpre, fun ts dx dz st => ?_⟩⟩
  · cases hmode : r.use_preblit_water with
    | true =>
      rw [hpreblit hmode b hb]
      simp
    | false =>
      rw [(hlegacy hmode).2 b hb]
      simp
  · cases hmode : r.use_preblit_water with
    | true => exact pairwise_of_all_false _ (hpreblit hmode)
    | false =>
      obtain ⟨hpair, hchar⟩ := hlegacy hmode
      refine List.Pairwise.imp_of_mem (fun {a b} ha hb hlt hfa => ?_) hpair
      rw [hchar b hb]
      obtain ⟨y, hy1, hy2, hy3⟩ := (hchar a ha).1 hfa
      exact ⟨y, by omega, hy2, hy3⟩
  · unfold renderColumn
    rw [compositeColumn_eq_foldl]
    obtain ⟨ev, h1, h2⟩ := foldl_log_append_mem
      (fun st rb => drawRenderBlock r ts dx dz x z rb st) (fun e => e.isBasePath = false)
      (scanColumn r chunk x z).1.blocks.reverse
      (fun st rb hrb => by
        have hflag := hpreblit hpre rb (List.mem_reverse.1 hrb)
        refine ⟨Event.tileAlphaBlit rb.block (dx + x * ts) (dz + z * ts) ::
          overlayEvents rb (dx + x * ts) (dz + z * ts) r.overlays 0, ?_, ?_⟩
        · unfold drawRenderBlock
          simp only [drawOverlays_log_eq]
          simp
        · intro e he
          rcases List.mem_cons.1 he with h | h
          · rw [h]; rfl
          · exact overlayEvents_not_base rb _ _ _ _ hflag e h)
      { st with log := st.log ++ (scanColumn r chunk x z).1.log }
    refine ⟨(scanColumn r chunk x z).1.log ++ ev, by rw [h1, List.append_assoc], ?_⟩
    intro e he
    rcases List.mem_append.1 he with h | h
    · have := (scanColumn_log_spec r chunk x z e h).1
      cases e <;> simp_all [Event.isBlit, Event.isBasePath]
    · exact h2 e h

set_option maxRecDepth 100000 in
/-- Witness of C19: preblit water mode with maximum depth 5 and a column with two
full water voxels above stone; the column has three samples and none has the
flag. -/
theorem C19_has_full_water_characterised_witness :
    (scanColumn (exampleRenderer true 5 (fun _ => none))
      (exampleChunk [(8, 0), (8, 0), (1, 0)]) 3 5).1.blocks.length = 3 ∧
    (scanColumn (exampleRenderer true 5 (fun _ => none))
      (exampleChunk [(8, 0), (8, 0), (1, 0)]) 3 5).1.blocks.all
      (fun b => b.has_full_water == false) = true :=
  ⟨by decide, List.all_eq_true.2 (fun b hb => beq_iff_eq.2
    (((C19_has_full_water_characterised (exampleRenderer true 5 (fun _ => none))
      (exampleChunk [(8, 0), (8, 0), (1, 0)]) 3 5).2.2 rfl).1 b hb))⟩

end Mapcrafter

